import Mathlib

/-!
# Process management of the ece-391 kernel: a shallow embedding

The development follows `student-distrib/exceptions.c` (PID allocator, PCB
construction, the system calls) and `student-distrib/keyboard.c` (terminal
switching).  C globals become fields of one state record `Kernel`; a pointer to
a PCB is the address of the PCB (a natural number), `NULL` is `none`, and the
pool of PCBs is the map `mem` from addresses to PCB contents.  A system call is
a function from the state to an `Outcome`, which says how control leaves the C
function: an ordinary `return`, the `iret` into user mode at the end of
`sys_execute`, the jump to `HALT_RET_LABEL` made by `sys_halt`, the `ret` into a
saved context made by `terminal_switch`, or a fault (a dereference of `NULL` or
a write past the end of a local array).

Machine words are natural numbers or integers, reduced modulo `2^32` where the C
arithmetic is unsigned.  Segment selectors, I/O ports and the interrupt flag are
not part of the state.
-/

namespace Ece391

/-! ## Constants -/

/-- Number of terminals: `pid_used` is initialised with three rows. -/
def MAX_TERMINALS : Nat := 3

/-- Number of process slots of a terminal: each row of `pid_used` has six
entries, and `get_next_pid` documents the range 0-5. -/
def MAX_PCBS : Nat := 6

/-- Value of a free slot or descriptor: `pid_used` starts all zero and
`terminal_switch` tests a free slot with `!pid_used[..][0]`. -/
def FREE : Nat := 0

/-- Value of a slot or descriptor that is in use. -/
def USED : Nat := 1

/-- Descriptor of the terminal input. -/
def STDIN : Int := 0

/-- Descriptor of the terminal output. -/
def STDOUT : Int := 1

/-- Modelled from the spec: `exceptions.h` is not under src; the first
descriptor that is not reserved (descriptors 0 and 1 are reserved). -/
def PCB_START : Nat := 2

/-- Modelled from the spec: `exceptions.h` is not under src; the descriptor
table has eight entries (`sys_close` rejects `fd > 7`). -/
def PCB_END : Nat := 8

/-- The invalid inode number; `new_pcb` compares it with the failure value
`-1` of `get_next_pid`. -/
def INVALID_INODE : Int := -1

def EIGHT_KB : Nat := 8192

def EIGHT_MB : Nat := 8388608

def FOURKB : Nat := 4096

/-- Base of the PCB storage: `set_pcbs` documents "decreasing 8kB addresses
from 8MB". -/
def PCB_ADDR_BASE : Nat := EIGHT_MB

/-- The space character. -/
def SPACE : Nat := 32

/-- Subtraction of unsigned 32-bit words. -/
def u32sub (a b : Nat) : Nat := (a % 2 ^ 32 + 2 ^ 32 - b % 2 ^ 32) % 2 ^ 32

/-- Conversion of a signed 32-bit word to unsigned, as C does when a signed and
an unsigned word are compared. -/
def toU32 (x : Int) : Nat := (x % 2 ^ 32).toNat

/-- A counting loop `for (i = lo; i < hi; i++) body`. -/
def forLoop {σ : Type} (lo hi : Nat) (body : Nat → σ → σ) (s : σ) : σ :=
  (List.range' lo (hi - lo)).foldl (fun acc i => body i acc) s

/-! ## Data model -/

/-- The driver functions that the operations tables point to. -/
inductive Handler
  | read_file | write_file | open_file | close_file
  | read_dir | write_dir | open_dir | close_dir
  | rtc_read | rtc_write | rtc_open | rtc_close
  | terminal_read | terminal_write | terminal_open | terminal_close
  deriving DecidableEq, Repr

/-- The five operations tables defined at the top of exceptions.c. -/
inductive operations_table_t
  | file_operations | dir_operations | rtc_operations
  | stdin_operations | stdout_operations
  deriving DecidableEq, Repr

namespace operations_table_t

def read : operations_table_t → Option Handler
  | file_operations => some .read_file
  | dir_operations => some .read_dir
  | rtc_operations => some .rtc_read
  | stdin_operations => some .terminal_read
  | stdout_operations => none

def write : operations_table_t → Option Handler
  | file_operations => some .write_file
  | dir_operations => some .write_dir
  | rtc_operations => some .rtc_write
  | stdin_operations => none
  | stdout_operations => some .terminal_write

def open_ : operations_table_t → Option Handler
  | file_operations => some .open_file
  | dir_operations => some .open_dir
  | rtc_operations => some .rtc_open
  | stdin_operations => some .terminal_open
  | stdout_operations => none

def close : operations_table_t → Option Handler
  | file_operations => some .close_file
  | dir_operations => some .close_dir
  | rtc_operations => some .rtc_close
  | stdin_operations => some .terminal_close
  | stdout_operations => none

end operations_table_t

/-- One entry of a descriptor table. -/
structure file_desc_t where
  opt : Option operations_table_t
  inode_number : Int
  file_position : Nat
  flags : Nat
  deriving DecidableEq, Repr

/-- Registers saved in a PCB by `terminal_switch`. -/
structure registers_t where
  esp0 : Nat
  cr3 : Nat
  ebp : Nat
  esp : Nat
  eip : Nat
  deriving DecidableEq, Repr

/-- A process control block.  `parent_task` and `child_task` are pointers;
`arg` is the argument buffer, a byte for each offset. -/
structure pcb_t where
  process_id : Nat
  parent_task : Option Nat
  child_task : Option Nat
  file_array : Nat → file_desc_t
  arg : Nat → Nat
  eip : Nat
  esp : Nat
  ebp : Nat
  registers : registers_t

/-- A directory entry as the file system hands it out. -/
structure dentry_t where
  file_type : Nat
  inode_number : Int
  deriving DecidableEq, Repr

/-- The collaborators and constants that are not under src.  From the read-only
file system (fs.c): the lookup by name, the bytes that `read_data inode offset
length` copies, and the file length.  From lib.c: what `clear` makes of the
display memory.  From paging.c: the value `reset_cr3` loads into `cr3`.  From
exceptions.h and keyboard.h: the size of the character buffers, the four bytes
of the executable magic sequence, the four offsets of the entry point in the
image, and the address of the label `GETEIP`.  `garbage` is the content of
uninitialised stack memory. -/
structure Env where
  read_dentry_by_name : List Nat → Option dentry_t
  read_data : Int → Nat → Nat → List Nat
  read_file_length : Int → Nat
  clear : (Nat → Nat) → (Nat → Nat)
  reset_cr3 : Nat → Nat
  CHAR_BUFF_SIZE : Nat
  MAGIC_NUM_FOR_EXE : Nat → Nat
  MAGIC_NUM_INDEX : Nat → Nat
  GETEIP : Nat
  garbage : Nat → Nat

/-- The globals of the kernel and the machine registers the code touches. -/
structure Kernel where
  current_terminal : Nat
  curr_task : Nat → Option Nat
  pid_used : Nat → Nat → Nat
  PCB_ADDR : Nat → Nat → Nat
  mem : Nat → pcb_t
  tss_esp0 : Nat
  page_slot : Nat
  cr3 : Nat
  esp : Nat
  ebp : Nat
  prog_image : Nat → Nat
  screen_x : Int
  screen_y : Int
  terminal_screenx : Nat → Int
  terminal_screeny : Nat → Int
  video : Nat → Nat
  back_page : Nat → Nat → Nat

/-- How control leaves a kernel function. -/
inductive Outcome
  | ret (v : Int) (s : Kernel)
  | deleg (h : Handler) (fd : Int) (buf : Nat) (nbytes : Int) (s : Kernel)
  | iret (s : Kernel)
  | halt_ret (v : Nat) (s : Kernel)
  | resume (s : Kernel)
  | fault

/-- A store through a pointer to a PCB. -/
def Kernel.wr (s : Kernel) (a : Nat) (f : pcb_t → pcb_t) : Kernel :=
  { s with mem := Function.update s.mem a (f (s.mem a)) }

/-- The store `pid_used[t][i] = v`. -/
def Kernel.set_pid (s : Kernel) (t i v : Nat) : Kernel :=
  { s with pid_used := Function.update s.pid_used t (Function.update (s.pid_used t) i v) }

/-- The store `file_array[i] = e` inside a PCB. -/
def pcb_t.set_fd (p : pcb_t) (i : Nat) (e : file_desc_t) : pcb_t :=
  { p with file_array := Function.update p.file_array i e }

/-! ## The PID allocator and the PCB pool -/

/-- Translation of `set_pcbs`: the table of PCB addresses, filled row by row with
`curr_addr -= EIGHT_KB`. -/
def set_pcbs (s : Kernel) : Kernel :=
  let r := forLoop 0 MAX_TERMINALS
    (fun y acc => forLoop 0 MAX_PCBS
      (fun x (acc : Nat × (Nat → Nat → Nat)) =>
        let a := u32sub acc.1 EIGHT_KB
        (a, Function.update acc.2 y (Function.update (acc.2 y) x a)))
      acc)
    (PCB_ADDR_BASE, s.PCB_ADDR)
  { s with PCB_ADDR := r.2 }

/-- Translation of `get_next_pid`: the first `i < MAX_PCBS` with
`pid_used[current_terminal][i] == FREE`, or `-1`. -/
def get_next_pid (s : Kernel) : Int :=
  match (List.range MAX_PCBS).find? (fun i => s.pid_used s.current_terminal i == FREE) with
  | some i => (i : Int)
  | none => -1

/-- The descriptor entry that `new_pcb` writes into the slots 2..7 and that
`sys_close` leaves behind. -/
def free_entry : file_desc_t :=
  { opt := none, inode_number := INVALID_INODE, file_position := 0, flags := FREE }

/-- Translation of `new_pcb`; the result is the return value and the new
state. -/
def new_pcb (env : Env) (arguments : Nat → Nat) (s : Kernel) : Int × Kernel :=
  let next_pid := get_next_pid s
  if next_pid = INVALID_INODE then (-1, s)
  else
    let pid := next_pid.toNat
    let ct := s.current_terminal
    let s1 := s.set_pid ct pid USED
    let retval := s1.PCB_ADDR ct pid
    let s2 := forLoop PCB_START PCB_END
      (fun i (k : Kernel) => k.wr retval (fun p => p.set_fd i free_entry)) s1
    let s3 := s2.wr retval (fun p => p.set_fd 0
      { opt := some .stdin_operations, inode_number := INVALID_INODE,
        file_position := 0, flags := USED })
    let s4 := s3.wr retval (fun p => p.set_fd 1
      { opt := some .stdout_operations, inode_number := INVALID_INODE,
        file_position := 0, flags := USED })
    let s5 := match s4.curr_task ct with
      | none =>
        s4.wr retval (fun p =>
          { p with parent_task := none, child_task := none, process_id := pid })
      | some cur =>
        let k := s4.wr cur (fun p => { p with child_task := some retval })
        k.wr retval (fun p =>
          { p with parent_task := some cur, child_task := none, process_id := pid })
    let s6 := forLoop 0 env.CHAR_BUFF_SIZE
      (fun i (k : Kernel) => k.wr retval
        (fun p => { p with arg := Function.update p.arg i (arguments i) })) s5
    (next_pid, { s6 with curr_task := Function.update s6.curr_task ct (some retval) })

/-! ## Descriptor system calls -/

/-- What `sys_read` and `sys_write` do with the descriptor table and the
operations tables, in the order in which they do it. -/
inductive Ev
  | index (fd : Int)
  | call (h : Handler)
  deriving DecidableEq, Repr

/-- The outcome of a call together with the accesses it made. -/
structure Traced where
  events : List Ev
  out : Outcome

/-- Translation of `sys_read`.  The disjunction of the first test is evaluated
left to right and stops at the first true operand, so the descriptor table is
read only when `fd` has passed the range tests. -/
def sys_read (fd : Int) (buf : Nat) (nbytes : Int) (s : Kernel) : Traced :=
  if fd < STDIN ∨ fd ≥ (PCB_END : Int) ∨ fd = STDOUT ∨ nbytes ≤ 0 then
    { events := [], out := .ret (-1) s }
  else
    match s.curr_task s.current_terminal with
    | none => { events := [], out := .fault }
    | some c =>
      let e := (s.mem c).file_array fd.toNat
      if e.flags = FREE then { events := [.index fd], out := .ret (-1) s }
      else
        match e.opt with
        | none => { events := [.index fd, .index fd], out := .fault }
        | some t =>
          match t.read with
          | none => { events := [.index fd, .index fd], out := .ret (-1) s }
          | some h =>
            { events := [.index fd, .index fd, .index fd, .call h],
              out := .deleg h fd buf nbytes s }

/-- Translation of `sys_write`. -/
def sys_write (fd : Int) (buf : Nat) (nbytes : Int) (s : Kernel) : Traced :=
  if fd ≤ STDIN ∨ fd ≥ (PCB_END : Int) then
    { events := [], out := .ret (-1) s }
  else
    match s.curr_task s.current_terminal with
    | none => { events := [], out := .fault }
    | some c =>
      let e := (s.mem c).file_array fd.toNat
      if e.flags = FREE then { events := [.index fd], out := .ret (-1) s }
      else
        match e.opt with
        | none => { events := [.index fd, .index fd], out := .fault }
        | some t =>
          match t.write with
          | none => { events := [.index fd, .index fd], out := .ret (-1) s }
          | some h =>
            { events := [.index fd, .index fd, .index fd, .call h],
              out := .deleg h fd buf nbytes s }

/-- The operations table that `sys_open` binds for a file type. -/
def opt_of_type (file_type : Nat) : operations_table_t :=
  match file_type with
  | 0 => .rtc_operations
  | 1 => .dir_operations
  | 2 => .file_operations
  | _ => .stdin_operations

/-- Translation of `sys_open`.  The file name is the byte string that
`filename` points to.  The driver hooks called at the end of each case
(`rtc_open`, `open_dir`, `open_file`, `terminal_open`) are outside the PCB
pool: section 5 of the specification names the system calls, the terminal
switch and the keyboard handler as its only writers, and `terminal_open` in
keyboard.c only returns 0. -/
def sys_open (env : Env) (filename : List Nat) (s : Kernel) : Outcome :=
  match env.read_dentry_by_name filename with
  | none => .ret (-1) s
  | some temp =>
    match s.curr_task s.current_terminal with
    | none => .fault
    | some c =>
      match (List.range' PCB_START (PCB_END - PCB_START)).find?
          (fun fd => ((s.mem c).file_array fd).flags == FREE) with
      | none => .ret (-1) s
      | some curr_available =>
        let s1 := s.wr c (fun p => p.set_fd curr_available
          { p.file_array curr_available with inode_number := temp.inode_number })
        let s2 := s1.wr c (fun p => p.set_fd curr_available
          { p.file_array curr_available with flags := USED })
        let s3 := s2.wr c (fun p => p.set_fd curr_available
          { p.file_array curr_available with opt := some (opt_of_type temp.file_type) })
        .ret (curr_available : Int) s3

/-- Translation of `sys_close`. -/
def sys_close (fd : Int) (s : Kernel) : Outcome :=
  if fd ≤ STDIN ∨ fd = STDOUT ∨ fd > 7 then .ret (-1) s
  else
    match s.curr_task s.current_terminal with
    | none => .fault
    | some c =>
      if ((s.mem c).file_array fd.toNat).flags = FREE then .ret (-1) s
      else
        let s1 := s.wr c (fun p => p.set_fd fd.toNat
          { p.file_array fd.toNat with opt := none })
        let s2 := s1.wr c (fun p => p.set_fd fd.toNat
          { p.file_array fd.toNat with inode_number := INVALID_INODE })
        let s3 := s2.wr c (fun p => p.set_fd fd.toNat
          { p.file_array fd.toNat with file_position := 0 })
        let s4 := s3.wr c (fun p => p.set_fd fd.toNat
          { p.file_array fd.toNat with flags := FREE })
        .ret 0 s4

/-- Modelled from the spec: lib.c is not under src; `strlen` is the number of
bytes before the first NUL.  A byte string is given as the list of its bytes,
with a NUL understood after the last one. -/
def strlen (str : List Nat) : Nat := (str.takeWhile (fun b => b != 0)).length

/-- Length of the string held in a buffer of `cap` bytes: the offset of the
first NUL, or `none` when the buffer holds no NUL (the read then runs past the
end of the buffer). -/
def strlen_buf (cap : Nat) (m : Nat → Nat) : Option Nat :=
  (List.range cap).find? (fun i => m i == 0)

/-- Modelled from the spec: lib.c is not under src; `strncpy` copies the bytes
of `src` up to its NUL or up to `n` bytes and fills the rest of the `n` bytes
with NUL. -/
def strncpy (dest : Nat → Nat) (src : List Nat) (n : Nat) : Nat → Nat :=
  let k := min (strlen src) n
  let d1 := forLoop 0 k (fun i d => Function.update d i (src.getD i 0)) dest
  forLoop k n (fun i d => Function.update d i 0) d1

/-- Translation of `sys_getargs`.  `buf` is the content of the user buffer
(`none` for a null pointer); the result is the return value and the content of
the buffer afterwards, or `none` when the code faults.  `nbytes <= arg_length`
compares a signed with an unsigned word, so `nbytes` converts to unsigned. -/
def sys_getargs (env : Env) (buf : Option (Nat → Nat)) (nbytes : Int) (s : Kernel) :
    Option (Int × Option (Nat → Nat)) :=
  match buf with
  | none => some (-1, none)
  | some b =>
    let b1 := forLoop 0 nbytes.toNat (fun i d => Function.update d i 0) b
    match s.curr_task s.current_terminal with
    | none => none
    | some c =>
      let arguments := (s.mem c).arg
      if arguments 0 = 0 then some (-1, some b1)
      else
        match strlen_buf env.CHAR_BUFF_SIZE arguments with
        | none => none
        | some arg_length =>
          if toU32 nbytes ≤ arg_length then some (-1, some b1)
          else
            some (0, some (forLoop 0 arg_length
              (fun i d => Function.update d i (arguments i)) b1))

/-! ## execute and halt -/

/-- Modelled from the spec: lib.c is not under src; `memcpy` copies `n` bytes. -/
def memcpy (dest src : Nat → Nat) (n : Nat) : Nat → Nat :=
  forLoop 0 n (fun j d => Function.update d j (src j)) dest

/-- The bytes that a read of the file system leaves in a buffer: the bytes
copied, over the previous content. -/
def overlay (bytes : List Nat) (m : Nat → Nat) : Nat → Nat :=
  fun j => if j < bytes.length then bytes.getD j 0 else m j

/-- The string held in a buffer of `cap` bytes, read up to its first NUL. -/
def cstr (cap : Nat) (m : Nat → Nat) : List Nat :=
  ((List.range cap).map m).takeWhile (fun b => b != 0)

/-- The first loop of `sys_execute`: the index at which the loop stops and
`argsflag`. -/
def find_space (command : List Nat) : Nat × Nat :=
  match (List.range (strlen command)).find? (fun i => command.getD i 0 == SPACE) with
  | some i => (i, 1)
  | none => (strlen command, 0)

/-- The parsing part of `sys_execute` (the locals `program` and `arguments`):
the program name as a string and the content of `arguments`.  The result is
`none` when a store leaves one of the two local arrays. -/
def parse_command (env : Env) (command : List Nat) : Option (List Nat × (Nat → Nat)) :=
  let i := (find_space command).1
  let argsflag := (find_space command).2
  let cap := env.CHAR_BUFF_SIZE
  let arguments := forLoop 0 cap (fun j d => Function.update d j 0) env.garbage
  if argsflag = 1 then
    if cap ≤ i then none
    else
      let program := Function.update (strncpy env.garbage command i) i 0
      let i1 := i + 1
      let n := strlen command - i1
      if cap < n then none
      else some (cstr cap program, strncpy arguments (command.drop i1) n)
  else
    if cap < strlen command + 1 then none
    else some (cstr cap (strncpy env.garbage command (strlen command + 1)), arguments)

/-- The entry point that `sys_execute` reads from the loaded image. -/
def entry_point (env : Env) (progbuf : Nat → Nat) : Nat :=
  ((progbuf (env.MAGIC_NUM_INDEX 3) % 256) * 2 ^ 24
    + (progbuf (env.MAGIC_NUM_INDEX 2) % 256) * 2 ^ 16
    + (progbuf (env.MAGIC_NUM_INDEX 1) % 256) * 2 ^ 8
    + progbuf (env.MAGIC_NUM_INDEX 0) % 256) % 2 ^ 32

/-- The kernel stack top that `sys_execute` and `sys_halt` store in
`tss.esp0`. -/
def esp0_of (terminal pid : Nat) : Nat :=
  u32sub EIGHT_MB (((8 * terminal + pid) * EIGHT_KB) % 2 ^ 32)

/-- Translation of `sys_execute`.  `command` is `none` for a null pointer. -/
def sys_execute (env : Env) (command : Option (List Nat)) (s : Kernel) : Outcome :=
  match command with
  | none => .ret (-1) s
  | some cmd =>
    match parse_command env cmd with
    | none => .fault
    | some (program, arguments) =>
      match env.read_dentry_by_name program with
      | none => .ret (-1) s
      | some fileinfo =>
        let buffer := overlay (env.read_data fileinfo.inode_number 0 4) env.garbage
        if buffer 0 ≠ env.MAGIC_NUM_FOR_EXE 0 ∨ buffer 1 ≠ env.MAGIC_NUM_FOR_EXE 1
            ∨ buffer 2 ≠ env.MAGIC_NUM_FOR_EXE 2 ∨ buffer 3 ≠ env.MAGIC_NUM_FOR_EXE 3 then
          .ret (-1) s
        else if get_next_pid s = -1 then .ret (-1) s
        else
          let ct := s.current_terminal
          let slot := match s.curr_task ct with
            | none => 8 * ct
            | some _ => 8 * ct + (get_next_pid s).toNat
          let s1 := { s with page_slot := slot, cr3 := env.reset_cr3 s.cr3 }
          let filelength := env.read_file_length fileinfo.inode_number
          let image := overlay (env.read_data fileinfo.inode_number 0 filelength) s1.prog_image
          let s2 := { s1 with prog_image := image }
          let s3 := (new_pcb env arguments s2).2
          match s3.curr_task ct with
          | none => .fault
          | some t =>
            let s4 := s3.wr t (fun p => { p with eip := entry_point env s3.prog_image })
            let s5 := s4.wr t (fun p => { p with esp := s4.esp })
            let s6 := s5.wr t (fun p => { p with ebp := s5.ebp })
            .iret { s6 with tss_esp0 := esp0_of ct (s6.mem t).process_id }

/-- The bytes of the string "shell". -/
def shell : List Nat := [115, 104, 101, 108, 108]

/-- The loop of `sys_halt` that closes the descriptors in the list, in order;
`none` when a call faults. -/
def close_all (s : Kernel) : List Nat → Option Kernel
  | [] => some s
  | i :: rest =>
    match sys_close (i : Int) s with
    | .ret _ s1 => close_all s1 rest
    | _ => none

/-- The part of `sys_halt` after the test for a root task: the parent becomes
the active task and control jumps to `HALT_RET_LABEL`. -/
def halt_tail (env : Env) (status : Nat) (s : Kernel) : Outcome :=
  let ct := s.current_terminal
  match s.curr_task ct with
  | none => .fault
  | some c =>
    let s1 := { s with curr_task := Function.update s.curr_task ct (s.mem c).parent_task }
    match s1.curr_task ct with
    | none => .fault
    | some p =>
      let oldtask := (s1.mem p).child_task
      let s2 := s1.wr p (fun q => { q with child_task := none })
      let s3 := { s2 with page_slot := 8 * ct + (s2.mem p).process_id,
                          cr3 := env.reset_cr3 s2.cr3 }
      let s4 := { s3 with tss_esp0 := esp0_of ct (s3.mem p).process_id }
      match oldtask with
      | none => .fault
      | some o => .halt_ret (status % 256) { s4 with esp := (s4.mem o).esp, ebp := (s4.mem o).ebp }

/-- Translation of `sys_halt`; `status` is an unsigned byte. -/
def sys_halt (env : Env) (status : Nat) (s : Kernel) : Outcome :=
  let ct := s.current_terminal
  match s.curr_task ct with
  | none => .fault
  | some c =>
    let s1 := s.set_pid ct (s.mem c).process_id FREE
    match close_all s1 (List.range' PCB_START (PCB_END - PCB_START)) with
    | none => .fault
    | some s2 =>
      match s2.curr_task ct with
      | none => .fault
      | some c2 =>
        match (s2.mem c2).parent_task with
        | none =>
          let s3 := { s2 with curr_task := Function.update s2.curr_task ct none }
          match sys_execute env (some shell) s3 with
          | .ret _ s4 => halt_tail env status s4
          | o => o
        | some _ => halt_tail env status s2

/-! ## Terminal switching -/

/-- The part of `terminal_switch` after the test for a running task: the
display and the context of the incoming terminal are restored. -/
def switch_tail (newpage : Nat) (s : Kernel) : Outcome :=
  let ct := s.current_terminal
  let s1 := { s with video := memcpy s.video (s.back_page newpage) FOURKB }
  let s2 := { s1 with screen_x := s1.terminal_screenx ct }
  let s3 := { s2 with screen_y := s2.terminal_screeny ct }
  match s3.curr_task ct with
  | none => .fault
  | some c =>
    let r := (s3.mem c).registers
    .resume { s3 with tss_esp0 := r.esp0, cr3 := r.cr3, ebp := r.ebp,
                      esp := (r.esp + 24) % 2 ^ 32 }

/-- The first part of `terminal_switch`, up to `current_terminal =
newterminalindex`: the cursor of the outgoing terminal is saved, the context of
its task `c` is saved in the PCB, the display is copied into its backing page
and `n` becomes the current terminal. -/
def switch_save (env : Env) (n c : Nat) (s : Kernel) : Kernel :=
  let ct := s.current_terminal
  let s1 := { s with terminal_screenx := Function.update s.terminal_screenx ct s.screen_x }
  let s2 := { s1 with terminal_screeny := Function.update s1.terminal_screeny ct s1.screen_y }
  let s3 := s2.wr c (fun p => { p with registers := { p.registers with esp0 := s2.tss_esp0 } })
  let s4 := s3.wr c (fun p =>
    { p with registers :=
        { p.registers with cr3 := s3.cr3, ebp := s3.ebp, esp := u32sub s3.esp 24 } })
  let s5 := s4.wr c (fun p => { p with registers := { p.registers with eip := env.GETEIP } })
  let page := memcpy (s5.back_page ct) s5.video FOURKB
  let s6 := { s5 with back_page := Function.update s5.back_page ct page }
  { s6 with current_terminal := n }

/-- The statements of `terminal_switch` before the `sys_execute` of a new
shell: `clear()` and the reset of the cursor. -/
def switch_fresh (env : Env) (s : Kernel) : Kernel :=
  let s8 := { s with video := env.clear s.video }
  { s8 with screen_x := 0, screen_y := 0 }

/-- Translation of `terminal_switch`. -/
def terminal_switch (env : Env) (newterminalindex : Int) (s : Kernel) : Outcome :=
  if newterminalindex < 0 ∨ newterminalindex > 2 then .ret 0 s
  else
    let n := newterminalindex.toNat
    match s.curr_task s.current_terminal with
    | none => .fault
    | some c =>
      let s7 := switch_save env n c s
      if s7.pid_used n 0 = 0 then
        match sys_execute env (some shell) (switch_fresh env s7) with
        | .ret _ s10 => switch_tail n s10
        | o => o
      else switch_tail n s7

/-! ## Concrete inputs -/

/-- The bytes of the string "testprog". -/
def testprog : List Nat := [116, 101, 115, 116, 112, 114, 111, 103]

/-- The bytes of the string "arg1 arg2". -/
def arg1_arg2 : List Nat := [97, 114, 103, 49, 32, 97, 114, 103, 50]

/-- The bytes of the command "testprog arg1 arg2". -/
def testprog_command : List Nat := testprog ++ [SPACE] ++ arg1_arg2

/-- An executable image of 28 bytes: the magic sequence, padding, and the
entry point 0x08048000 at the offsets 24..27. -/
def demo_image : List Nat :=
  [127, 69, 76, 70, 0, 0, 0, 0, 0, 0, 0, 0, 0, 0, 0, 0, 0, 0, 0, 0, 0, 0, 0, 0, 0, 128, 4, 8]

/-- A file system with the two executables "shell" and "testprog", and
character buffers of 32 bytes. -/
def demo_env : Env where
  read_dentry_by_name := fun name =>
    if name = shell then some { file_type := 2, inode_number := 1 }
    else if name = testprog then some { file_type := 2, inode_number := 2 }
    else none
  read_data := fun _ offset length => (demo_image.drop offset).take length
  read_file_length := fun _ => 28
  clear := fun _ _ => 32
  reset_cr3 := fun c => c
  CHAR_BUFF_SIZE := 32
  MAGIC_NUM_FOR_EXE := fun k => demo_image.getD k 0
  MAGIC_NUM_INDEX := fun k => 24 + k
  GETEIP := 4198400
  garbage := fun _ => 170

/-- A PCB whose memory has never been written. -/
def blank_pcb : pcb_t where
  process_id := 0
  parent_task := none
  child_task := none
  file_array := fun _ => { opt := none, inode_number := 0, file_position := 0, flags := 0 }
  arg := fun _ => 0
  eip := 0
  esp := 0
  ebp := 0
  registers := { esp0 := 0, cr3 := 0, ebp := 0, esp := 0, eip := 0 }

/-- The state after boot, before the first shell: the globals are zero and
`set_pcbs` has run. -/
def boot : Kernel :=
  set_pcbs
    { current_terminal := 0
      curr_task := fun _ => none
      pid_used := fun _ _ => 0
      PCB_ADDR := fun _ _ => 0
      mem := fun _ => blank_pcb
      tss_esp0 := 0
      page_slot := 0
      cr3 := 0
      esp := 8380000
      ebp := 8380040
      prog_image := fun _ => 0
      screen_x := 0
      screen_y := 0
      terminal_screenx := fun _ => 0
      terminal_screeny := fun _ => 0
      video := fun _ => 0
      back_page := fun _ _ => 0 }

/-- The state an outcome carries; the state `s0` for a fault. -/
def Outcome.state (s0 : Kernel) : Outcome → Kernel
  | .ret _ s => s
  | .deleg _ _ _ _ s => s
  | .iret s => s
  | .halt_ret _ s => s
  | .resume s => s
  | .fault => s0

/-- The state in which the first shell of terminal 0 runs. -/
def shell_running : Kernel := (sys_execute demo_env (some shell) boot).state boot

/-- The state in which "testprog arg1 arg2", started by the shell of terminal
0, runs. -/
def testprog_running : Kernel :=
  (sys_execute demo_env (some testprog_command) shell_running).state boot

/-- The state in which the shell of terminal 0 has opened the file "shell". -/
def shell_open : Kernel := (sys_open demo_env shell shell_running).state boot

/-! ## The keyboard driver

The globals of keyboard.c form the record `Kbd`; `current_terminal` is the
global that `terminal_switch` stores to.  The handler returns the new globals,
the indices at which it stored into the line buffer `kb_buffer` of the current
terminal, and the calls it made out of the driver (display primitives,
`terminal_switch`, the `int $0x80` that halts the task), in order. -/

/-- The constants of keyboard.h, which is not under src: the size of the line
buffers, the scancodes the handler tests for, the mask of the release bit and
the table `KBkeys` from (modifier row, scancode) to characters.
`keycode_garbage` is the content of the uninitialised local `keycode`. -/
structure KbEnv where
  MAXBUFLEN : Nat
  LCTRL_ON : Nat
  LCTRL_OFF : Nat
  LSHIFT_ON : Nat
  LSHIFT_OFF : Nat
  RSHIFT_ON : Nat
  RSHIFT_OFF : Nat
  LALT_ON : Nat
  LALT_OFF : Nat
  CAPSLOCK : Nat
  ENTER : Nat
  BACKSPACE : Nat
  KB_PRESS_MASK : Nat
  L : Nat
  C : Nat
  F1 : Nat
  F2 : Nat
  F3 : Nat
  TAB : Nat
  KBkeys : Nat → Nat → Nat
  keycode_garbage : Nat

/-- The modifier flags `keyboard_status`. -/
structure kb_flags_t where
  ctrl : Bool
  shift : Bool
  alt : Bool
  capslock : Bool
  deriving DecidableEq, Repr

/-- The globals of keyboard.c. -/
structure Kbd where
  current_terminal : Nat
  kbbuf_index : Nat → Nat
  kb_buffer : Nat → Nat → Nat
  out_buffer : Nat → Nat → Nat
  kb_buf_read : Nat → Nat
  keyboard_status : kb_flags_t

/-- A call that leaves the keyboard driver. -/
inductive KbCall
  | putc (c : Nat)
  | update_cursor
  | scroll_to_top
  | update_attrib
  | text_color (c : Nat)
  | terminal_switch (n : Nat)
  | halt (status : Nat)
  deriving DecidableEq, Repr

/-- What one run of `keyboard_handler` does. -/
structure KbStep where
  kbd : Kbd
  stores : List Nat
  calls : List KbCall

/-- The line feed character. -/
def LINE_FEED : Nat := 10

/-- Translation of `clear_buffer`. -/
def clear_buffer (kenv : KbEnv) (clear_keyboard : Bool) (k : Kbd) : Kbd :=
  let ct := k.current_terminal
  if clear_keyboard then
    let b := forLoop 0 kenv.MAXBUFLEN (fun i d => Function.update d i 0) (k.kb_buffer ct)
    let k1 := { k with kb_buffer := Function.update k.kb_buffer ct b }
    { k1 with kbbuf_index := Function.update k1.kbbuf_index ct 0 }
  else
    let b := forLoop 0 kenv.MAXBUFLEN (fun i d => Function.update d i 0) (k.out_buffer ct)
    let k1 := { k with out_buffer := Function.update k.out_buffer ct b }
    { k1 with kb_buf_read := Function.update k1.kb_buf_read ct 0 }

/-- Translation of `terminal_read` on a line that may or may not be ready.
`buf` is the content of the caller's buffer (`none` for a null pointer).  The
result is `none` while the wait loop spins (`kb_buf_read` is 0); otherwise it is
the return value, the content of the buffer and the new globals. -/
def terminal_read (kenv : KbEnv) (buf : Option (Nat → Nat)) (length : Int) (k : Kbd) :
    Option (Int × Option (Nat → Nat) × Kbd) :=
  match buf with
  | none => some (-1, none, k)
  | some b =>
    if length < 0 then some (-1, some b, k)
    else
      let ct := k.current_terminal
      if k.kb_buf_read ct = 0 then none
      else
        let n : Int := if length < (kenv.MAXBUFLEN : Int) then length else (kenv.MAXBUFLEN : Int)
        let b1 := memcpy b (k.out_buffer ct) n.toNat
        let k1 := clear_buffer kenv false k
        let k2 := { k1 with kb_buf_read := Function.update k1.kb_buf_read ct 0 }
        some (n, some b1, k2)

/-- The tail of the default case of `keyboard_handler`, "put into buffer". -/
def put_into_buffer (kenv : KbEnv) (keycode : Nat) (calls : List KbCall) (k : Kbd) : KbStep :=
  let ct := k.current_terminal
  let idx := k.kbbuf_index ct
  if idx < kenv.MAXBUFLEN ∧ keycode ≠ 0 then
    let k1 := { k with kb_buffer :=
                  Function.update k.kb_buffer ct (Function.update (k.kb_buffer ct) idx keycode) }
    let k2 := { k1 with kbbuf_index := Function.update k1.kbbuf_index ct ((idx + 1) % 256) }
    { kbd := k2, stores := [idx], calls := calls ++ [.putc keycode, .update_cursor] }
  else { kbd := k, stores := [], calls := calls }

/-- The default case of `keyboard_handler`, for a scancode without the release
bit. -/
def handle_key (kenv : KbEnv) (scancode : Nat) (k : Kbd) : KbStep :=
  let st := k.keyboard_status
  if st.ctrl ∧ scancode = kenv.L then
    { kbd := k, stores := [], calls := [.scroll_to_top, .update_cursor, .update_attrib] }
  else if st.ctrl ∧ scancode = kenv.C then
    { kbd := clear_buffer kenv true k, stores := [], calls := [.halt 1] }
  else if st.alt ∧ scancode = kenv.F1 then
    { kbd := { k with current_terminal := 0 }, stores := [], calls := [.terminal_switch 0] }
  else if st.alt ∧ scancode = kenv.F2 then
    { kbd := { k with current_terminal := 1 }, stores := [], calls := [.terminal_switch 1] }
  else if st.alt ∧ scancode = kenv.F3 then
    { kbd := { k with current_terminal := 2 }, stores := [], calls := [.terminal_switch 2] }
  else if st.ctrl ∧ st.shift ∧ scancode = kenv.TAB then
    put_into_buffer kenv kenv.keycode_garbage [.text_color 1] k
  else if st.ctrl ∧ scancode = kenv.TAB then
    put_into_buffer kenv kenv.keycode_garbage [.text_color 0] k
  else if ¬ st.shift ∧ ¬ st.capslock then
    put_into_buffer kenv (kenv.KBkeys 0 scancode) [] k
  else if st.shift ∧ ¬ st.capslock then
    put_into_buffer kenv (kenv.KBkeys 1 scancode) [] k
  else if ¬ st.shift ∧ st.capslock then
    put_into_buffer kenv (kenv.KBkeys 2 scancode) [] k
  else
    put_into_buffer kenv (kenv.KBkeys 3 scancode) [] k

/-- Translation of `keyboard_handler` for a scancode read from the keyboard
port. -/
def keyboard_handler (kenv : KbEnv) (scancode : Nat) (k : Kbd) : KbStep :=
  let ct := k.current_terminal
  let st := k.keyboard_status
  if scancode = kenv.LCTRL_ON then
    { kbd := { k with keyboard_status := { st with ctrl := true } }, stores := [], calls := [] }
  else if scancode = kenv.LCTRL_OFF then
    { kbd := { k with keyboard_status := { st with ctrl := false } }, stores := [], calls := [] }
  else if scancode = kenv.LSHIFT_ON then
    { kbd := { k with keyboard_status := { st with shift := true } }, stores := [], calls := [] }
  else if scancode = kenv.LSHIFT_OFF then
    { kbd := { k with keyboard_status := { st with shift := false } }, stores := [], calls := [] }
  else if scancode = kenv.RSHIFT_ON then
    { kbd := { k with keyboard_status := { st with shift := true } }, stores := [], calls := [] }
  else if scancode = kenv.RSHIFT_OFF then
    { kbd := { k with keyboard_status := { st with shift := false } }, stores := [], calls := [] }
  else if scancode = kenv.LALT_ON then
    { kbd := { k with keyboard_status := { st with alt := true } }, stores := [], calls := [] }
  else if scancode = kenv.LALT_OFF then
    { kbd := { k with keyboard_status := { st with alt := false } }, stores := [], calls := [] }
  else if scancode = kenv.CAPSLOCK then
    { kbd := { k with keyboard_status := { st with capslock := !st.capslock } },
      stores := [], calls := [] }
  else if scancode = kenv.ENTER then
    let idx := k.kbbuf_index ct
    let k1 := { k with kb_buffer :=
                  Function.update k.kb_buffer ct (Function.update (k.kb_buffer ct) idx LINE_FEED) }
    let ob := forLoop 0 (k1.kbbuf_index ct)
      (fun i d => Function.update d i (k1.kb_buffer ct i)) (k1.out_buffer ct)
    let k2 := { k1 with out_buffer := Function.update k1.out_buffer ct ob }
    let k3 := clear_buffer kenv true k2
    let k4 := { k3 with kb_buf_read := Function.update k3.kb_buf_read ct 1 }
    { kbd := k4, stores := [idx], calls := [.putc LINE_FEED, .update_cursor] }
  else if scancode = kenv.BACKSPACE then
    if 0 < k.kbbuf_index ct then
      let idx := k.kbbuf_index ct - 1
      let k1 := { k with kbbuf_index := Function.update k.kbbuf_index ct idx }
      let k2 := { k1 with kb_buffer :=
                    Function.update k1.kb_buffer ct (Function.update (k1.kb_buffer ct) idx 0) }
      { kbd := k2, stores := [idx], calls := [.putc SPACE, .update_cursor] }
    else { kbd := k, stores := [], calls := [] }
  else if scancode &&& kenv.KB_PRESS_MASK = 0 then handle_key kenv scancode k
  else { kbd := k, stores := [], calls := [] }

/-- The handler run on a sequence of scancodes: the final globals and all the
stores into the line buffer, in order. -/
def kb_run (kenv : KbEnv) : List Nat → Kbd → Kbd × List Nat
  | [], k => (k, [])
  | sc :: rest, k =>
    let r := keyboard_handler kenv sc k
    let t := kb_run kenv rest r.kbd
    (t.1, r.stores ++ t.2)

/-- The keyboard constants of scancode set 1, a line buffer of 128 bytes ("buffer
size 128" in the driver notes) and a key table that knows the keys `a` and
`b`. -/
def demo_kenv : KbEnv where
  MAXBUFLEN := 128
  LCTRL_ON := 29
  LCTRL_OFF := 157
  LSHIFT_ON := 42
  LSHIFT_OFF := 170
  RSHIFT_ON := 54
  RSHIFT_OFF := 182
  LALT_ON := 56
  LALT_OFF := 184
  CAPSLOCK := 58
  ENTER := 28
  BACKSPACE := 14
  KB_PRESS_MASK := 128
  L := 38
  C := 46
  F1 := 59
  F2 := 60
  F3 := 61
  TAB := 15
  KBkeys := fun row sc =>
    if sc = 30 then (if row = 0 then 97 else 65)
    else if sc = 48 then (if row = 0 then 98 else 66)
    else 0
  keycode_garbage := 0

/-- The globals of keyboard.c after `keyboard_init`: zeroed buffers, no
modifier, terminal 0. -/
def kbd_init : Kbd where
  current_terminal := 0
  kbbuf_index := fun _ => 0
  kb_buffer := fun _ _ => 0
  out_buffer := fun _ _ => 0
  kb_buf_read := fun _ => 0
  keyboard_status := { ctrl := false, shift := false, alt := false, capslock := false }

/-- The scancodes of the keys `a`, `b` and ENTER. -/
def line_ab : List Nat := [30, 48, 28]

/-- The content of the PCB that `new_pcb` leaves at the address it chose, in
terms of the previous content `old` of that memory. -/
def pcb_image (env : Env) (old : pcb_t) (pid : Nat) (parent : Option Nat)
    (arguments : Nat → Nat) : pcb_t :=
  { old with
    process_id := pid
    parent_task := parent
    child_task := none
    file_array := fun j =>
      if j = 1 then
        { opt := some .stdout_operations, inode_number := INVALID_INODE,
          file_position := 0, flags := USED }
      else if j = 0 then
        { opt := some .stdin_operations, inode_number := INVALID_INODE,
          file_position := 0, flags := USED }
      else if PCB_START ≤ j ∧ j < PCB_END then free_entry
      else old.file_array j
    arg := fun j => if j < env.CHAR_BUFF_SIZE then arguments j else old.arg j }

/-- The state in which `sys_execute` enters user mode, in closed form: the file
is `d`, the argument buffer is `arguments` and the slot chosen is `i`.
`sys_execute_ok` proves that `sys_execute` ends in this state. -/
def exec_state (env : Env) (s : Kernel) (d : dentry_t) (arguments : Nat → Nat)
    (i : Nat) : Kernel :=
  let ct := s.current_terminal
  let a := s.PCB_ADDR ct i
  let image :=
    overlay (env.read_data d.inode_number 0 (env.read_file_length d.inode_number)) s.prog_image
  let m : Nat → pcb_t :=
    match s.curr_task ct with
    | none => s.mem
    | some cur => Function.update s.mem cur { s.mem cur with child_task := some a }
  { s with
    page_slot := (match s.curr_task ct with
      | none => 8 * ct
      | some _ => 8 * ct + i)
    cr3 := env.reset_cr3 s.cr3
    prog_image := image
    pid_used := Function.update s.pid_used ct (Function.update (s.pid_used ct) i USED)
    curr_task := Function.update s.curr_task ct (some a)
    mem := Function.update m a
      { pcb_image env (s.mem a) i (s.curr_task ct) arguments with
        eip := entry_point env image, esp := s.esp, ebp := s.ebp }
    tss_esp0 := esp0_of ct i }

/-- The content of the local array `arguments` of `sys_execute` after the
parsing of a command whose text after the first space is `rest`. -/
def args_buffer (env : Env) (rest : List Nat) : Nat → Nat :=
  fun j =>
    if j < rest.length then rest.getD j 0
    else if j < env.CHAR_BUFF_SIZE then 0 else env.garbage j

/-- The effect of one `sys_close(i)` of the loop of `sys_halt` on a descriptor
table. -/
def close_fd (fa : Nat → file_desc_t) (i : Nat) : Nat → file_desc_t :=
  if (fa i).flags = FREE then fa else Function.update fa i free_entry

/-- A scancode that the handler treats as a printable key when no modifier is
held: it is none of the scancodes of the `switch`, it has no release bit, and
the first row of the key table gives it a character. -/
def plain_key (kenv : KbEnv) (sc : Nat) : Prop :=
  sc ≠ kenv.LCTRL_ON ∧ sc ≠ kenv.LCTRL_OFF ∧ sc ≠ kenv.LSHIFT_ON ∧ sc ≠ kenv.LSHIFT_OFF ∧
  sc ≠ kenv.RSHIFT_ON ∧ sc ≠ kenv.RSHIFT_OFF ∧ sc ≠ kenv.LALT_ON ∧ sc ≠ kenv.LALT_OFF ∧
  sc ≠ kenv.CAPSLOCK ∧ sc ≠ kenv.ENTER ∧ sc ≠ kenv.BACKSPACE ∧
  sc &&& kenv.KB_PRESS_MASK = 0 ∧ kenv.KBkeys 0 sc ≠ 0

/-- The scancode `ENTER` reaches its case of the `switch`: it differs from the
scancodes of the cases before it. -/
def enter_key (kenv : KbEnv) : Prop :=
  kenv.ENTER ≠ kenv.LCTRL_ON ∧ kenv.ENTER ≠ kenv.LCTRL_OFF ∧ kenv.ENTER ≠ kenv.LSHIFT_ON ∧
  kenv.ENTER ≠ kenv.LSHIFT_OFF ∧ kenv.ENTER ≠ kenv.RSHIFT_ON ∧ kenv.ENTER ≠ kenv.RSHIFT_OFF ∧
  kenv.ENTER ≠ kenv.LALT_ON ∧ kenv.ENTER ≠ kenv.LALT_OFF ∧ kenv.ENTER ≠ kenv.CAPSLOCK

/-- No modifier key is held and caps lock is off. -/
def no_modifier (k : Kbd) : Prop :=
  k.keyboard_status = { ctrl := false, shift := false, alt := false, capslock := false }

/-! ## The states in which the kernel calls execute -/

/-- The `k`-th PCB on the path that starts at the PCB at address `c` and
follows the `parent_task` pointers; `none` past a PCB without a parent. -/
def ancestor (s : Kernel) : Nat → Nat → Option Nat
  | 0, c => some c
  | k + 1, c =>
    match (s.mem c).parent_task with
    | none => none
    | some p => ancestor s k p

/-- Modelled from the spec: kernel.c is not under src.  Before the first
execute no terminal has an active task and no slot is in use: `curr_task` is a
global without an initialiser and `pid_used` is initialised to zeros. -/
def at_boot (s : Kernel) : Prop :=
  (∀ t, s.curr_task t = none) ∧ ∀ t i, s.pid_used t i = FREE

/-- Modelled from the spec: the states in which a user program runs.  The first
one is entered by the execute made at boot (section 2: a terminal's initial
process is created by execute).  From one of them the next is entered by a
system call of the running program that writes the PID bitmap or the PCB pool
(execute, halt, open, close) or by a terminal switch; section 5 names the
system calls and the terminal switch as the only writers.  A call that returns
-1 leaves the state as it is. -/
inductive Running (env : Env) : Kernel → Prop
  | by_boot (cmd : List Nat) (s0 s : Kernel) :
      at_boot s0 → sys_execute env (some cmd) s0 = .iret s → Running env s
  | by_execute (cmd : List Nat) (s s1 : Kernel) :
      Running env s → sys_execute env (some cmd) s = .iret s1 → Running env s1
  | by_halt (status v : Nat) (s s1 : Kernel) :
      Running env s → sys_halt env status s = .halt_ret v s1 → Running env s1
  | by_halt_root (status : Nat) (s s1 : Kernel) :
      Running env s → sys_halt env status s = .iret s1 → Running env s1
  | by_open (filename : List Nat) (v : Int) (s s1 : Kernel) :
      Running env s → sys_open env filename s = .ret v s1 → Running env s1
  | by_close (fd v : Int) (s s1 : Kernel) :
      Running env s → sys_close fd s = .ret v s1 → Running env s1
  | by_switch_new (n : Int) (s s1 : Kernel) :
      Running env s → terminal_switch env n s = .iret s1 → Running env s1
  | by_switch_resume (n : Int) (s s1 : Kernel) :
      Running env s → terminal_switch env n s = .resume s1 → Running env s1

/-- The states in which the kernel calls `sys_execute`: at boot; as a system
call of the running program; in `sys_halt` of a task without a parent, after
`curr_task[current_terminal] = NULL`; and in `terminal_switch`, after the test
of `pid_used[current_terminal][0]`. -/
inductive execute_call (env : Env) : Kernel → Prop
  | at_boot (s0 : Kernel) : at_boot s0 → execute_call env s0
  | by_user (s : Kernel) : Running env s → execute_call env s
  | in_halt (s s2 : Kernel) (c c2 : Nat) :
      Running env s →
      s.curr_task s.current_terminal = some c →
      close_all (s.set_pid s.current_terminal (s.mem c).process_id FREE)
        (List.range' PCB_START (PCB_END - PCB_START)) = some s2 →
      s2.curr_task s.current_terminal = some c2 →
      (s2.mem c2).parent_task = none →
      execute_call env
        { s2 with curr_task := Function.update s2.curr_task s.current_terminal none }
  | in_switch (n : Int) (s : Kernel) (c : Nat) :
      Running env s →
      ¬ (n < 0 ∨ n > 2) →
      s.curr_task s.current_terminal = some c →
      (switch_save env n.toNat c s).pid_used n.toNat 0 = 0 →
      execute_call env (switch_fresh env (switch_save env n.toNat c s))

/-- The PCB at `q`, when it has no parent, has process_id 0. -/
def root_ok (s : Kernel) (q : Nat) : Prop :=
  (s.mem q).parent_task = none → (s.mem q).process_id = 0

/-- Every PCB on the path from `c` along the parent pointers satisfies
`root_ok`. -/
def chain_ok (s : Kernel) (c : Nat) : Prop :=
  ∀ k q, ancestor s k c = some q → root_ok s q

/-- The path from the active task of every terminal satisfies `chain_ok`. -/
def roots_ok (s : Kernel) : Prop :=
  ∀ t c, s.curr_task t = some c → chain_ok s c

/-! ## Loops and searches -/

theorem find_range'_some (p : Nat → Bool) :
    ∀ (len lo i : Nat), (List.range' lo len).find? p = some i →
      lo ≤ i ∧ i < lo + len ∧ p i = true ∧ ∀ j, lo ≤ j → j < i → p j = false := by
  intro len
  induction len with
  | zero => intro lo i h; simp at h
  | succ n ih =>
    intro lo i h
    rw [List.range'_succ, List.find?_cons] at h
    cases hp : p lo with
    | true =>
      rw [hp] at h
      have hi : lo = i := by simpa using h
      subst hi
      exact ⟨le_refl _, by omega, hp, fun j h1 h2 => by omega⟩
    | false =>
      rw [hp] at h
      obtain ⟨h1, h2, h3, h4⟩ := ih (lo + 1) i h
      refine ⟨by omega, by omega, h3, ?_⟩
      intro j hj1 hj2
      rcases Nat.eq_or_lt_of_le hj1 with e | e
      · rw [← e]; exact hp
      · exact h4 j e hj2

theorem find_range'_none (p : Nat → Bool) (lo len : Nat) :
    (List.range' lo len).find? p = none ↔ ∀ j, lo ≤ j → j < lo + len → p j = false := by
  rw [List.find?_eq_none]
  constructor
  · intro h j h1 h2
    have := h j (by rw [List.mem_range']; exact ⟨j - lo, by omega, by omega⟩)
    simpa using this
  · intro h x hx
    rw [List.mem_range'] at hx
    obtain ⟨k, hk, rfl⟩ := hx
    have := h (lo + 1 * k) (by omega) (by omega)
    simpa using this

theorem find_range'_lowest (p : Nat → Bool) (lo len i : Nat)
    (h1 : lo ≤ i) (h2 : i < lo + len) (h3 : p i = true)
    (h4 : ∀ j, lo ≤ j → j < i → p j = false) :
    (List.range' lo len).find? p = some i := by
  cases h : (List.range' lo len).find? p with
  | none =>
    rw [find_range'_none] at h
    rw [h i h1 h2] at h3
    exact absurd h3 (by simp)
  | some k =>
    obtain ⟨k1, k2, k3, k4⟩ := find_range'_some p len lo k h
    rcases Nat.lt_trichotomy k i with e | e | e
    · rw [h4 k k1 e] at k3; exact absurd k3 (by simp)
    · rw [e]
    · rw [k4 i h1 e] at h3; exact absurd h3 (by simp)

theorem forLoop_update {α : Type} (g : Nat → α) :
    ∀ (len lo : Nat) (d : Nat → α),
      (List.range' lo len).foldl (fun acc i => Function.update acc i (g i)) d
        = fun j => if lo ≤ j ∧ j < lo + len then g j else d j := by
  intro len
  induction len with
  | zero =>
    intro lo d
    funext j
    have : ¬ (lo ≤ j ∧ j < lo) := by omega
    simp [this]
  | succ n ih =>
    intro lo d
    rw [List.range'_succ, List.foldl_cons, ih]
    funext j
    by_cases h : j = lo
    · subst h
      simp
    · simp only [Function.update_noteq h]
      by_cases h2 : lo ≤ j ∧ j < lo + (n + 1)
      · have h3 : lo + 1 ≤ j ∧ j < lo + 1 + n := by omega
        simp [h2, h3]
      · have h3 : ¬ (lo + 1 ≤ j ∧ j < lo + 1 + n) := by omega
        simp [h2, h3]

theorem forLoop_update_eq {α : Type} (g : Nat → α) (lo hi : Nat) (d : Nat → α) :
    forLoop lo hi (fun i acc => Function.update acc i (g i)) d
      = fun j => if lo ≤ j ∧ j < hi then g j else d j := by
  unfold forLoop
  rw [forLoop_update]
  funext j
  by_cases h : lo ≤ j ∧ j < hi
  · have : lo ≤ j ∧ j < lo + (hi - lo) := by omega
    simp [h, this]
  · have : ¬ (lo ≤ j ∧ j < lo + (hi - lo)) := by omega
    simp [h, this]

theorem forLoop_map {σ τ : Type} (φ : τ → σ) (body : Nat → σ → σ) (body' : Nat → τ → τ)
    (h : ∀ i x, body i (φ x) = φ (body' i x)) (lo hi : Nat) (x : τ) :
    forLoop lo hi body (φ x) = φ (forLoop lo hi body' x) := by
  unfold forLoop
  generalize List.range' lo (hi - lo) = l
  induction l generalizing x with
  | nil => rfl
  | cons a l ih => simp only [List.foldl_cons, h, ih]

/-! ## Stores into the PCB pool -/

theorem wr_const_self (s : Kernel) (a : Nat) : s.wr a (fun _ => s.mem a) = s := by
  simp [Kernel.wr]

theorem forLoop_wr (a : Nat) (f : Nat → pcb_t → pcb_t) (lo hi : Nat) (s : Kernel) :
    forLoop lo hi (fun i (k : Kernel) => k.wr a (f i)) s
      = s.wr a (fun p => forLoop lo hi f p) := by
  have h := forLoop_map (fun q : pcb_t => s.wr a (fun _ => q))
    (fun i (k : Kernel) => k.wr a (f i)) f (fun i x => by simp [Kernel.wr]) lo hi (s.mem a)
  simp only [wr_const_self] at h
  rw [h]
  simp [Kernel.wr]

theorem forLoop_set_fd (e : file_desc_t) (lo hi : Nat) (p : pcb_t) :
    forLoop lo hi (fun i (q : pcb_t) => q.set_fd i e) p
      = { p with file_array := fun j => if lo ≤ j ∧ j < hi then e else p.file_array j } := by
  have h := forLoop_map (fun fa : Nat → file_desc_t => { p with file_array := fa })
    (fun i (q : pcb_t) => q.set_fd i e) (fun i fa => Function.update fa i e)
    (fun i x => by simp [pcb_t.set_fd]) lo hi p.file_array
  rw [forLoop_update_eq (fun _ => e)] at h
  exact h

theorem forLoop_arg (g : Nat → Nat) (lo hi : Nat) (p : pcb_t) :
    forLoop lo hi (fun i (q : pcb_t) => { q with arg := Function.update q.arg i (g i) }) p
      = { p with arg := fun j => if lo ≤ j ∧ j < hi then g j else p.arg j } := by
  have h := forLoop_map (fun ar : Nat → Nat => { p with arg := ar })
    (fun i (q : pcb_t) => { q with arg := Function.update q.arg i (g i) })
    (fun i ar => Function.update ar i (g i))
    (fun i x => by simp) lo hi p.arg
  rw [forLoop_update_eq g] at h
  exact h

/-! ## The PID allocator -/

theorem get_next_pid_some (s : Kernel) (i : Nat) :
    get_next_pid s = (i : Int) ↔
      i < MAX_PCBS ∧ s.pid_used s.current_terminal i = FREE ∧
        ∀ j < i, s.pid_used s.current_terminal j ≠ FREE := by
  unfold get_next_pid
  rw [List.range_eq_range']
  constructor
  · intro h
    cases hf : (List.range' 0 MAX_PCBS).find?
        (fun i => s.pid_used s.current_terminal i == FREE) with
    | none => rw [hf] at h; simp at h
    | some k =>
      rw [hf] at h
      have hk : k = i := by simpa using h
      subst hk
      obtain ⟨_, h2, h3, h4⟩ := find_range'_some _ _ _ _ hf
      refine ⟨by omega, by simpa using h3, ?_⟩
      intro j hj
      have := h4 j (Nat.zero_le _) hj
      simpa using this
  · rintro ⟨h1, h2, h3⟩
    rw [find_range'_lowest _ 0 MAX_PCBS i (Nat.zero_le _) (by omega) (by simpa using h2)
      (fun j _ hj => by simpa using h3 j hj)]

theorem get_next_pid_neg (s : Kernel) :
    get_next_pid s = -1 ↔ ∀ i < MAX_PCBS, s.pid_used s.current_terminal i ≠ FREE := by
  unfold get_next_pid
  rw [List.range_eq_range']
  constructor
  · intro h
    cases hf : (List.range' 0 MAX_PCBS).find?
        (fun i => s.pid_used s.current_terminal i == FREE) with
    | none =>
      rw [find_range'_none] at hf
      intro i hi
      have := hf i (Nat.zero_le _) (by omega)
      simpa using this
    | some k => rw [hf] at h; simp at h
  · intro h
    have : (List.range' 0 MAX_PCBS).find?
        (fun i => s.pid_used s.current_terminal i == FREE) = none := by
      rw [find_range'_none]
      intro j _ hj
      have := h j (by omega)
      simpa using this
    rw [this]

theorem get_next_pid_cases (s : Kernel) :
    get_next_pid s = -1 ∨ ∃ i : Nat, i < MAX_PCBS ∧ get_next_pid s = (i : Int) := by
  cases hf : (List.range MAX_PCBS).find?
      (fun i => s.pid_used s.current_terminal i == FREE) with
  | none => left; simp [get_next_pid, hf]
  | some k =>
    right
    have hk : get_next_pid s = (k : Int) := by simp [get_next_pid, hf]
    exact ⟨k, ((get_next_pid_some s k).1 hk).1, hk⟩

theorem new_pcb_full (env : Env) (arguments : Nat → Nat) (s : Kernel)
    (h : get_next_pid s = -1) : new_pcb env arguments s = (-1, s) := by
  simp [new_pcb, h, INVALID_INODE]

theorem update_two {α : Type} (f : Nat → α) (a b : α) :
    Function.update (Function.update f 0 a) 1 b
      = fun j => if j = 1 then b else if j = 0 then a else f j := by
  funext j
  by_cases h1 : j = 1
  · subst h1; simp
  · by_cases h0 : j = 0
    · subst h0; simp
    · simp [h1, h0]

theorem new_pcb_ok (env : Env) (arguments : Nat → Nat) (s : Kernel) (i : Nat)
    (h : get_next_pid s = (i : Int)) :
    new_pcb env arguments s =
      ((i : Int),
        { s with
          pid_used := Function.update s.pid_used s.current_terminal
            (Function.update (s.pid_used s.current_terminal) i USED)
          curr_task := Function.update s.curr_task s.current_terminal
            (some (s.PCB_ADDR s.current_terminal i))
          mem :=
            match s.curr_task s.current_terminal with
            | none =>
              Function.update s.mem (s.PCB_ADDR s.current_terminal i)
                (pcb_image env (s.mem (s.PCB_ADDR s.current_terminal i)) i none arguments)
            | some cur =>
              Function.update
                (Function.update s.mem cur
                  { s.mem cur with child_task := some (s.PCB_ADDR s.current_terminal i) })
                (s.PCB_ADDR s.current_terminal i)
                (pcb_image env (s.mem (s.PCB_ADDR s.current_terminal i)) i (some cur)
                  arguments) }) := by
  have hne : ¬ ((i : Int) = INVALID_INODE) := by simp [INVALID_INODE]
  unfold new_pcb
  simp only [h, hne, if_false, Int.toNat_ofNat]
  rw [forLoop_wr, forLoop_wr]
  simp only [forLoop_set_fd, forLoop_arg]
  cases hc : s.curr_task s.current_terminal with
  | none =>
    simp [Kernel.wr, Kernel.set_pid, pcb_t.set_fd, hc, pcb_image, update_two]
  | some cur =>
    by_cases hca : cur = s.PCB_ADDR s.current_terminal i
    · subst hca
      simp [Kernel.wr, Kernel.set_pid, pcb_t.set_fd, hc, pcb_image, update_two]
    · have hca2 : s.PCB_ADDR s.current_terminal i ≠ cur := fun e => hca e.symm
      simp [Kernel.wr, Kernel.set_pid, pcb_t.set_fd, hc, pcb_image, update_two,
        Function.update_noteq hca, Function.update_noteq hca2]
      rw [Function.update_comm hca2, Function.update_idem]

/-! ## Claims on the PID allocator and the descriptor system calls -/

/-- C1: for every state (every current terminal and every PID bitmap),
`get_next_pid` returns an index `i` exactly when `i` is the lowest index below
`MAX_PCBS = 6` whose slot of the current terminal is free, so it never returns a
slot that is marked used; it returns `-1` exactly when all six slots are used;
it returns nothing else; and with all six slots used `new_pcb` returns `-1` and
allocates nothing, while otherwise it marks exactly the slot returned. -/
theorem get_next_pid_lowest_free (s : Kernel) :
    (∀ i : Nat, get_next_pid s = (i : Int) ↔
        (i < MAX_PCBS ∧ s.pid_used s.current_terminal i = FREE ∧
          ∀ j < i, s.pid_used s.current_terminal j ≠ FREE)) ∧
    (get_next_pid s = -1 ↔ ∀ i < MAX_PCBS, s.pid_used s.current_terminal i ≠ FREE) ∧
    (get_next_pid s = -1 ∨ ∃ i : Nat, i < MAX_PCBS ∧ get_next_pid s = (i : Int)) ∧
    (∀ env arguments, get_next_pid s = -1 → new_pcb env arguments s = (-1, s)) ∧
    (∀ env arguments (i : Nat), get_next_pid s = (i : Int) →
        (new_pcb env arguments s).1 = (i : Int) ∧
        (new_pcb env arguments s).2.pid_used =
          Function.update s.pid_used s.current_terminal
            (Function.update (s.pid_used s.current_terminal) i USED)) := by
  refine ⟨get_next_pid_some s, get_next_pid_neg s, get_next_pid_cases s, ?_, ?_⟩
  · intro env arguments h
    exact new_pcb_full env arguments s h
  · intro env arguments i h
    rw [new_pcb_ok env arguments s i h]
    exact ⟨rfl, rfl⟩

/-- The four stores of `sys_close` amount to one store of the free entry. -/
theorem sys_close_used (fd : Int) (s : Kernel) (c : Nat)
    (hc : s.curr_task s.current_terminal = some c) (h2 : 2 ≤ fd) (h7 : fd ≤ 7)
    (hu : ((s.mem c).file_array fd.toNat).flags ≠ FREE) :
    sys_close fd s = .ret 0 (s.wr c (fun p => p.set_fd fd.toNat free_entry)) := by
  have hr : ¬ (fd ≤ STDIN ∨ fd = STDOUT ∨ fd > 7) := by
    simp only [STDIN, STDOUT]; omega
  simp [sys_close, hr, hc, hu, Kernel.wr, pcb_t.set_fd, free_entry]

theorem sys_close_free (fd : Int) (s : Kernel) (c : Nat)
    (hc : s.curr_task s.current_terminal = some c) (h2 : 2 ≤ fd) (h7 : fd ≤ 7)
    (hu : ((s.mem c).file_array fd.toNat).flags = FREE) :
    sys_close fd s = .ret (-1) s := by
  have hr : ¬ (fd ≤ STDIN ∨ fd = STDOUT ∨ fd > 7) := by
    simp only [STDIN, STDOUT]; omega
  simp [sys_close, hr, hc, hu]

theorem sys_close_range (fd : Int) (s : Kernel) (h : fd < 2 ∨ 7 < fd) :
    sys_close fd s = .ret (-1) s := by
  have hr : fd ≤ STDIN ∨ fd = STDOUT ∨ fd > 7 := by
    simp only [STDIN, STDOUT]; omega
  simp [sys_close, hr]

/-- C4: for every `fd` and every state with an active PCB `c`, `sys_close`
returns; it returns 0 exactly when `fd` is in 2..7 and the entry `fd` of the
descriptor table of `c` is in use (its flags differ from `FREE`), and then the
new state is the old one with exactly that entry replaced by the free entry (no
operations table, invalid inode, position 0, flags `FREE`); in every other case
(descriptor 0 or 1, out of range, entry free) it returns -1 and the state,
descriptors 0 and 1 included, is the old one. -/
theorem sys_close_spec (fd : Int) (s : Kernel) (c : Nat)
    (hc : s.curr_task s.current_terminal = some c) :
    ∃ v s1, sys_close fd s = .ret v s1 ∧
      (v = 0 ↔ (2 ≤ fd ∧ fd ≤ 7 ∧ ((s.mem c).file_array fd.toNat).flags ≠ FREE)) ∧
      (v = 0 →
        s1 = s.wr c (fun p => p.set_fd fd.toNat free_entry) ∧
        (s1.mem c).file_array fd.toNat =
          { opt := none, inode_number := INVALID_INODE, file_position := 0, flags := FREE } ∧
        ∀ j, j ≠ fd.toNat → (s1.mem c).file_array j = (s.mem c).file_array j) ∧
      (v ≠ 0 → v = -1 ∧ s1 = s) := by
  by_cases hr : fd < 2 ∨ 7 < fd
  · refine ⟨-1, s, sys_close_range fd s hr, ?_, ?_, ?_⟩
    · constructor
      · intro h; exact absurd h (by decide)
      · intro h; omega
    · intro h; exact absurd h (by decide)
    · intro _; exact ⟨rfl, rfl⟩
  · have h2 : 2 ≤ fd := by omega
    have h7 : fd ≤ 7 := by omega
    by_cases hu : ((s.mem c).file_array fd.toNat).flags = FREE
    · refine ⟨-1, s, sys_close_free fd s c hc h2 h7 hu, ?_, ?_, ?_⟩
      · constructor
        · intro h; exact absurd h (by decide)
        · intro h; exact absurd hu h.2.2
      · intro h; exact absurd h (by decide)
      · intro _; exact ⟨rfl, rfl⟩
    · refine ⟨0, _, sys_close_used fd s c hc h2 h7 hu, ?_, ?_, ?_⟩
      · exact ⟨fun _ => ⟨h2, h7, hu⟩, fun _ => rfl⟩
      · intro _
        refine ⟨rfl, ?_, ?_⟩
        · simp [Kernel.wr, pcb_t.set_fd, free_entry]
        · intro j hj
          simp [Kernel.wr, pcb_t.set_fd, Function.update_noteq hj]
      · intro h; exact absurd rfl h

/-- C5: when the file-system lookup reports not-found for the name,
`sys_open` returns -1 and the state, with every descriptor table in it, is the
old one. -/
theorem sys_open_not_found (env : Env) (filename : List Nat) (s : Kernel)
    (h : env.read_dentry_by_name filename = none) :
    sys_open env filename s = .ret (-1) s := by
  simp [sys_open, h]

/-- C6: for every buffer, every `nbytes` and every state (an absent active
PCB included), `sys_read` on descriptor 1 and `sys_write` on descriptor 0
return -1 with the state unchanged and with an empty list of accesses: the
descriptor table is not indexed and no operations-table function is called. -/
theorem sys_read_stdout_sys_write_stdin (buf : Nat) (nbytes : Int) (s : Kernel) :
    sys_read 1 buf nbytes s = { events := [], out := .ret (-1) s } ∧
    sys_write 0 buf nbytes s = { events := [], out := .ret (-1) s } := by
  constructor
  · simp [sys_read, STDOUT]
  · simp [sys_write, STDIN]

/-- C3: for every state with an active PCB `c` and every name the file system
finds, `sys_open` returns; when some entry in 2..7 of the table of `c` is free
it returns the lowest such index `i`, and the new state is the old one with
exactly entry `i` changed: inode number of the file, flags `USED`, and the
operations table of the file type (0: RTC, 1: directory, 2: regular file,
anything else: terminal input); when all of 2..7 are in use it returns -1 and
the state is the old one; the value returned is never 0 or 1. -/
theorem sys_open_spec (env : Env) (filename : List Nat) (s : Kernel) (c : Nat)
    (d : dentry_t) (hc : s.curr_task s.current_terminal = some c)
    (hd : env.read_dentry_by_name filename = some d) :
    (∀ i : Nat, 2 ≤ i → i < 8 → ((s.mem c).file_array i).flags = FREE →
        (∀ j, 2 ≤ j → j < i → ((s.mem c).file_array j).flags ≠ FREE) →
        sys_open env filename s =
          .ret (i : Int) (s.wr c (fun p => p.set_fd i
            { opt := some (opt_of_type d.file_type), inode_number := d.inode_number,
              file_position := (p.file_array i).file_position, flags := USED })) ∧
        ∀ j, j ≠ i →
          ((s.wr c (fun p => p.set_fd i
            { opt := some (opt_of_type d.file_type), inode_number := d.inode_number,
              file_position := (p.file_array i).file_position, flags := USED })).mem c).file_array j
            = (s.mem c).file_array j) ∧
    ((∀ i : Nat, 2 ≤ i → i < 8 → ((s.mem c).file_array i).flags ≠ FREE) →
        sys_open env filename s = .ret (-1) s) ∧
    (∃ v s1, sys_open env filename s = .ret v s1 ∧ v ≠ 0 ∧ v ≠ 1 ∧
        (v = -1 ∨ (2 ≤ v ∧ v ≤ 7))) ∧
    opt_of_type 0 = .rtc_operations ∧ opt_of_type 1 = .dir_operations ∧
    opt_of_type 2 = .file_operations ∧
    (∀ t, 3 ≤ t → opt_of_type t = .stdin_operations) := by
  have hfull : (∀ i : Nat, 2 ≤ i → i < 8 → ((s.mem c).file_array i).flags ≠ FREE) →
      sys_open env filename s = .ret (-1) s := by
    intro h
    have hf : (List.range' PCB_START (PCB_END - PCB_START)).find?
        (fun fd => ((s.mem c).file_array fd).flags == FREE) = none := by
      rw [find_range'_none]
      intro j h1 h2
      have := h j h1 (by simp only [PCB_START, PCB_END] at h2; omega)
      simpa using this
    simp [sys_open, hd, hc, hf]
  have hlow : ∀ i : Nat, 2 ≤ i → i < 8 → ((s.mem c).file_array i).flags = FREE →
      (∀ j, 2 ≤ j → j < i → ((s.mem c).file_array j).flags ≠ FREE) →
      sys_open env filename s =
        .ret (i : Int) (s.wr c (fun p => p.set_fd i
          { opt := some (opt_of_type d.file_type), inode_number := d.inode_number,
            file_position := (p.file_array i).file_position, flags := USED })) := by
    intro i h2 h8 hfree hmin
    have hf : (List.range' PCB_START (PCB_END - PCB_START)).find?
        (fun fd => ((s.mem c).file_array fd).flags == FREE) = some i := by
      apply find_range'_lowest
      · exact h2
      · simp only [PCB_START, PCB_END]; omega
      · simpa using hfree
      · intro j h1 hj
        simpa using hmin j h1 hj
    simp [sys_open, hd, hc, hf, Kernel.wr, pcb_t.set_fd]
  refine ⟨?_, hfull, ?_, rfl, rfl, rfl, ?_⟩
  · intro i h2 h8 hfree hmin
    refine ⟨hlow i h2 h8 hfree hmin, ?_⟩
    intro j hj
    simp [Kernel.wr, pcb_t.set_fd, Function.update_noteq hj]
  · cases hf : (List.range' PCB_START (PCB_END - PCB_START)).find?
        (fun fd => ((s.mem c).file_array fd).flags == FREE) with
    | none =>
      rw [find_range'_none] at hf
      refine ⟨-1, s, hfull ?_, by decide, by decide, Or.inl rfl⟩
      intro i h2 h8
      have := hf i h2 (by simp only [PCB_START, PCB_END]; omega)
      simpa using this
    | some i =>
      obtain ⟨h1, h2, h3, h4⟩ := find_range'_some _ _ _ _ hf
      simp only [PCB_START, PCB_END] at h1 h2 h4
      refine ⟨(i : Int), _, hlow i h1 (by omega) (by simpa using h3) ?_, ?_, ?_, Or.inr ?_⟩
      · intro j hj1 hj2
        simpa using h4 j hj1 hj2
      · omega
      · omega
      · omega
  · intro t ht
    match t, ht with
    | t + 3, _ => rfl

/-- C3 for the shell of terminal 0, which opens the file "shell". -/
theorem sys_open_spec_witness :
    shell_running.curr_task shell_running.current_terminal = some 8380416 ∧
    demo_env.read_dentry_by_name shell = some { file_type := 2, inode_number := 1 } ∧
    ∃ v s1, sys_open demo_env shell shell_running = .ret v s1 ∧ v ≠ 0 ∧ v ≠ 1 ∧
      (v = -1 ∨ (2 ≤ v ∧ v ≤ 7)) :=
  ⟨rfl, rfl, (sys_open_spec demo_env shell shell_running 8380416
    { file_type := 2, inode_number := 1 } rfl rfl).2.2.1⟩

/-- C4 for the shell of terminal 0, which closes the descriptor it has
opened. -/
theorem sys_close_spec_witness :
    shell_open.curr_task shell_open.current_terminal = some 8380416 ∧
    ∃ v s1, sys_close 2 shell_open = .ret v s1 ∧
      (v = 0 ↔ ((2 : Int) ≤ 2 ∧ (2 : Int) ≤ 7 ∧
        ((shell_open.mem 8380416).file_array (2 : Int).toNat).flags ≠ FREE)) ∧
      (v = 0 →
        s1 = shell_open.wr 8380416 (fun p => p.set_fd (2 : Int).toNat free_entry) ∧
        (s1.mem 8380416).file_array (2 : Int).toNat =
          { opt := none, inode_number := INVALID_INODE, file_position := 0, flags := FREE } ∧
        ∀ j, j ≠ (2 : Int).toNat →
          (s1.mem 8380416).file_array j = (shell_open.mem 8380416).file_array j) ∧
      (v ≠ 0 → v = -1 ∧ s1 = shell_open) :=
  ⟨rfl, sys_close_spec 2 shell_open 8380416 rfl⟩

/-- C5 for the shell of terminal 0 and the name "x", which the file system
does not hold. -/
theorem sys_open_not_found_witness :
    demo_env.read_dentry_by_name [120] = none ∧
    sys_open demo_env [120] shell_running = .ret (-1) shell_running :=
  ⟨rfl, sys_open_not_found demo_env [120] shell_running rfl⟩

/-! ## Strings and buffers -/

theorem strlen_no_nul (l : List Nat) (h : ∀ b ∈ l, b ≠ 0) : strlen l = l.length := by
  unfold strlen
  rw [List.takeWhile_eq_self_iff.2]
  intro b hb
  simpa using h b hb

theorem strncpy_eq (dest : Nat → Nat) (src : List Nat) (n : Nat) :
    strncpy dest src n = fun j =>
      if j < min (strlen src) n then src.getD j 0 else if j < n then 0 else dest j := by
  unfold strncpy
  simp only []
  rw [forLoop_update_eq (fun i => src.getD i 0), forLoop_update_eq (fun _ => 0)]
  funext j
  by_cases h1 : j < min (strlen src) n
  · have h2 : ¬ (min (strlen src) n ≤ j ∧ j < n) := by omega
    rw [if_neg h2, if_pos ⟨Nat.zero_le _, h1⟩, if_pos h1]
  · have h0 : ¬ (0 ≤ j ∧ j < min (strlen src) n) := fun h => h1 h.2
    by_cases h3 : j < n
    · have h2 : min (strlen src) n ≤ j ∧ j < n := by omega
      rw [if_pos h2, if_neg h1, if_pos h3]
    · have h2 : ¬ (min (strlen src) n ≤ j ∧ j < n) := by omega
      rw [if_neg h2, if_neg h0, if_neg h1, if_neg h3]

theorem takeWhile_map_range' (m : Nat → Nat) :
    ∀ (name : List Nat) (lo cap : Nat), name.length < cap →
      (∀ j, j < name.length → m (lo + j) = name.getD j 0) → m (lo + name.length) = 0 →
      (∀ b ∈ name, b ≠ 0) →
      ((List.range' lo cap).map m).takeWhile (fun b => b != 0) = name := by
  intro name
  induction name with
  | nil =>
    intro lo cap hcap _ hz _
    obtain ⟨k, rfl⟩ : ∃ k, cap = k + 1 := ⟨cap - 1, by simp at hcap; omega⟩
    simp at hz
    simp [List.range'_succ, hz]
  | cons a rest ih =>
    intro lo cap hcap hm hz hn
    obtain ⟨k, rfl⟩ : ∃ k, cap = k + 1 := ⟨cap - 1, by simp at hcap; omega⟩
    have ha : m lo = a := by simpa using hm 0 (by simp)
    have hane : a ≠ 0 := hn a (by simp)
    rw [List.range'_succ, List.map_cons, List.takeWhile_cons, ha]
    simp only [bne_iff_ne, ne_eq, hane, not_false_eq_true, ↓reduceIte, List.cons.injEq, true_and]
    apply ih (lo + 1) k
    · simp at hcap; omega
    · intro j hj
      have := hm (j + 1) (by simp; omega)
      simpa [Nat.add_assoc, Nat.add_comm 1 j] using this
    · have : lo + 1 + rest.length = lo + (a :: rest).length := by simp; omega
      rw [this]; exact hz
    · intro b hb
      exact hn b (by simp [hb])

theorem cstr_eq (cap : Nat) (m : Nat → Nat) (name : List Nat) (hcap : name.length < cap)
    (hm : ∀ j, j < name.length → m j = name.getD j 0) (hz : m name.length = 0)
    (hn : ∀ b ∈ name, b ≠ 0) : cstr cap m = name := by
  unfold cstr
  rw [List.range_eq_range']
  apply takeWhile_map_range' m name 0 cap hcap
  · intro j hj; simpa using hm j hj
  · simpa using hz
  · exact hn

theorem getD_append_left (l1 l2 : List Nat) (j : Nat) (h : j < l1.length) :
    (l1 ++ l2).getD j 0 = l1.getD j 0 := by
  simp [List.getD_eq_getElem?_getD, List.getElem?_append_left h]

theorem getD_append_right (l1 l2 : List Nat) (j : Nat) :
    (l1 ++ l2).getD (l1.length + j) 0 = l2.getD j 0 := by
  simp [List.getD_eq_getElem?_getD, List.getElem?_append_right]

theorem find_space_split (name rest : List Nat)
    (hname : ∀ b ∈ name, b ≠ SPACE ∧ b ≠ 0) (hrest : ∀ b ∈ rest, b ≠ 0) :
    find_space (name ++ [SPACE] ++ rest) = (name.length, 1) := by
  have hlen : strlen (name ++ [SPACE] ++ rest) = name.length + 1 + rest.length := by
    rw [strlen_no_nul]
    · simp; omega
    · intro b hb
      simp only [List.append_assoc, List.mem_append, List.mem_singleton] at hb
      rcases hb with hb | hb | hb
      · exact (hname b hb).2
      · rw [hb]; decide
      · exact hrest b hb
  unfold find_space
  rw [hlen, List.range_eq_range']
  rw [find_range'_lowest _ 0 _ name.length (Nat.zero_le _) (by omega)]
  · have := getD_append_right name ([SPACE] ++ rest) 0
    simp only [Nat.add_zero] at this
    show ((name ++ [SPACE] ++ rest).getD name.length 0 == SPACE) = true
    rw [List.append_assoc, this]
    rfl
  · intro j _ hj
    have h1 : (name ++ [SPACE] ++ rest).getD j 0 = name.getD j 0 := by
      rw [List.append_assoc]; exact getD_append_left _ _ _ hj
    rw [h1]
    have hmem : name.getD j 0 ∈ name := by
      rw [List.getD_eq_getElem _ _ hj]; exact List.getElem_mem _
    simpa using (hname _ hmem).1

theorem find_space_none (name : List Nat) (hname : ∀ b ∈ name, b ≠ SPACE ∧ b ≠ 0) :
    find_space name = (name.length, 0) := by
  have hlen : strlen name = name.length :=
    strlen_no_nul name (fun b hb => (hname b hb).2)
  unfold find_space
  rw [hlen, List.range_eq_range']
  have : (List.range' 0 name.length).find? (fun i => name.getD i 0 == SPACE) = none := by
    rw [find_range'_none]
    intro j _ hj
    have hj2 : j < name.length := by omega
    have hmem : name.getD j 0 ∈ name := by
      rw [List.getD_eq_getElem _ _ hj2]; exact List.getElem_mem _
    simpa using (hname _ hmem).1
  rw [this]

/-! ## Parsing of the command -/

theorem parse_command_split (env : Env) (name rest : List Nat)
    (hname : ∀ b ∈ name, b ≠ SPACE ∧ b ≠ 0) (hrest : ∀ b ∈ rest, b ≠ 0)
    (hn : name.length < env.CHAR_BUFF_SIZE) (hr : rest.length ≤ env.CHAR_BUFF_SIZE) :
    parse_command env (name ++ [SPACE] ++ rest) = some (name, args_buffer env rest) := by
  have hlen : strlen (name ++ [SPACE] ++ rest) = name.length + 1 + rest.length := by
    rw [strlen_no_nul]
    · simp; omega
    · intro b hb
      simp only [List.append_assoc, List.mem_append, List.mem_singleton] at hb
      rcases hb with hb | hb | hb
      · exact (hname b hb).2
      · rw [hb]; decide
      · exact hrest b hb
  have hdrop : (name ++ [SPACE] ++ rest).drop (name.length + 1) = rest := by
    have : (name ++ [SPACE]).length = name.length + 1 := by simp
    rw [← this, List.drop_left]
  have hprog : cstr env.CHAR_BUFF_SIZE
      (Function.update (strncpy env.garbage (name ++ [SPACE] ++ rest) name.length)
        name.length 0) = name := by
    apply cstr_eq _ _ _ hn
    · intro j hj
      rw [Function.update_noteq (Nat.ne_of_lt hj), strncpy_eq]
      have h1 : j < min (strlen (name ++ [SPACE] ++ rest)) name.length := by
        rw [hlen]; omega
      simp only [h1, if_true]
      rw [List.append_assoc]
      exact getD_append_left _ _ _ hj
    · simp
    · intro b hb; exact (hname b hb).2
  unfold parse_command
  simp only [find_space_split name rest hname hrest, hlen]
  have h1 : ¬ (env.CHAR_BUFF_SIZE ≤ name.length) := by omega
  have h2 : ¬ (env.CHAR_BUFF_SIZE < name.length + 1 + rest.length - (name.length + 1)) := by
    omega
  simp only [if_true, if_neg h1, if_neg h2, hprog, hdrop]
  congr 2
  unfold args_buffer
  rw [strncpy_eq, forLoop_update_eq (fun _ => 0), strlen_no_nul rest hrest]
  funext j
  have e : name.length + 1 + rest.length - (name.length + 1) = rest.length := by omega
  rw [e, Nat.min_self]
  by_cases h3 : j < rest.length
  · simp [h3]
  · by_cases h4 : j < env.CHAR_BUFF_SIZE
    · simp [h3, h4]
    · simp [h3, h4]

theorem parse_command_plain (env : Env) (name : List Nat)
    (hname : ∀ b ∈ name, b ≠ SPACE ∧ b ≠ 0) (hn : name.length < env.CHAR_BUFF_SIZE) :
    parse_command env name =
      some (name, fun j => if j < env.CHAR_BUFF_SIZE then 0 else env.garbage j) := by
  have hlen : strlen name = name.length :=
    strlen_no_nul name (fun b hb => (hname b hb).2)
  have hprog : cstr env.CHAR_BUFF_SIZE
      (strncpy env.garbage name (name.length + 1)) = name := by
    apply cstr_eq _ _ _ hn
    · intro j hj
      rw [strncpy_eq, hlen]
      have h1 : j < min name.length (name.length + 1) := by omega
      simp only [h1, if_true]
    · rw [strncpy_eq, hlen]
      have h1 : ¬ (name.length < min name.length (name.length + 1)) := by omega
      simp [h1]
    · intro b hb; exact (hname b hb).2
  unfold parse_command
  simp only [find_space_none name hname, hlen]
  have h1 : ¬ (env.CHAR_BUFF_SIZE < name.length + 1) := by omega
  simp only [if_neg h1, hprog]
  simp only [Nat.zero_ne_one, if_false]
  congr 2
  rw [forLoop_update_eq (fun _ => 0)]
  funext j
  simp

/-! ## execute -/

theorem sys_execute_ok (env : Env) (cmd : List Nat) (s : Kernel) (program : List Nat)
    (arguments : Nat → Nat) (d : dentry_t) (i : Nat)
    (hparse : parse_command env cmd = some (program, arguments))
    (hlook : env.read_dentry_by_name program = some d)
    (hmagic : ∀ k, k < 4 →
      overlay (env.read_data d.inode_number 0 4) env.garbage k = env.MAGIC_NUM_FOR_EXE k)
    (hpid : get_next_pid s = (i : Int)) :
    sys_execute env (some cmd) s = .iret (exec_state env s d arguments i) := by
  have hm : ¬ (overlay (env.read_data d.inode_number 0 4) env.garbage 0 ≠ env.MAGIC_NUM_FOR_EXE 0
      ∨ overlay (env.read_data d.inode_number 0 4) env.garbage 1 ≠ env.MAGIC_NUM_FOR_EXE 1
      ∨ overlay (env.read_data d.inode_number 0 4) env.garbage 2 ≠ env.MAGIC_NUM_FOR_EXE 2
      ∨ overlay (env.read_data d.inode_number 0 4) env.garbage 3 ≠ env.MAGIC_NUM_FOR_EXE 3) := by
    simp [hmagic 0 (by decide), hmagic 1 (by decide), hmagic 2 (by decide),
      hmagic 3 (by decide)]
  have hp : ¬ (get_next_pid s = -1) := by rw [hpid]; omega
  unfold sys_execute
  simp only [hparse, hlook, if_neg hm, if_neg hp]
  cases hc : s.curr_task s.current_terminal with
  | none =>
    simp only []
    rw [new_pcb_ok env arguments
      { s with page_slot := 8 * s.current_terminal, cr3 := env.reset_cr3 s.cr3,
               prog_image := overlay (env.read_data d.inode_number 0
                 (env.read_file_length d.inode_number)) s.prog_image } i hpid]
    simp [Kernel.wr, exec_state, hc, pcb_image]
  | some cur =>
    simp only []
    rw [new_pcb_ok env arguments
      { s with page_slot := 8 * s.current_terminal + (get_next_pid s).toNat,
               cr3 := env.reset_cr3 s.cr3,
               prog_image := overlay (env.read_data d.inode_number 0
                 (env.read_file_length d.inode_number)) s.prog_image } i hpid]
    simp [Kernel.wr, exec_state, hc, pcb_image, hpid]

theorem exec_state_curr (env : Env) (s : Kernel) (d : dentry_t) (arguments : Nat → Nat)
    (i : Nat) :
    (exec_state env s d arguments i).curr_task (exec_state env s d arguments i).current_terminal
      = some (s.PCB_ADDR s.current_terminal i) := by
  simp [exec_state]

theorem exec_state_arg (env : Env) (s : Kernel) (d : dentry_t) (rest : List Nat)
    (i j : Nat) (hj : j < env.CHAR_BUFF_SIZE) :
    ((exec_state env s d (args_buffer env rest) i).mem (s.PCB_ADDR s.current_terminal i)).arg j
      = rest.getD j 0 := by
  by_cases h : j < rest.length
  · simp [exec_state, pcb_image, args_buffer, hj, h]
  · have : rest.getD j 0 = 0 := by
      rw [List.getD_eq_default]; omega
    rw [this]
    simp [exec_state, pcb_image, args_buffer, hj, h]

theorem exec_state_arg0 (env : Env) (s : Kernel) (d : dentry_t) (rest : List Nat) (i : Nat)
    (hrest : ∀ b ∈ rest, b ≠ 0) (hne : rest ≠ []) (hr : rest.length < env.CHAR_BUFF_SIZE) :
    ((exec_state env s d (args_buffer env rest) i).mem (s.PCB_ADDR s.current_terminal i)).arg 0
      ≠ 0 := by
  have hpos : 0 < rest.length := List.length_pos.2 hne
  rw [exec_state_arg env s d rest i 0 (by omega), List.getD_eq_getElem _ _ hpos]
  exact hrest _ (List.getElem_mem _)

theorem exec_state_strlen (env : Env) (s : Kernel) (d : dentry_t) (rest : List Nat) (i : Nat)
    (hrest : ∀ b ∈ rest, b ≠ 0) (hr : rest.length < env.CHAR_BUFF_SIZE) :
    strlen_buf env.CHAR_BUFF_SIZE
      ((exec_state env s d (args_buffer env rest) i).mem (s.PCB_ADDR s.current_terminal i)).arg
      = some rest.length := by
  unfold strlen_buf
  rw [List.range_eq_range']
  apply find_range'_lowest _ 0 _ _ (Nat.zero_le _) (by omega)
  · have : rest.getD rest.length 0 = 0 := by
      rw [List.getD_eq_default]; omega
    simp only [exec_state_arg env s d rest i rest.length hr, this]
    rfl
  · intro j _ hj
    simp only [exec_state_arg env s d rest i j (by omega)]
    rw [List.getD_eq_getElem _ _ hj]
    simpa using hrest _ (List.getElem_mem _)

/-- Every `sys_execute` that enters user mode ends in the closed form. -/
theorem sys_execute_iret (env : Env) (cmd : List Nat) (s s1 : Kernel)
    (h : sys_execute env (some cmd) s = .iret s1) :
    ∃ program arguments d i, parse_command env cmd = some (program, arguments) ∧
      env.read_dentry_by_name program = some d ∧ get_next_pid s = ((i : Nat) : Int) ∧
      s1 = exec_state env s d arguments i := by
  cases hparse : parse_command env cmd with
  | none => simp [sys_execute, hparse] at h
  | some pa =>
    obtain ⟨program, arguments⟩ := pa
    cases hlook : env.read_dentry_by_name program with
    | none => simp [sys_execute, hparse, hlook] at h
    | some d =>
      by_cases hm : overlay (env.read_data d.inode_number 0 4) env.garbage 0
            ≠ env.MAGIC_NUM_FOR_EXE 0
          ∨ overlay (env.read_data d.inode_number 0 4) env.garbage 1 ≠ env.MAGIC_NUM_FOR_EXE 1
          ∨ overlay (env.read_data d.inode_number 0 4) env.garbage 2 ≠ env.MAGIC_NUM_FOR_EXE 2
          ∨ overlay (env.read_data d.inode_number 0 4) env.garbage 3 ≠ env.MAGIC_NUM_FOR_EXE 3
      · simp only [sys_execute, hparse, hlook, if_pos hm] at h
        exact absurd h (by simp)
      · rcases get_next_pid_cases s with hp | ⟨i, _, hi⟩
        · simp only [sys_execute, hparse, hlook, if_neg hm, if_pos hp] at h
          exact absurd h (by simp)
        · have hmagic : ∀ k, k < 4 →
              overlay (env.read_data d.inode_number 0 4) env.garbage k
                = env.MAGIC_NUM_FOR_EXE k := by
            intro k hk
            simp only [not_or, ne_eq, not_not] at hm
            obtain ⟨m0, m1, m2, m3⟩ := hm
            interval_cases k
            · exact m0
            · exact m1
            · exact m2
            · exact m3
          have hok := sys_execute_ok env cmd s program arguments d i hparse hlook hmagic hi
          rw [hok] at h
          refine ⟨program, arguments, d, i, rfl, hlook, hi, ?_⟩
          injection h with h
          exact h.symm

theorem exec_state_saved (env : Env) (s : Kernel) (d : dentry_t) (arguments : Nat → Nat)
    (i : Nat) :
    ((exec_state env s d arguments i).mem (s.PCB_ADDR s.current_terminal i)).esp = s.esp ∧
    ((exec_state env s d arguments i).mem (s.PCB_ADDR s.current_terminal i)).ebp = s.ebp := by
  simp [exec_state]

/-! ## The concrete states -/

theorem shell_running_eq :
    shell_running = exec_state demo_env boot { file_type := 2, inode_number := 1 }
      (fun j => if j < demo_env.CHAR_BUFF_SIZE then 0 else demo_env.garbage j) 0 := by
  have hparse := parse_command_plain demo_env shell (by decide) (by decide)
  have h := sys_execute_ok demo_env shell boot shell _ { file_type := 2, inode_number := 1 } 0
    hparse rfl (by decide) rfl
  unfold shell_running
  rw [h]
  rfl

theorem testprog_running_eq :
    testprog_running = exec_state demo_env shell_running { file_type := 2, inode_number := 2 }
      (args_buffer demo_env arg1_arg2) 1 := by
  have hparse := parse_command_split demo_env testprog arg1_arg2 (by decide) (by decide)
    (by decide) (by decide)
  have h := sys_execute_ok demo_env _ shell_running testprog _
    { file_type := 2, inode_number := 2 } 1 hparse rfl (by decide) rfl
  unfold testprog_running testprog_command
  rw [h]
  rfl

theorem shell_running_addr :
    shell_running.PCB_ADDR shell_running.current_terminal 1 = 8372224 := by
  rfl

theorem testprog_running_task :
    testprog_running.curr_task testprog_running.current_terminal = some 8372224 := by
  rw [testprog_running_eq, exec_state_curr, shell_running_addr]

theorem testprog_running_parent :
    (testprog_running.mem 8372224).parent_task = some 8380416 := by
  have hcur : shell_running.curr_task shell_running.current_terminal = some 8380416 := rfl
  rw [testprog_running_eq]
  simp [exec_state, pcb_image, shell_running_addr, hcur]

theorem testprog_running_child :
    (testprog_running.mem 8380416).child_task = some 8372224 := by
  have hcur : shell_running.curr_task shell_running.current_terminal = some 8380416 := rfl
  rw [testprog_running_eq]
  simp [exec_state, pcb_image, shell_running_addr, hcur]

/-! ## getargs -/

theorem toU32_of_nonneg (n : Int) (h0 : 0 ≤ n) (h1 : n < 2 ^ 32) : toU32 n = n.toNat := by
  unfold toU32
  rw [Int.emod_eq_of_lt h0 h1]

theorem toU32_of_neg (n : Int) (h0 : n < 0) (h1 : -(2 ^ 31) ≤ n) :
    toU32 n = (n + 2 ^ 32).toNat := by
  unfold toU32
  have : n % 2 ^ 32 = n + 2 ^ 32 := by
    rw [← Int.add_emod_self]
    exact Int.emod_eq_of_lt (by omega) (by omega)
  rw [this]

theorem zero_fill_eq (n : Int) (b : Nat → Nat) :
    forLoop 0 n.toNat (fun i d => Function.update d i 0) b
      = fun j => if j < n.toNat then 0 else b j := by
  rw [forLoop_update_eq (fun _ => 0)]
  funext j
  simp

/-- `sys_getargs` when the buffer is large enough: the buffer is cleared and
the string is copied. -/
theorem sys_getargs_fits (env : Env) (buf : Nat → Nat) (n : Int) (s : Kernel) (c L : Nat)
    (hc : s.curr_task s.current_terminal = some c)
    (h0 : (s.mem c).arg 0 ≠ 0)
    (hL : strlen_buf env.CHAR_BUFF_SIZE (s.mem c).arg = some L)
    (hn : (L : Int) < n) (hn31 : n < 2 ^ 31) :
    sys_getargs env (some buf) n s =
      some (0, some (fun j =>
        if j < L then (s.mem c).arg j else if j < n.toNat then 0 else buf j)) := by
  have hu : ¬ (toU32 n ≤ L) := by
    rw [toU32_of_nonneg n (by omega) (by omega)]; omega
  unfold sys_getargs
  simp only [hc, hL, if_neg h0, if_neg hu, zero_fill_eq]
  rw [forLoop_update_eq (fun i => (s.mem c).arg i)]
  congr 3
  funext j
  by_cases h : j < L
  · simp [h]
  · simp [h]

/-- `sys_getargs` with a buffer of `n` bytes, `0 ≤ n`, that is too small: the
result is -1 and the buffer holds zeros in its first `n` bytes. -/
theorem sys_getargs_too_small (env : Env) (buf : Nat → Nat) (n : Int) (s : Kernel)
    (c L : Nat) (hc : s.curr_task s.current_terminal = some c)
    (hL : strlen_buf env.CHAR_BUFF_SIZE (s.mem c).arg = some L)
    (hn0 : 0 ≤ n) (hn : n ≤ (L : Int)) (hn31 : n < 2 ^ 31) :
    sys_getargs env (some buf) n s =
      some (-1, some (fun j => if j < n.toNat then 0 else buf j)) := by
  have hu : toU32 n ≤ L := by
    rw [toU32_of_nonneg n hn0 (by omega)]; omega
  unfold sys_getargs
  simp only [hc, hL, if_pos hu, zero_fill_eq]
  split <;> rfl

/-- `sys_getargs` with a negative `nbytes`: the unsigned comparison lets the
call through, and the string is copied into the buffer. -/
theorem sys_getargs_negative (env : Env) (buf : Nat → Nat) (n : Int) (s : Kernel)
    (c L : Nat) (hc : s.curr_task s.current_terminal = some c)
    (h0 : (s.mem c).arg 0 ≠ 0)
    (hL : strlen_buf env.CHAR_BUFF_SIZE (s.mem c).arg = some L) (hL31 : L < 2 ^ 31)
    (hn0 : n < 0) (hn : -(2 ^ 31) ≤ n) :
    sys_getargs env (some buf) n s =
      some (0, some (fun j => if j < L then (s.mem c).arg j else buf j)) := by
  have hu : ¬ (toU32 n ≤ L) := by
    rw [toU32_of_neg n hn0 hn]; omega
  have hz : n.toNat = 0 := by omega
  unfold sys_getargs
  simp only [hc, hL, if_neg h0, if_neg hu, zero_fill_eq]
  rw [forLoop_update_eq (fun i => (s.mem c).arg i)]
  congr 3
  funext j
  by_cases h : j < L
  · simp [h]
  · simp [h, hz]

/-! ## Claims on getargs and execute -/

/-- C7 (the code at the failing input): the shell of terminal 0 executes
"testprog arg1 arg2", so that the argument string "arg1 arg2" of length 9 is
stored; the program then calls `sys_getargs` with `nbytes = -1`, which is
smaller than 9, on a buffer whose bytes are all 9.  The call does not return
-1: it returns 0 and has copied the nine bytes of the string into the
buffer. -/
theorem sys_getargs_negative_nbytes_copies :
    ∃ s1 b, sys_execute demo_env (some (testprog ++ [SPACE] ++ arg1_arg2)) shell_running
        = .iret s1 ∧
      sys_getargs demo_env (some (fun _ => 9)) (-1) s1 = some (0, some b) ∧
      (List.range 10).map b = [97, 114, 103, 49, 32, 97, 114, 103, 50, 9] := by
  have hparse := parse_command_split demo_env testprog arg1_arg2 (by decide) (by decide)
    (by decide) (by decide)
  have hexec := sys_execute_ok demo_env _ shell_running testprog _
    { file_type := 2, inode_number := 2 } 1 hparse rfl (by decide) rfl
  have hg := sys_getargs_negative demo_env (fun _ => 9) (-1) _ _ arg1_arg2.length
      (exec_state_curr demo_env shell_running { file_type := 2, inode_number := 2 }
        (args_buffer demo_env arg1_arg2) 1)
      (exec_state_arg0 demo_env shell_running _ arg1_arg2 1 (by decide) (by decide)
        (by decide))
      (exec_state_strlen demo_env shell_running _ arg1_arg2 1 (by decide) (by decide))
      (by decide) (by decide) (by decide)
  refine ⟨_, _, hexec, hg, ?_⟩
  · have harg := exec_state_arg demo_env shell_running
      { file_type := 2, inode_number := 2 } arg1_arg2 1
    have hlen : arg1_arg2.length = 9 := rfl
    simp only [hlen]
    simp [List.range, List.range.loop, harg 0 (by decide), harg 1 (by decide),
      harg 2 (by decide), harg 3 (by decide), harg 4 (by decide), harg 5 (by decide),
      harg 6 (by decide), harg 7 (by decide), harg 8 (by decide)]
    decide

/-- C8: for a command `name ++ " " ++ rest` where `name` holds no space and no
NUL, `rest` is not empty and holds no NUL, and both fit in the character
buffers, an execute that finds the file `name`, finds the magic sequence and
gets a free slot enters user mode with the new PCB active; the program name
parsed is `name`; the argument buffer of the new PCB holds `rest` followed by
NUL up to its end; and every later `sys_getargs(buf, n)` with `n` above the
length of `rest` returns 0 and leaves `rest` followed by zeros in the first `n`
bytes of `buf`. -/
theorem execute_args_then_getargs (env : Env) (s : Kernel) (name rest : List Nat)
    (d : dentry_t) (i : Nat)
    (hname : ∀ b ∈ name, b ≠ SPACE ∧ b ≠ 0) (hrest : ∀ b ∈ rest, b ≠ 0) (hne : rest ≠ [])
    (hn : name.length < env.CHAR_BUFF_SIZE) (hr : rest.length < env.CHAR_BUFF_SIZE)
    (hlook : env.read_dentry_by_name name = some d)
    (hmagic : ∀ k, k < 4 →
      overlay (env.read_data d.inode_number 0 4) env.garbage k = env.MAGIC_NUM_FOR_EXE k)
    (hpid : get_next_pid s = (i : Int)) :
    ∃ s1 t, sys_execute env (some (name ++ [SPACE] ++ rest)) s = .iret s1 ∧
      (parse_command env (name ++ [SPACE] ++ rest)).map Prod.fst = some name ∧
      s1.curr_task s1.current_terminal = some t ∧
      (∀ j, j < env.CHAR_BUFF_SIZE → (s1.mem t).arg j = rest.getD j 0) ∧
      (∀ (buf : Nat → Nat) (n : Int), (rest.length : Int) < n → n < 2 ^ 31 →
        sys_getargs env (some buf) n s1 =
          some (0, some (fun j => if j < n.toNat then rest.getD j 0 else buf j))) := by
  have hparse := parse_command_split env name rest hname hrest hn (Nat.le_of_lt hr)
  have hexec := sys_execute_ok env _ s name _ d i hparse hlook hmagic hpid
  have hcur := exec_state_curr env s d (args_buffer env rest) i
  have harg := exec_state_arg env s d rest i
  refine ⟨_, s.PCB_ADDR s.current_terminal i, hexec, ?_, hcur, harg, ?_⟩
  · rw [hparse]; rfl
  · intro buf n hn1 hn2
    rw [sys_getargs_fits env buf n _ _ rest.length hcur
      (exec_state_arg0 env s d rest i hrest hne hr)
      (exec_state_strlen env s d rest i hrest hr) hn1 hn2]
    congr 3
    funext j
    by_cases h : j < rest.length
    · have h2 : j < n.toNat := by omega
      simp only [h, h2, if_true]
      exact harg j (by omega)
    · have : rest.getD j 0 = 0 := by
        rw [List.getD_eq_default]; omega
      rw [this]
      simp [h]

/-- C8, the instance of the specification: the shell of terminal 0 executes
"testprog arg1 arg2"; the argument buffer holds "arg1 arg2" and `sys_getargs`
returns that string. -/
theorem execute_args_then_getargs_witness :
    ∃ s1 t, sys_execute demo_env (some (testprog ++ [SPACE] ++ arg1_arg2)) shell_running
        = .iret s1 ∧
      (parse_command demo_env (testprog ++ [SPACE] ++ arg1_arg2)).map Prod.fst
        = some testprog ∧
      s1.curr_task s1.current_terminal = some t ∧
      (∀ j, j < demo_env.CHAR_BUFF_SIZE → (s1.mem t).arg j = arg1_arg2.getD j 0) ∧
      (∀ (buf : Nat → Nat) (n : Int), (arg1_arg2.length : Int) < n → n < 2 ^ 31 →
        sys_getargs demo_env (some buf) n s1 =
          some (0, some (fun j => if j < n.toNat then arg1_arg2.getD j 0 else buf j))) :=
  execute_args_then_getargs demo_env shell_running testprog arg1_arg2
    { file_type := 2, inode_number := 2 } 1
    (by decide) (by decide) (by decide) (by decide) (by decide) rfl (by decide) rfl

/-- C9: for every state whose current terminal has no active task and whose
slot 0 is free, an execute of "shell" that finds the file and the magic
sequence enters user mode with a PCB at the address of slot 0 that has
process_id 0, no parent, no child, descriptor 0 in use on the terminal-input
table, descriptor 1 in use on the terminal-output table and descriptors 2..7
free; slot 0 is marked used and that PCB is the active task of the terminal. -/
theorem execute_shell_root (env : Env) (s : Kernel) (d : dentry_t)
    (hcur : s.curr_task s.current_terminal = none)
    (hfree : s.pid_used s.current_terminal 0 = FREE)
    (hcap : shell.length < env.CHAR_BUFF_SIZE)
    (hlook : env.read_dentry_by_name shell = some d)
    (hmagic : ∀ k, k < 4 →
      overlay (env.read_data d.inode_number 0 4) env.garbage k = env.MAGIC_NUM_FOR_EXE k) :
    ∃ s1, sys_execute env (some shell) s = .iret s1 ∧
      s1.current_terminal = s.current_terminal ∧
      s1.curr_task s.current_terminal = some (s.PCB_ADDR s.current_terminal 0) ∧
      s1.pid_used s.current_terminal 0 = USED ∧
      (s1.mem (s.PCB_ADDR s.current_terminal 0)).process_id = 0 ∧
      (s1.mem (s.PCB_ADDR s.current_terminal 0)).parent_task = none ∧
      (s1.mem (s.PCB_ADDR s.current_terminal 0)).child_task = none ∧
      (s1.mem (s.PCB_ADDR s.current_terminal 0)).file_array 0 =
        { opt := some .stdin_operations, inode_number := INVALID_INODE,
          file_position := 0, flags := USED } ∧
      (s1.mem (s.PCB_ADDR s.current_terminal 0)).file_array 1 =
        { opt := some .stdout_operations, inode_number := INVALID_INODE,
          file_position := 0, flags := USED } ∧
      (∀ j, 2 ≤ j → j < 8 →
        (s1.mem (s.PCB_ADDR s.current_terminal 0)).file_array j = free_entry) := by
  have hpid : get_next_pid s = ((0 : Nat) : Int) :=
    (get_next_pid_some s 0).2 ⟨by decide, hfree, fun j hj => absurd hj (Nat.not_lt_zero j)⟩
  have hparse := parse_command_plain env shell (by decide) hcap
  refine ⟨_, sys_execute_ok env shell s shell _ d 0 hparse hlook hmagic hpid, ?_⟩
  refine ⟨rfl, ?_, ?_, ?_, ?_, ?_, ?_, ?_, ?_⟩
  · simp [exec_state]
  · simp [exec_state]
  · simp [exec_state, pcb_image]
  · simp [exec_state, pcb_image, hcur]
  · simp [exec_state, pcb_image]
  · simp [exec_state, pcb_image]
  · simp [exec_state, pcb_image]
  · intro j h2 h8
    have h1 : j ≠ 1 := by omega
    have h0 : j ≠ 0 := by omega
    simp [exec_state, pcb_image, h1, h0, PCB_START, PCB_END, h2, h8]

/-- C9 at boot: the first execute of "shell" on terminal 0. -/
theorem execute_shell_root_witness :
    ∃ s1, sys_execute demo_env (some shell) boot = .iret s1 ∧
      s1.current_terminal = boot.current_terminal ∧
      s1.curr_task boot.current_terminal = some (boot.PCB_ADDR boot.current_terminal 0) ∧
      s1.pid_used boot.current_terminal 0 = USED ∧
      (s1.mem (boot.PCB_ADDR boot.current_terminal 0)).process_id = 0 ∧
      (s1.mem (boot.PCB_ADDR boot.current_terminal 0)).parent_task = none ∧
      (s1.mem (boot.PCB_ADDR boot.current_terminal 0)).child_task = none ∧
      (s1.mem (boot.PCB_ADDR boot.current_terminal 0)).file_array 0 =
        { opt := some .stdin_operations, inode_number := INVALID_INODE,
          file_position := 0, flags := USED } ∧
      (s1.mem (boot.PCB_ADDR boot.current_terminal 0)).file_array 1 =
        { opt := some .stdout_operations, inode_number := INVALID_INODE,
          file_position := 0, flags := USED } ∧
      (∀ j, 2 ≤ j → j < 8 →
        (s1.mem (boot.PCB_ADDR boot.current_terminal 0)).file_array j = free_entry) :=
  execute_shell_root demo_env boot { file_type := 2, inode_number := 1 }
    rfl rfl (by decide) rfl (by decide)

/-! ## halt -/

theorem sys_close_step (i : Nat) (s : Kernel) (c : Nat)
    (hc : s.curr_task s.current_terminal = some c) (h2 : 2 ≤ i) (h7 : i ≤ 7) :
    ∃ v, sys_close (i : Int) s =
      .ret v (s.wr c (fun p => { p with file_array := close_fd p.file_array i })) := by
  by_cases hu : ((s.mem c).file_array i).flags = FREE
  · refine ⟨-1, ?_⟩
    have h := sys_close_free (i : Int) s c hc (by omega) (by omega) (by simpa using hu)
    rw [h]
    have : s.wr c (fun p => { p with file_array := close_fd p.file_array i }) = s := by
      simp [Kernel.wr, close_fd, hu]
    rw [this]
  · refine ⟨0, ?_⟩
    have h := sys_close_used (i : Int) s c hc (by omega) (by omega) (by simpa using hu)
    rw [h]
    simp [Kernel.wr, close_fd, hu, pcb_t.set_fd]

theorem close_all_eq (c : Nat) :
    ∀ (l : List Nat) (s : Kernel), s.curr_task s.current_terminal = some c →
      (∀ i ∈ l, 2 ≤ i ∧ i ≤ 7) →
      close_all s l =
        some (s.wr c (fun p => { p with file_array := l.foldl close_fd p.file_array })) := by
  intro l
  induction l with
  | nil =>
    intro s _ _
    simp [close_all, Kernel.wr]
  | cons i rest ih =>
    intro s hc hl
    obtain ⟨v, hv⟩ := sys_close_step i s c hc (hl i (by simp)).1 (hl i (by simp)).2
    simp only [close_all, hv]
    rw [ih _ (by simpa [Kernel.wr] using hc) (fun j hj => hl j (by simp [hj]))]
    simp [Kernel.wr]

theorem foldl_close_fd (l : List Nat) :
    ∀ fa : Nat → file_desc_t,
      l.foldl close_fd fa =
        fun j => if j ∈ l ∧ (fa j).flags ≠ FREE then free_entry else fa j := by
  induction l with
  | nil => intro fa; simp
  | cons i rest ih =>
    intro fa
    rw [List.foldl_cons, ih]
    funext j
    by_cases hu : (fa i).flags = FREE
    · have e : close_fd fa i = fa := by simp [close_fd, hu]
      rw [e]
      by_cases hj : j = i
      · subst hj
        simp [hu]
      · simp [hj]
    · have e : close_fd fa i = Function.update fa i free_entry := by simp [close_fd, hu]
      rw [e]
      by_cases hj : j = i
      · subst hj
        simp [hu, free_entry]
      · simp [hj, Function.update_noteq hj]

theorem foldl_close_fd_free (l : List Nat) (fa : Nat → file_desc_t) (j : Nat) (hj : j ∈ l) :
    ((l.foldl close_fd fa) j).flags = FREE := by
  rw [foldl_close_fd]
  by_cases hu : (fa j).flags = FREE
  · simp [hj, hu]
  · simp [hj, hu, free_entry]

theorem halt_tail_ok (env : Env) (status : Nat) (s : Kernel) (c p o : Nat)
    (hc : s.curr_task s.current_terminal = some c)
    (hp : (s.mem c).parent_task = some p)
    (hlink : (s.mem p).child_task = some o) :
    halt_tail env status s =
      .halt_ret (status % 256)
        { s with
          curr_task := Function.update s.curr_task s.current_terminal (some p)
          mem := Function.update s.mem p { s.mem p with child_task := none }
          page_slot := 8 * s.current_terminal + (s.mem p).process_id
          cr3 := env.reset_cr3 s.cr3
          tss_esp0 := esp0_of s.current_terminal (s.mem p).process_id
          esp := (s.mem o).esp
          ebp := (s.mem o).ebp } := by
  unfold halt_tail
  by_cases hop : o = p
  · subst hop
    simp [hc, hp, hlink, Kernel.wr]
  · simp [hc, hp, hlink, Kernel.wr, Function.update_noteq hop]

/-- C2: for every state whose active task `c` has a parent `p` that holds `c`
as its child (the links `new_pcb` makes) and every status byte, `sys_halt`
jumps to `HALT_RET_LABEL` with `status` as the value the parent's execute call
returns; the slot of `c` is free in its terminal, the descriptors 2..7 of `c`
are free, `p` is the active task of the terminal with no child, and the stack
and frame pointers are the ones stored in the PCB of `c`; when the state is the
one in which a `sys_execute` called in a state `s0` entered user mode, these
are the stack and frame pointers of `s0`, the ones that execute saved. -/
theorem sys_halt_child (env : Env) (status : Nat) (s : Kernel) (c p : Nat)
    (hc : s.curr_task s.current_terminal = some c)
    (hp : (s.mem c).parent_task = some p)
    (hlink : (s.mem p).child_task = some c)
    (hst : status < 256) :
    ∃ s1, sys_halt env status s = .halt_ret status s1 ∧
      s1.current_terminal = s.current_terminal ∧
      s1.pid_used s.current_terminal (s.mem c).process_id = FREE ∧
      (∀ j, 2 ≤ j → j < 8 → ((s1.mem c).file_array j).flags = FREE) ∧
      s1.curr_task s.current_terminal = some p ∧
      (s1.mem p).child_task = none ∧
      s1.esp = (s.mem c).esp ∧ s1.ebp = (s.mem c).ebp ∧
      (∀ s0 cmd, sys_execute env (some cmd) s0 = .iret s →
        s1.esp = s0.esp ∧ s1.ebp = s0.ebp) := by
  have hl : ∀ i ∈ List.range' PCB_START (PCB_END - PCB_START), 2 ≤ i ∧ i ≤ 7 := by
    intro i hi
    rw [List.mem_range'] at hi
    obtain ⟨k, hk, rfl⟩ := hi
    simp only [PCB_START, PCB_END] at hk ⊢
    omega
  have hclose := close_all_eq c (List.range' PCB_START (PCB_END - PCB_START))
    (s.set_pid s.current_terminal (s.mem c).process_id FREE)
    (by simpa [Kernel.set_pid] using hc) hl
  have hmod : status % 256 = status := Nat.mod_eq_of_lt hst
  obtain ⟨S2, hS2⟩ : ∃ S2 : Kernel,
      S2 = Kernel.wr (s.set_pid s.current_terminal (s.mem c).process_id FREE) c
        (fun q => { q with file_array :=
          (List.range' PCB_START (PCB_END - PCB_START)).foldl close_fd q.file_array }) :=
    ⟨_, rfl⟩
  rw [← hS2] at hclose
  have hct : S2.current_terminal = s.current_terminal := by rw [hS2]; rfl
  have hc2 : S2.curr_task s.current_terminal = some c := by
    rw [hS2]; simpa [Kernel.wr, Kernel.set_pid] using hc
  have hmemc : S2.mem c = { s.mem c with file_array :=
      (List.range' PCB_START (PCB_END - PCB_START)).foldl close_fd (s.mem c).file_array } := by
    rw [hS2]; simp [Kernel.wr, Kernel.set_pid]
  have hp2 : (S2.mem c).parent_task = some p := by rw [hmemc]; exact hp
  have hlink2 : (S2.mem p).child_task = some c := by
    by_cases hpc : p = c
    · subst hpc; rw [hmemc]; exact hlink
    · rw [hS2]; simpa [Kernel.wr, Kernel.set_pid, Function.update_noteq hpc] using hlink
  have hpid2 : S2.pid_used s.current_terminal (s.mem c).process_id = FREE := by
    rw [hS2]; simp [Kernel.wr, Kernel.set_pid]
  have htail := halt_tail_ok env status S2 c p c (by rw [hct]; exact hc2) hp2 hlink2
  unfold sys_halt
  simp only [hc, hclose, hc2, hp2, htail, hmod]
  refine ⟨_, rfl, hct, hpid2, ?_, ?_, ?_, ?_, ?_, ?_⟩
  · intro j h2 h8
    have hmem : j ∈ List.range' PCB_START (PCB_END - PCB_START) := by
      rw [List.mem_range']
      exact ⟨j - 2, by simp only [PCB_START, PCB_END]; omega,
        by simp only [PCB_START]; omega⟩
    have hfree := foldl_close_fd_free (List.range' PCB_START (PCB_END - PCB_START))
      (s.mem c).file_array j hmem
    by_cases hpc : c = p
    · subst hpc
      simp only [Function.update_same]
      rw [hmemc]; exact hfree
    · simp only [Function.update_noteq hpc]
      rw [hmemc]; exact hfree
  · show Function.update S2.curr_task S2.current_terminal (some p) s.current_terminal = some p
    rw [hct, Function.update_same]
  · simp
  · show (S2.mem c).esp = (s.mem c).esp
    rw [hmemc]
  · show (S2.mem c).ebp = (s.mem c).ebp
    rw [hmemc]
  · intro s0 cmd hexec
    obtain ⟨program, arguments, d, i, _, _, _, hs⟩ := sys_execute_iret env cmd s0 s hexec
    have hcur := exec_state_curr env s0 d arguments i
    rw [← hs, hc] at hcur
    have hcc : c = s0.PCB_ADDR s0.current_terminal i := by
      injection hcur
    have hsaved := exec_state_saved env s0 d arguments i
    rw [← hs, ← hcc] at hsaved
    constructor
    · show (S2.mem c).esp = s0.esp
      rw [hmemc]; exact hsaved.1
    · show (S2.mem c).ebp = s0.ebp
      rw [hmemc]; exact hsaved.2

/-- C2 for "testprog arg1 arg2", started by the shell of terminal 0, which
halts with status 7. -/
theorem sys_halt_child_witness :
    ∃ s1, sys_halt demo_env 7 testprog_running = .halt_ret 7 s1 ∧
      s1.current_terminal = testprog_running.current_terminal ∧
      s1.pid_used testprog_running.current_terminal
        (testprog_running.mem 8372224).process_id = FREE ∧
      (∀ j, 2 ≤ j → j < 8 → ((s1.mem 8372224).file_array j).flags = FREE) ∧
      s1.curr_task testprog_running.current_terminal = some 8380416 ∧
      (s1.mem 8380416).child_task = none ∧
      s1.esp = (testprog_running.mem 8372224).esp ∧
      s1.ebp = (testprog_running.mem 8372224).ebp ∧
      (∀ s0 cmd, sys_execute demo_env (some cmd) s0 = .iret testprog_running →
        s1.esp = s0.esp ∧ s1.ebp = s0.ebp) :=
  sys_halt_child demo_env 7 testprog_running 8372224 8380416
    testprog_running_task testprog_running_parent testprog_running_child (by decide)

/-! ## Terminal switching -/

theorem memcpy_eq (dest src : Nat → Nat) (n : Nat) :
    memcpy dest src n = fun j => if j < n then src j else dest j := by
  unfold memcpy
  rw [forLoop_update_eq src]
  funext j
  simp

/-- C10: for every state whose current terminal has an active task and every
index `n` in 0..2 whose slot 0 is free, `terminal_switch(n)`, with the file
"shell" found and executable, ends in the `iret` of the `sys_execute` of
"shell": that execute is entered in a state `s0` in which the cursor of the
outgoing terminal is saved, its backing page holds the display, `n` is the
current terminal, the display is cleared and the cursor is at the origin, and
these hold in the final state too.  The new PCB has process_id 0 in slot 0 of
`n`, and no parent when terminal `n` had no task.  The display is not the
backing page of `n` but the cleared one, the outcome is not the `ret` into a
saved context, and the stack and frame pointers are not replaced by saved
ones. -/
theorem terminal_switch_fresh (env : Env) (s : Kernel) (n c : Nat) (d : dentry_t)
    (hn : n ≤ 2)
    (hc : s.curr_task s.current_terminal = some c)
    (hfree : s.pid_used n 0 = FREE)
    (hcap : shell.length < env.CHAR_BUFF_SIZE)
    (hlook : env.read_dentry_by_name shell = some d)
    (hmagic : ∀ k, k < 4 →
      overlay (env.read_data d.inode_number 0 4) env.garbage k = env.MAGIC_NUM_FOR_EXE k) :
    ∃ s0 s1, terminal_switch env (n : Int) s = .iret s1 ∧
      sys_execute env (some shell) s0 = .iret s1 ∧
      s0.terminal_screenx s.current_terminal = s.screen_x ∧
      s0.terminal_screeny s.current_terminal = s.screen_y ∧
      (∀ j, j < FOURKB → s0.back_page s.current_terminal j = s.video j) ∧
      s0.current_terminal = n ∧
      s0.video = env.clear s.video ∧ s0.screen_x = 0 ∧ s0.screen_y = 0 ∧
      s1.terminal_screenx s.current_terminal = s.screen_x ∧
      s1.terminal_screeny s.current_terminal = s.screen_y ∧
      (∀ j, j < FOURKB → s1.back_page s.current_terminal j = s.video j) ∧
      s1.current_terminal = n ∧
      s1.video = env.clear s.video ∧ s1.screen_x = 0 ∧ s1.screen_y = 0 ∧
      s1.esp = s.esp ∧ s1.ebp = s.ebp ∧
      s1.curr_task n = some (s.PCB_ADDR n 0) ∧
      s1.pid_used n 0 = USED ∧
      (s1.mem (s.PCB_ADDR n 0)).process_id = 0 ∧
      (s.curr_task n = none → (s1.mem (s.PCB_ADDR n 0)).parent_task = none) := by
  have hr : ¬ ((n : Int) < 0 ∨ (n : Int) > 2) := by omega
  have hpu : (switch_save env n c s).pid_used n 0 = 0 := by
    simpa [switch_save, Kernel.wr, FREE] using hfree
  have hpid : get_next_pid (switch_fresh env (switch_save env n c s)) = ((0 : Nat) : Int) := by
    apply (get_next_pid_some _ 0).2
    refine ⟨by decide, ?_, fun j hj => absurd hj (Nat.not_lt_zero j)⟩
    simpa [switch_fresh, switch_save, Kernel.wr] using hfree
  have hparse := parse_command_plain env shell (by decide) hcap
  have hexec := sys_execute_ok env shell (switch_fresh env (switch_save env n c s)) shell _ d 0
    hparse hlook hmagic hpid
  refine ⟨switch_fresh env (switch_save env n c s), _, ?_, hexec, ?_⟩
  · unfold terminal_switch
    simp only [if_neg hr, hc, Int.toNat_ofNat, hpu, if_true, hexec]
  · refine ⟨?_, ?_, ?_, ?_, ?_, ?_, ?_, ?_, ?_, ?_, ?_, ?_, ?_, ?_, ?_, ?_, ?_, ?_, ?_, ?_⟩
    · simp [switch_fresh, switch_save, Kernel.wr]
    · simp [switch_fresh, switch_save, Kernel.wr]
    · intro j hj
      simp [switch_fresh, switch_save, Kernel.wr, memcpy_eq, hj]
    · simp [switch_fresh, switch_save, Kernel.wr]
    · simp [switch_fresh, switch_save, Kernel.wr]
    · simp [switch_fresh, switch_save, Kernel.wr]
    · simp [switch_fresh, switch_save, Kernel.wr]
    · simp [exec_state, switch_fresh, switch_save, Kernel.wr]
    · simp [exec_state, switch_fresh, switch_save, Kernel.wr]
    · intro j hj
      simp [exec_state, switch_fresh, switch_save, Kernel.wr, memcpy_eq, hj]
    · simp [exec_state, switch_fresh, switch_save, Kernel.wr]
    · simp [exec_state, switch_fresh, switch_save, Kernel.wr]
    · simp [exec_state, switch_fresh, switch_save, Kernel.wr]
    · simp [exec_state, switch_fresh, switch_save, Kernel.wr]
    · simp [exec_state, switch_fresh, switch_save, Kernel.wr]
    · simp [exec_state, switch_fresh, switch_save, Kernel.wr]
    · simp [exec_state, switch_fresh, switch_save, Kernel.wr]
    · simp [exec_state, switch_fresh, switch_save, Kernel.wr]
    · simp [exec_state, switch_fresh, switch_save, Kernel.wr, pcb_image]
    · intro hnone
      simp [exec_state, switch_fresh, switch_save, Kernel.wr, pcb_image, hnone]

/-- C10 for the first switch from terminal 0, where the shell runs, to
terminal 1, which was never started. -/
theorem terminal_switch_fresh_witness :
    ∃ s0 s1, terminal_switch demo_env ((1 : Nat) : Int) shell_running = .iret s1 ∧
      sys_execute demo_env (some shell) s0 = .iret s1 ∧
      s0.terminal_screenx shell_running.current_terminal = shell_running.screen_x ∧
      s0.terminal_screeny shell_running.current_terminal = shell_running.screen_y ∧
      (∀ j, j < FOURKB → s0.back_page shell_running.current_terminal j = shell_running.video j) ∧
      s0.current_terminal = 1 ∧
      s0.video = demo_env.clear shell_running.video ∧ s0.screen_x = 0 ∧ s0.screen_y = 0 ∧
      s1.terminal_screenx shell_running.current_terminal = shell_running.screen_x ∧
      s1.terminal_screeny shell_running.current_terminal = shell_running.screen_y ∧
      (∀ j, j < FOURKB → s1.back_page shell_running.current_terminal j = shell_running.video j) ∧
      s1.current_terminal = 1 ∧
      s1.video = demo_env.clear shell_running.video ∧ s1.screen_x = 0 ∧ s1.screen_y = 0 ∧
      s1.esp = shell_running.esp ∧ s1.ebp = shell_running.ebp ∧
      s1.curr_task 1 = some (shell_running.PCB_ADDR 1 0) ∧
      s1.pid_used 1 0 = USED ∧
      (s1.mem (shell_running.PCB_ADDR 1 0)).process_id = 0 ∧
      (shell_running.curr_task 1 = none →
        (s1.mem (shell_running.PCB_ADDR 1 0)).parent_task = none) :=
  terminal_switch_fresh demo_env shell_running 1 8380416 { file_type := 2, inode_number := 1 }
    (by decide) rfl rfl (by decide) rfl (by decide)

/-! ## Claims on the failures of execute, the kernel stacks and the PCB storage -/

/-- The failure returns of `sys_execute`: in every state it returns -1 with the
state unchanged (PID bitmap, active-task pointers, PCBs and page mapping
included) when the command pointer is null, and, for a command that fits the
local arrays `program` and `arguments`, when the lookup of the program name
fails, when one of the first four bytes read from the file differs from the
magic sequence, or when every slot of the current terminal is in use.  For a
command that does not fit see `sys_execute_overlong`. -/
theorem sys_execute_failures (env : Env) (s : Kernel) :
    sys_execute env none s = .ret (-1) s ∧
    (∀ cmd program arguments, parse_command env cmd = some (program, arguments) →
      (env.read_dentry_by_name program = none ∨
        (∃ d, env.read_dentry_by_name program = some d ∧
          ∃ k, k < 4 ∧ overlay (env.read_data d.inode_number 0 4) env.garbage k
            ≠ env.MAGIC_NUM_FOR_EXE k) ∨
        (∀ i, i < MAX_PCBS → s.pid_used s.current_terminal i ≠ FREE)) →
      sys_execute env (some cmd) s = .ret (-1) s) := by
  refine ⟨rfl, ?_⟩
  intro cmd program arguments hparse h
  cases hlook : env.read_dentry_by_name program with
  | none => simp [sys_execute, hparse, hlook]
  | some d =>
    by_cases hm : overlay (env.read_data d.inode_number 0 4) env.garbage 0
          ≠ env.MAGIC_NUM_FOR_EXE 0
        ∨ overlay (env.read_data d.inode_number 0 4) env.garbage 1 ≠ env.MAGIC_NUM_FOR_EXE 1
        ∨ overlay (env.read_data d.inode_number 0 4) env.garbage 2 ≠ env.MAGIC_NUM_FOR_EXE 2
        ∨ overlay (env.read_data d.inode_number 0 4) env.garbage 3 ≠ env.MAGIC_NUM_FOR_EXE 3
    · simp only [sys_execute, hparse, hlook, if_pos hm]
    · rcases h with h | ⟨d2, hd2, k, hk, hne⟩ | h
      · rw [hlook] at h; exact absurd h (by simp)
      · rw [hlook] at hd2
        injection hd2 with hd2
        subst hd2
        exfalso
        apply hm
        interval_cases k
        · exact Or.inl hne
        · exact Or.inr (Or.inl hne)
        · exact Or.inr (Or.inr (Or.inl hne))
        · exact Or.inr (Or.inr (Or.inr hne))
      · have hp : get_next_pid s = -1 := (get_next_pid_neg s).2 h
        simp only [sys_execute, hparse, hlook, if_neg hm, if_pos hp]

/-- The failure return for the shell of terminal 0 and the command "x", a file
the file system does not hold. -/
theorem sys_execute_failures_witness :
    sys_execute demo_env (some [120]) shell_running = .ret (-1) shell_running :=
  (sys_execute_failures demo_env shell_running).2 [120] [120] _
    (parse_command_plain demo_env [120] (by decide) (by decide)) (Or.inl rfl)

theorem esp0_of_eq (t p : Nat) (ht : t ≤ 2) (hp : p ≤ 5) :
    esp0_of t p = EIGHT_MB - (8 * t + p) * EIGHT_KB ∧ (8 * t + p) * EIGHT_KB ≤ EIGHT_MB := by
  unfold esp0_of u32sub EIGHT_MB EIGHT_KB
  norm_num
  omega

/-- C12: for terminals 0..2 and slots 0..5 the kernel stack top
`esp0_of t p`, which is the value `sys_execute` stores in `tss.esp0` for the
task it creates and `sys_halt` stores for the parent it resumes, equals
`8MB - (8*t + p) * 8KB` computed without wrap-around (the product is at most
8MB), and two distinct pairs get distinct values. -/
theorem esp0_of_injective (t p t' p' : Nat) (ht : t ≤ 2) (hp : p ≤ 5) (ht' : t' ≤ 2)
    (hp' : p' ≤ 5) (hne : (t, p) ≠ (t', p')) :
    esp0_of t p = EIGHT_MB - (8 * t + p) * EIGHT_KB ∧
    (8 * t + p) * EIGHT_KB ≤ EIGHT_MB ∧
    esp0_of t p ≠ esp0_of t' p' ∧
    (∀ env cmd s s1, sys_execute env (some cmd) s = .iret s1 →
      ∃ a, s1.curr_task s.current_terminal = some a ∧
        s1.tss_esp0 = esp0_of s.current_terminal (s1.mem a).process_id) ∧
    (∀ env status s c q o, s.curr_task s.current_terminal = some c →
      (s.mem c).parent_task = some q → (s.mem q).child_task = some o →
      ∃ s1, halt_tail env status s = .halt_ret (status % 256) s1 ∧
        s1.tss_esp0 = esp0_of s.current_terminal (s.mem q).process_id) := by
  obtain ⟨h1, h2⟩ := esp0_of_eq t p ht hp
  obtain ⟨h3, h4⟩ := esp0_of_eq t' p' ht' hp'
  refine ⟨h1, h2, ?_, ?_, ?_⟩
  · rw [h1, h3]
    intro h
    apply hne
    simp only [EIGHT_MB, EIGHT_KB] at h h2 h4
    have e1 : t = t' := by omega
    have e2 : p = p' := by omega
    rw [e1, e2]
  · intro env cmd s s1 hexec
    obtain ⟨program, arguments, d, i, _, _, _, hs⟩ := sys_execute_iret env cmd s s1 hexec
    refine ⟨s.PCB_ADDR s.current_terminal i, ?_, ?_⟩
    · rw [hs]; simp [exec_state]
    · rw [hs]; simp [exec_state, pcb_image]
  · intro env status s c q o hc hq ho
    exact ⟨_, halt_tail_ok env status s c q o hc hq ho, rfl⟩

/-- C12 for the slots (1, 2) and (2, 0). -/
theorem esp0_of_injective_witness :
    esp0_of 1 2 = EIGHT_MB - (8 * 1 + 2) * EIGHT_KB ∧
    (8 * 1 + 2) * EIGHT_KB ≤ EIGHT_MB ∧
    esp0_of 1 2 ≠ esp0_of 2 0 :=
  let h := esp0_of_injective 1 2 2 0 (by decide) (by decide) (by decide) (by decide)
    (by decide)
  ⟨h.1, h.2.1, h.2.2.1⟩

theorem forLoop_zero_succ {σ : Type} (n : Nat) (body : Nat → σ → σ) (s : σ) :
    forLoop 0 (n + 1) body s = body n (forLoop 0 n body s) := by
  unfold forLoop
  simp only [Nat.sub_zero]
  rw [List.range'_concat]
  simp [List.foldl_append]

theorem u32sub_eq (a b : Nat) (hb : b ≤ a) (ha : a < 2 ^ 32) : u32sub a b = a - b := by
  unfold u32sub
  have h1 : a % 2 ^ 32 = a := Nat.mod_eq_of_lt ha
  have h2 : b % 2 ^ 32 = b := Nat.mod_eq_of_lt (by omega)
  rw [h1, h2]
  have h3 : a + 2 ^ 32 - b = (a - b) + 2 ^ 32 := by omega
  rw [h3, Nat.add_mod_right]
  exact Nat.mod_eq_of_lt (by omega)

/-- The inner loop of `set_pcbs` for the row `y`. -/
theorem set_pcbs_row (y : Nat) :
    ∀ (n a : Nat) (T : Nat → Nat → Nat), n * EIGHT_KB ≤ a → a < 2 ^ 32 →
      forLoop 0 n
        (fun x (acc : Nat × (Nat → Nat → Nat)) =>
          let a := u32sub acc.1 EIGHT_KB
          (a, Function.update acc.2 y (Function.update (acc.2 y) x a)))
        (a, T)
      = (a - n * EIGHT_KB,
          fun t p => if t = y ∧ p < n then a - (p + 1) * EIGHT_KB else T t p) := by
  intro n
  induction n with
  | zero =>
    intro a T _ _
    simp [forLoop]
  | succ n ih =>
    intro a T hn ha
    have hn1 : n * EIGHT_KB ≤ a := by
      have : n * EIGHT_KB ≤ (n + 1) * EIGHT_KB := Nat.mul_le_mul_right _ (Nat.le_succ n)
      omega
    rw [forLoop_zero_succ, ih a T hn1 ha]
    have hsub : u32sub (a - n * EIGHT_KB) EIGHT_KB = a - (n + 1) * EIGHT_KB := by
      rw [u32sub_eq _ _ (by rw [Nat.succ_mul] at hn; omega) (by omega)]
      rw [Nat.succ_mul]; omega
    simp only [hsub]
    refine Prod.ext rfl ?_
    show (fun t p => _) = (fun t p => _)
    funext t p
    by_cases ht : t = y
    · subst ht
      by_cases hp : p = n
      · subst hp
        simp
      · have h1 : (p < n + 1) ↔ (p < n) := by omega
        simp [Function.update_noteq hp, h1]
    · simp [Function.update_noteq ht, ht]

/-- The two loops of `set_pcbs` for the rows below `m`. -/
theorem set_pcbs_rows :
    ∀ (m a : Nat) (T : Nat → Nat → Nat), 6 * m * EIGHT_KB ≤ a → a < 2 ^ 32 →
      forLoop 0 m
        (fun y acc => forLoop 0 MAX_PCBS
          (fun x (acc : Nat × (Nat → Nat → Nat)) =>
            let a := u32sub acc.1 EIGHT_KB
            (a, Function.update acc.2 y (Function.update (acc.2 y) x a)))
          acc)
        (a, T)
      = (a - 6 * m * EIGHT_KB,
          fun t p => if t < m ∧ p < 6 then a - (6 * t + p + 1) * EIGHT_KB else T t p) := by
  intro m
  induction m with
  | zero =>
    intro a T _ _
    simp [forLoop]
  | succ m ih =>
    intro a T hm ha
    have hm1 : 6 * m * EIGHT_KB ≤ a := by
      simp only [EIGHT_KB] at hm ⊢; omega
    rw [forLoop_zero_succ, ih a T hm1 ha]
    simp only [MAX_PCBS]
    rw [set_pcbs_row m 6 _ _ (by simp only [EIGHT_KB] at hm ⊢; omega) (by omega)]
    refine Prod.ext ?_ ?_
    · show a - 6 * m * EIGHT_KB - 6 * EIGHT_KB = a - 6 * (m + 1) * EIGHT_KB
      simp only [EIGHT_KB] at hm ⊢; omega
    · show (fun t p => _) = (fun t p => _)
      funext t p
      by_cases hp : p < 6
      · by_cases ht : t = m
        · subst ht
          have e : a - 6 * t * EIGHT_KB - (p + 1) * EIGHT_KB
              = a - (6 * t + p + 1) * EIGHT_KB := by
            simp only [EIGHT_KB]; omega
          simp [hp, e]
        · by_cases ht2 : t < m
          · have ht3 : t < m + 1 := by omega
            simp [hp, ht, ht2, ht3]
          · have ht3 : ¬ t < m + 1 := by omega
            simp [hp, ht, ht2, ht3]
      · simp [hp]

theorem set_pcbs_addr (s : Kernel) (t p : Nat) (ht : t < MAX_TERMINALS) (hp : p < MAX_PCBS) :
    (set_pcbs s).PCB_ADDR t p = PCB_ADDR_BASE - (6 * t + p + 1) * EIGHT_KB := by
  simp only [MAX_TERMINALS, MAX_PCBS] at ht hp
  unfold set_pcbs
  simp only [MAX_TERMINALS]
  rw [set_pcbs_rows 3 PCB_ADDR_BASE s.PCB_ADDR (by decide) (by decide)]
  simp [ht, hp]

/-- The PCB of slot `(t, p)` lies in the kernel stack block of slot `(t', p')`
exactly when `6*t + p = 8*t' + p'`. -/
theorem pcb_in_stack_block_iff (s : Kernel) (t p t' p' : Nat) (ht : t ≤ 2) (hp : p ≤ 5)
    (ht' : t' ≤ 2) (hp' : p' ≤ 5) :
    (esp0_of t' p' - EIGHT_KB ≤ (set_pcbs s).PCB_ADDR t p ∧
      (set_pcbs s).PCB_ADDR t p < esp0_of t' p') ↔ 6 * t + p = 8 * t' + p' := by
  rw [set_pcbs_addr s t p (by simp only [MAX_TERMINALS]; omega)
    (by simp only [MAX_PCBS]; omega), (esp0_of_eq t' p' ht' hp').1]
  simp only [PCB_ADDR_BASE, EIGHT_MB, EIGHT_KB]
  omega

/-- C17 (the code at the failing input): after `set_pcbs`, the PCB of slot 2 of
terminal 1 is stored at 8MB - 9*8KB = 8314880, which is the lowest address of
the kernel stack block [8314880, 8323072) of slot 0 of terminal 1, whose stack
top `sys_execute` and `sys_halt` install as 8MB - 8*8KB = 8323072. -/
theorem pcb_inside_other_stack (s : Kernel) :
    (set_pcbs s).PCB_ADDR 1 2 = PCB_ADDR_BASE - (6 * 1 + 2 + 1) * EIGHT_KB ∧
    (set_pcbs s).PCB_ADDR 1 2 = 8314880 ∧
    esp0_of 1 0 = 8323072 ∧
    ((1 : Nat), (2 : Nat)) ≠ ((1 : Nat), (0 : Nat)) ∧
    esp0_of 1 0 - EIGHT_KB ≤ (set_pcbs s).PCB_ADDR 1 2 ∧
    (set_pcbs s).PCB_ADDR 1 2 < esp0_of 1 0 := by
  have haddr := set_pcbs_addr s 1 2 (by decide) (by decide)
  refine ⟨haddr, by rw [haddr]; decide, by decide, by decide, ?_, ?_⟩
  · exact ((pcb_in_stack_block_iff s 1 2 1 0 (by decide) (by decide) (by decide)
      (by decide)).2 rfl).1
  · exact ((pcb_in_stack_block_iff s 1 2 1 0 (by decide) (by decide) (by decide)
      (by decide)).2 rfl).2

/-- C15 (the code at the failing input): the shell of terminal 0 executes
"testprog  arg", with two spaces after the program name.  The argument buffer
of the new PCB holds " arg", with the second space as its first byte, and not
"arg". -/
theorem execute_keeps_leading_space :
    ∃ s1 a, sys_execute demo_env (some (testprog ++ [SPACE] ++ [SPACE, 97, 114, 103]))
        shell_running = .iret s1 ∧
      s1.curr_task s1.current_terminal = some a ∧
      (List.range 6).map (s1.mem a).arg = [32, 97, 114, 103, 0, 0] := by
  have hparse := parse_command_split demo_env testprog [SPACE, 97, 114, 103] (by decide)
    (by decide) (by decide) (by decide)
  have hexec := sys_execute_ok demo_env _ shell_running testprog _
    { file_type := 2, inode_number := 2 } 1 hparse rfl (by decide) rfl
  refine ⟨_, _, hexec, exec_state_curr _ _ _ _ _, ?_⟩
  have harg := exec_state_arg demo_env shell_running
    { file_type := 2, inode_number := 2 } [SPACE, 97, 114, 103] 1
  simp [List.range, List.range.loop, harg 0 (by decide), harg 1 (by decide),
    harg 2 (by decide), harg 3 (by decide), harg 4 (by decide), harg 5 (by decide)]
  decide

/-! ## A command longer than the local arrays of execute -/

/-- A command without a space that does not leave room for the terminating NUL
in `program[CHAR_BUFF_SIZE]` makes `strncpy(program, command, strlen + 1)`
store past the end of the array. -/
theorem parse_command_overlong (env : Env) (name : List Nat)
    (hname : ∀ b ∈ name, b ≠ SPACE ∧ b ≠ 0) (hlen : env.CHAR_BUFF_SIZE ≤ name.length) :
    parse_command env name = none := by
  have hs : strlen name = name.length := strlen_no_nul name (fun b hb => (hname b hb).2)
  have hcap : env.CHAR_BUFF_SIZE < name.length + 1 := by omega
  unfold parse_command
  simp only [find_space_none name hname, hs]
  simp [hcap]

/-- For such a command `sys_execute` faults in every state, whatever the file
system holds and whatever slots are in use. -/
theorem sys_execute_overlong (env : Env) (name : List Nat) (s : Kernel)
    (hname : ∀ b ∈ name, b ≠ SPACE ∧ b ≠ 0) (hlen : env.CHAR_BUFF_SIZE ≤ name.length) :
    sys_execute env (some name) s = .fault := by
  unfold sys_execute
  simp only [parse_command_overlong env name hname hlen]

/-- C11 (the code at the failing input): the command is 40 bytes `x` without a
space and the local arrays hold `CHAR_BUFF_SIZE = 32` bytes.  The file system
holds no file of that name, and the call does not return -1: in every state,
also one with every slot of the terminal in use, `sys_execute` stores past the
end of its local array `program`, because `strncpy` copies the name without a
test of its length. -/
theorem sys_execute_overlong_missing_file :
    demo_env.CHAR_BUFF_SIZE = 32 ∧
    demo_env.read_dentry_by_name (List.replicate 40 120) = none ∧
    (∀ s : Kernel, sys_execute demo_env (some (List.replicate 40 120)) s = .fault) ∧
    sys_execute demo_env (some (List.replicate 40 120)) shell_running
      ≠ .ret (-1) shell_running := by
  have hname : ∀ b ∈ List.replicate 40 120, b ≠ SPACE ∧ b ≠ 0 := by
    intro b hb
    rw [List.mem_replicate] at hb
    rw [hb.2]
    decide
  have hf : ∀ s : Kernel, sys_execute demo_env (some (List.replicate 40 120)) s = .fault :=
    fun s => sys_execute_overlong demo_env _ s hname (by decide)
  refine ⟨rfl, by decide, hf, ?_⟩
  rw [hf]
  exact fun h => Outcome.noConfusion h

/-! ## Claims on the root shell and the slot of a task -/

/-- The state in which `sys_halt` leaves its loop over the descriptors. -/
theorem sys_halt_closed (s : Kernel) (c : Nat)
    (hc : s.curr_task s.current_terminal = some c) :
    ∃ S2 : Kernel,
      close_all (s.set_pid s.current_terminal (s.mem c).process_id FREE)
        (List.range' PCB_START (PCB_END - PCB_START)) = some S2 ∧
      S2.current_terminal = s.current_terminal ∧
      S2.curr_task = s.curr_task ∧
      S2.PCB_ADDR = s.PCB_ADDR ∧
      S2.pid_used = Function.update s.pid_used s.current_terminal
        (Function.update (s.pid_used s.current_terminal) (s.mem c).process_id FREE) ∧
      (∀ a, (S2.mem a).parent_task = (s.mem a).parent_task ∧
        (S2.mem a).child_task = (s.mem a).child_task ∧
        (S2.mem a).process_id = (s.mem a).process_id ∧
        (S2.mem a).esp = (s.mem a).esp ∧ (S2.mem a).ebp = (s.mem a).ebp) := by
  have hl : ∀ i ∈ List.range' PCB_START (PCB_END - PCB_START), 2 ≤ i ∧ i ≤ 7 := by
    intro i hi
    rw [List.mem_range'] at hi
    obtain ⟨k, hk, rfl⟩ := hi
    simp only [PCB_START, PCB_END] at hk ⊢
    omega
  have hclose := close_all_eq c (List.range' PCB_START (PCB_END - PCB_START))
    (s.set_pid s.current_terminal (s.mem c).process_id FREE)
    (by simpa [Kernel.set_pid] using hc) hl
  refine ⟨_, hclose, rfl, rfl, rfl, rfl, ?_⟩
  intro a
  by_cases hac : a = c
  · subst hac
    simp [Kernel.wr, Kernel.set_pid]
  · simp [Kernel.wr, Kernel.set_pid, Function.update_noteq hac]

/-- `sys_halt` of a task with a parent installs the page mapping and the
kernel stack top of the slot stored in the PCB of the parent. -/
theorem sys_halt_parent_slot (env : Env) (status : Nat) (s : Kernel) (c p : Nat)
    (hc : s.curr_task s.current_terminal = some c)
    (hp : (s.mem c).parent_task = some p)
    (hlink : (s.mem p).child_task = some c) :
    ∃ s1, sys_halt env status s = .halt_ret (status % 256) s1 ∧
      s1.page_slot = 8 * s.current_terminal + (s.mem p).process_id ∧
      s1.tss_esp0 = esp0_of s.current_terminal (s.mem p).process_id := by
  obtain ⟨S2, hclose, hct, hcur, _, _, hmem⟩ := sys_halt_closed s c hc
  have hc2 : S2.curr_task s.current_terminal = some c := by rw [hcur]; exact hc
  have hp2 : (S2.mem c).parent_task = some p := by rw [(hmem c).1]; exact hp
  have hl2 : (S2.mem p).child_task = some c := by rw [(hmem p).2.1]; exact hlink
  have htail := halt_tail_ok env status S2 c p c (by rw [hct]; exact hc2) hp2 hl2
  unfold sys_halt
  simp only [hc, hclose, hc2, hp2, htail]
  refine ⟨_, rfl, ?_, ?_⟩
  · show 8 * S2.current_terminal + (S2.mem p).process_id = _
    rw [hct, (hmem p).2.2.1]
  · show esp0_of S2.current_terminal (S2.mem p).process_id = _
    rw [hct, (hmem p).2.2.1]

/-- C13: for every state whose active task `c` is a root PCB in slot 0 of its
terminal (no parent, process_id 0, stored at the address of slot 0, as execute
creates a root), `sys_halt` by that task, with the file "shell" found and
executable, ends in the `iret` of the replacement shell: the active task of the
terminal is again a PCB at the address `c`, with process_id 0, no parent, no
child, descriptors 0 and 1 on the terminal tables and descriptors 2..7 free,
and slot 0 is marked used. -/
theorem sys_halt_root (env : Env) (status : Nat) (s : Kernel) (c : Nat) (d : dentry_t)
    (hc : s.curr_task s.current_terminal = some c)
    (hpar : (s.mem c).parent_task = none)
    (hpid : (s.mem c).process_id = 0)
    (haddr : s.PCB_ADDR s.current_terminal 0 = c)
    (hcap : shell.length < env.CHAR_BUFF_SIZE)
    (hlook : env.read_dentry_by_name shell = some d)
    (hmagic : ∀ k, k < 4 →
      overlay (env.read_data d.inode_number 0 4) env.garbage k = env.MAGIC_NUM_FOR_EXE k) :
    ∃ s1, sys_halt env status s = .iret s1 ∧
      s1.current_terminal = s.current_terminal ∧
      s1.curr_task s.current_terminal = some c ∧
      s1.PCB_ADDR s.current_terminal 0 = c ∧
      s1.pid_used s.current_terminal 0 = USED ∧
      (s1.mem c).process_id = 0 ∧
      (s1.mem c).parent_task = none ∧
      (s1.mem c).child_task = none ∧
      (s1.mem c).file_array 0 =
        { opt := some .stdin_operations, inode_number := INVALID_INODE,
          file_position := 0, flags := USED } ∧
      (s1.mem c).file_array 1 =
        { opt := some .stdout_operations, inode_number := INVALID_INODE,
          file_position := 0, flags := USED } ∧
      (∀ j, 2 ≤ j → j < 8 → (s1.mem c).file_array j = free_entry) := by
  obtain ⟨S2, hclose, hct, hcur, hpa, hpu, hmem⟩ := sys_halt_closed s c hc
  have hc2 : S2.curr_task s.current_terminal = some c := by rw [hcur]; exact hc
  have hp2 : (S2.mem c).parent_task = none := by rw [(hmem c).1]; exact hpar
  have hfree : S2.pid_used s.current_terminal 0 = FREE := by
    rw [hpu, hpid]; simp
  have hpid3 : get_next_pid
      { S2 with curr_task := Function.update S2.curr_task s.current_terminal none }
      = ((0 : Nat) : Int) := by
    apply (get_next_pid_some _ 0).2
    refine ⟨by decide, ?_, fun j hj => absurd hj (Nat.not_lt_zero j)⟩
    show S2.pid_used S2.current_terminal 0 = FREE
    rw [hct]; exact hfree
  have hparse := parse_command_plain env shell (by decide) hcap
  have hexec := sys_execute_ok env shell
    { S2 with curr_task := Function.update S2.curr_task s.current_terminal none }
    shell _ d 0 hparse hlook hmagic hpid3
  have ha : S2.PCB_ADDR s.current_terminal 0 = c := by rw [hpa]; exact haddr
  unfold sys_halt
  simp only [hc, hclose, hc2, hp2, hexec]
  refine ⟨_, rfl, ?_, ?_, ?_, ?_, ?_, ?_, ?_, ?_, ?_, ?_⟩
  · simp [exec_state, hct]
  · simp [exec_state, hct, ha]
  · simp [exec_state, hct, ha]
  · simp [exec_state, hct]
  · simp [exec_state, pcb_image, hct, ha]
  · have hn : Function.update S2.curr_task s.current_terminal none S2.current_terminal
        = none := by
      rw [hct]; simp
    simp [exec_state, pcb_image, hct, ha, hn]
  · simp [exec_state, pcb_image, hct, ha]
  · simp [exec_state, pcb_image, hct, ha]
  · simp [exec_state, pcb_image, hct, ha]
  · intro j h2 h8
    have h1 : j ≠ 1 := by omega
    have h0 : j ≠ 0 := by omega
    simp [exec_state, pcb_image, hct, ha, h1, h0, PCB_START, PCB_END, h2, h8]

/-- C13 for the shell of terminal 0, which halts with status 0. -/
theorem sys_halt_root_witness :
    ∃ s1, sys_halt demo_env 0 shell_running = .iret s1 ∧
      s1.current_terminal = shell_running.current_terminal ∧
      s1.curr_task shell_running.current_terminal = some 8380416 ∧
      s1.PCB_ADDR shell_running.current_terminal 0 = 8380416 ∧
      s1.pid_used shell_running.current_terminal 0 = USED ∧
      (s1.mem 8380416).process_id = 0 ∧
      (s1.mem 8380416).parent_task = none ∧
      (s1.mem 8380416).child_task = none ∧
      (s1.mem 8380416).file_array 0 =
        { opt := some .stdin_operations, inode_number := INVALID_INODE,
          file_position := 0, flags := USED } ∧
      (s1.mem 8380416).file_array 1 =
        { opt := some .stdout_operations, inode_number := INVALID_INODE,
          file_position := 0, flags := USED } ∧
      (∀ j, 2 ≤ j → j < 8 → (s1.mem 8380416).file_array j = free_entry) :=
  sys_halt_root demo_env 0 shell_running 8380416 { file_type := 2, inode_number := 1 }
    rfl rfl rfl rfl (by decide) rfl (by decide)

/-- The slots of a `sys_execute` that enters user mode from a state in which a
terminal without an active task has slot 0 free: the slot for which the page
mapping is installed, which is `8*terminal + 0` without an active task and
`8*terminal + get_next_pid()` with one, equals `8*terminal + process_id` of the
PCB that `new_pcb` created; the kernel stack top stored in `tss.esp0` is the
one of that slot; and when a child of the new task later halts in this
terminal, `sys_halt` installs the page mapping and the stack top of the same
slot.  `execute_call_free_slot` proves the condition on slot 0 at every call
of `sys_execute` that the kernel makes. -/
theorem execute_slot_of_free_slot (env : Env) (cmd : List Nat) (s s1 : Kernel)
    (hinv : s.curr_task s.current_terminal = none → s.pid_used s.current_terminal 0 = FREE)
    (hexec : sys_execute env (some cmd) s = .iret s1) :
    ∃ a, s1.curr_task s.current_terminal = some a ∧
      s1.page_slot = 8 * s.current_terminal + (s1.mem a).process_id ∧
      (s.curr_task s.current_terminal = none → s1.page_slot = 8 * s.current_terminal + 0) ∧
      (s.curr_task s.current_terminal ≠ none →
        s1.page_slot = 8 * s.current_terminal + (get_next_pid s).toNat) ∧
      s1.tss_esp0 = esp0_of s.current_terminal (s1.mem a).process_id ∧
      (∀ status s2 c, s2.current_terminal = s.current_terminal →
        s2.curr_task s2.current_terminal = some c →
        (s2.mem c).parent_task = some a → (s2.mem a).child_task = some c →
        (s2.mem a).process_id = (s1.mem a).process_id →
        ∃ s3, sys_halt env status s2 = .halt_ret (status % 256) s3 ∧
          s3.page_slot = s1.page_slot ∧ s3.tss_esp0 = s1.tss_esp0) := by
  obtain ⟨program, arguments, d, i, _, _, hi, hs⟩ := sys_execute_iret env cmd s s1 hexec
  have hpidnew : (s1.mem (s.PCB_ADDR s.current_terminal i)).process_id = i := by
    rw [hs]; simp [exec_state, pcb_image]
  have hesp : s1.tss_esp0 = esp0_of s.current_terminal i := by
    rw [hs]; simp [exec_state]
  have hslot : s1.page_slot = 8 * s.current_terminal + i := by
    cases hcur : s.curr_task s.current_terminal with
    | none =>
      have h0 : i = 0 := by
        have hfree := hinv hcur
        by_contra hne
        have := ((get_next_pid_some s i).1 hi).2.2 0 (Nat.pos_of_ne_zero hne)
        exact this hfree
      rw [hs]; simp [exec_state, hcur, h0]
    | some cur =>
      rw [hs]; simp [exec_state, hcur]
  refine ⟨s.PCB_ADDR s.current_terminal i, ?_, ?_, ?_, ?_, ?_, ?_⟩
  · rw [hs]; simp [exec_state]
  · rw [hpidnew]; exact hslot
  · intro hcur
    rw [hs]; simp [exec_state, hcur]
  · intro hcur
    cases hc : s.curr_task s.current_terminal with
    | none => exact absurd hc hcur
    | some cur => rw [hs]; simp [exec_state, hc, hi]
  · rw [hpidnew]; exact hesp
  · intro status s2 c hct hc hp hl hpid
    obtain ⟨s3, h3, hps, hes⟩ :=
      sys_halt_parent_slot env status s2 c (s.PCB_ADDR s.current_terminal i) hc hp hl
    refine ⟨s3, h3, ?_, ?_⟩
    · rw [hps, hslot, hct, hpid, hpidnew]
    · rw [hes, hesp, hct, hpid, hpidnew]

/-! ## The call sites of execute -/

theorem ancestor_congr (s s1 : Kernel)
    (h : ∀ a, (s1.mem a).parent_task = (s.mem a).parent_task) :
    ∀ k c, ancestor s1 k c = ancestor s k c := by
  intro k
  induction k with
  | zero => intro c; rfl
  | succ k ih =>
    intro c
    simp only [ancestor, h c]
    cases (s.mem c).parent_task with
    | none => rfl
    | some p => exact ih p

theorem chain_ok_frame (s s1 : Kernel) (c : Nat)
    (h : ∀ a, (s1.mem a).parent_task = (s.mem a).parent_task ∧
      (s1.mem a).process_id = (s.mem a).process_id)
    (hc : chain_ok s c) : chain_ok s1 c := by
  intro k q hq
  rw [ancestor_congr s s1 (fun a => (h a).1)] at hq
  have := hc k q hq
  unfold root_ok at this ⊢
  rw [(h q).1, (h q).2]
  exact this

theorem chain_ok_parent (s : Kernel) (c p : Nat) (hc : chain_ok s c)
    (hp : (s.mem c).parent_task = some p) : chain_ok s p := by
  intro k q hq
  apply hc (k + 1) q
  simp only [ancestor, hp]
  exact hq

theorem roots_ok_frame (s s1 : Kernel)
    (h : ∀ a, (s1.mem a).parent_task = (s.mem a).parent_task ∧
      (s1.mem a).process_id = (s.mem a).process_id)
    (hcur : s1.curr_task = s.curr_task) (hr : roots_ok s) : roots_ok s1 := by
  intro t c hc
  rw [hcur] at hc
  exact chain_ok_frame s s1 c h (hr t c hc)

/-- A store of a new PCB at `a` keeps `root_ok` on every path, when the new PCB
satisfies it and its parent, if any, starts a path that did. -/
theorem chain_ok_store (s s1 : Kernel) (a : Nat)
    (hm : ∀ x, x ≠ a → (s1.mem x).parent_task = (s.mem x).parent_task ∧
      (s1.mem x).process_id = (s.mem x).process_id)
    (ha : root_ok s1 a)
    (hp : ∀ p, (s1.mem a).parent_task = some p → chain_ok s p) :
    ∀ k c, (c = a ∨ chain_ok s c) → ∀ q, ancestor s1 k c = some q → root_ok s1 q := by
  intro k
  induction k with
  | zero =>
    intro c hc q hq
    simp only [ancestor, Option.some.injEq] at hq
    subst hq
    by_cases hca : c = a
    · rw [hca]; exact ha
    · rcases hc with hc | hc
      · exact absurd hc hca
      · have := hc 0 c rfl
        unfold root_ok at this ⊢
        rw [(hm c hca).1, (hm c hca).2]
        exact this
  | succ k ih =>
    intro c hc q hq
    by_cases hca : c = a
    · subst hca
      cases hpar : (s1.mem c).parent_task with
      | none => simp [ancestor, hpar] at hq
      | some p =>
        simp only [ancestor, hpar] at hq
        exact ih p (Or.inr (hp p hpar)) q hq
    · rcases hc with hc | hc
      · exact absurd hc hca
      · cases hpar : (s1.mem c).parent_task with
        | none => simp [ancestor, hpar] at hq
        | some p =>
          simp only [ancestor, hpar] at hq
          have hp0 : (s.mem c).parent_task = some p := by rw [← (hm c hca).1]; exact hpar
          exact ih p (Or.inr (chain_ok_parent s c p hc hp0)) q hq

/-- The state in which `sys_execute` enters user mode keeps `roots_ok`, when a
terminal without an active task has slot 0 free. -/
theorem roots_ok_exec_state (env : Env) (s : Kernel) (d : dentry_t) (arguments : Nat → Nat)
    (i : Nat) (hr : roots_ok s) (hi : get_next_pid s = (i : Int))
    (hfree : s.curr_task s.current_terminal = none → s.pid_used s.current_terminal 0 = FREE) :
    roots_ok (exec_state env s d arguments i) := by
  have hpar : ((exec_state env s d arguments i).mem (s.PCB_ADDR s.current_terminal i)).parent_task
      = s.curr_task s.current_terminal := by
    simp [exec_state, pcb_image]
  have hpid : ((exec_state env s d arguments i).mem (s.PCB_ADDR s.current_terminal i)).process_id
      = i := by
    simp [exec_state, pcb_image]
  have hm : ∀ x, x ≠ s.PCB_ADDR s.current_terminal i →
      ((exec_state env s d arguments i).mem x).parent_task = (s.mem x).parent_task ∧
      ((exec_state env s d arguments i).mem x).process_id = (s.mem x).process_id := by
    intro x hx
    cases hcur : s.curr_task s.current_terminal with
    | none => simp [exec_state, hcur, Function.update_noteq hx]
    | some cur =>
      by_cases hxc : x = cur
      · subst hxc
        simp [exec_state, hcur, Function.update_noteq hx]
      · simp [exec_state, hcur, Function.update_noteq hx, Function.update_noteq hxc]
  have ha : root_ok (exec_state env s d arguments i) (s.PCB_ADDR s.current_terminal i) := by
    intro h
    rw [hpar] at h
    rw [hpid]
    by_contra hne
    exact ((get_next_pid_some s i).1 hi).2.2 0 (Nat.pos_of_ne_zero hne) (hfree h)
  have hp : ∀ p, ((exec_state env s d arguments i).mem
      (s.PCB_ADDR s.current_terminal i)).parent_task = some p → chain_ok s p := by
    intro p h
    rw [hpar] at h
    exact hr _ p h
  intro t c hc k q hq
  refine chain_ok_store s _ _ hm ha hp k c ?_ q hq
  by_cases ht : t = s.current_terminal
  · left
    subst ht
    have : (exec_state env s d arguments i).curr_task s.current_terminal
        = some (s.PCB_ADDR s.current_terminal i) := by
      simp [exec_state]
    rw [this] at hc
    injection hc with hc
    exact hc.symm
  · right
    have : (exec_state env s d arguments i).curr_task t = s.curr_task t := by
      simp [exec_state, Function.update_noteq ht]
    rw [this] at hc
    exact hr t c hc

/-- How `sys_execute` can end. -/
theorem sys_execute_cases (env : Env) (cmd : Option (List Nat)) (s : Kernel) :
    sys_execute env cmd s = .ret (-1) s ∨ sys_execute env cmd s = .fault ∨
      ∃ s1, sys_execute env cmd s = .iret s1 := by
  cases cmd with
  | none => left; rfl
  | some cmd =>
    cases hparse : parse_command env cmd with
    | none => right; left; simp [sys_execute, hparse]
    | some pa =>
      obtain ⟨program, arguments⟩ := pa
      cases hlook : env.read_dentry_by_name program with
      | none => left; simp [sys_execute, hparse, hlook]
      | some d =>
        by_cases hm : overlay (env.read_data d.inode_number 0 4) env.garbage 0
              ≠ env.MAGIC_NUM_FOR_EXE 0
            ∨ overlay (env.read_data d.inode_number 0 4) env.garbage 1 ≠ env.MAGIC_NUM_FOR_EXE 1
            ∨ overlay (env.read_data d.inode_number 0 4) env.garbage 2 ≠ env.MAGIC_NUM_FOR_EXE 2
            ∨ overlay (env.read_data d.inode_number 0 4) env.garbage 3 ≠ env.MAGIC_NUM_FOR_EXE 3
        · left
          simp only [sys_execute, hparse, hlook, if_pos hm]
        · rcases get_next_pid_cases s with hp | ⟨i, _, hi⟩
          · left
            simp only [sys_execute, hparse, hlook, if_neg hm, if_pos hp]
          · right; right
            have hmagic : ∀ k, k < 4 →
                overlay (env.read_data d.inode_number 0 4) env.garbage k
                  = env.MAGIC_NUM_FOR_EXE k := by
              intro k hk
              simp only [not_or, ne_eq, not_not] at hm
              obtain ⟨m0, m1, m2, m3⟩ := hm
              interval_cases k
              · exact m0
              · exact m1
              · exact m2
              · exact m3
            exact ⟨_, sys_execute_ok env cmd s program arguments d i hparse hlook hmagic hi⟩

theorem halt_tail_no_task (env : Env) (status : Nat) (s : Kernel)
    (hc : s.curr_task s.current_terminal = none) : halt_tail env status s = .fault := by
  simp [halt_tail, hc]

/-- How `halt_tail` can end. -/
theorem halt_tail_cases (env : Env) (status : Nat) (s : Kernel) :
    halt_tail env status s = .fault ∨
      ∃ c p s1, s.curr_task s.current_terminal = some c ∧ (s.mem c).parent_task = some p ∧
        halt_tail env status s = .halt_ret (status % 256) s1 ∧
        s1.current_terminal = s.current_terminal ∧
        s1.curr_task = Function.update s.curr_task s.current_terminal (some p) ∧
        ∀ a, (s1.mem a).parent_task = (s.mem a).parent_task ∧
          (s1.mem a).process_id = (s.mem a).process_id := by
  cases hc : s.curr_task s.current_terminal with
  | none => left; exact halt_tail_no_task env status s hc
  | some c =>
    cases hp : (s.mem c).parent_task with
    | none => left; simp [halt_tail, hc, hp]
    | some p =>
      cases hl : (s.mem p).child_task with
      | none => left; simp [halt_tail, hc, hp, hl]
      | some o =>
        right
        refine ⟨c, p, _, rfl, hp, halt_tail_ok env status s c p o hc hp hl, rfl, rfl, ?_⟩
        intro a
        by_cases hap : a = p
        · subst hap; simp
        · simp [Function.update_noteq hap]

/-- What `sys_halt` leaves when it jumps to `HALT_RET_LABEL`: the parent of the
halted task is the active task, and no PCB changed its parent or its
process_id. -/
theorem sys_halt_halt_ret (env : Env) (status v : Nat) (s s1 : Kernel)
    (h : sys_halt env status s = .halt_ret v s1) :
    ∃ c p, s.curr_task s.current_terminal = some c ∧ (s.mem c).parent_task = some p ∧
      s1.current_terminal = s.current_terminal ∧
      s1.curr_task = Function.update s.curr_task s.current_terminal (some p) ∧
      ∀ a, (s1.mem a).parent_task = (s.mem a).parent_task ∧
        (s1.mem a).process_id = (s.mem a).process_id := by
  cases hc : s.curr_task s.current_terminal with
  | none => simp [sys_halt, hc] at h
  | some c =>
    obtain ⟨S2, hclose, hct, hcur, _, _, hmem⟩ := sys_halt_closed s c hc
    have hc2 : S2.curr_task s.current_terminal = some c := by rw [hcur]; exact hc
    cases hpar : (s.mem c).parent_task with
    | none =>
      have hp2 : (S2.mem c).parent_task = none := by rw [(hmem c).1]; exact hpar
      unfold sys_halt at h
      simp only [hc, hclose, hc2, hp2] at h
      rcases sys_execute_cases env (some shell)
          { S2 with curr_task := Function.update S2.curr_task s.current_terminal none }
        with he | he | ⟨s4, he⟩
      · rw [he] at h
        simp only [] at h
        rw [halt_tail_no_task] at h
        · exact absurd h (by simp)
        · show Function.update S2.curr_task s.current_terminal none S2.current_terminal = none
          rw [hct]; simp
      · rw [he] at h
        exact absurd h (by simp)
      · rw [he] at h
        exact absurd h (by simp)
    | some p =>
      have hp2 : (S2.mem c).parent_task = some p := by rw [(hmem c).1]; exact hpar
      unfold sys_halt at h
      simp only [hc, hclose, hc2, hp2] at h
      rcases halt_tail_cases env status S2 with ht | ⟨c3, p3, s3, hc3, hp3, ht, h1, h2, h3⟩
      · rw [ht] at h
        exact absurd h (by simp)
      · rw [ht] at h
        injection h with _ hs
        subst hs
        rw [hct, hc2] at hc3
        injection hc3 with hc3
        subst hc3
        rw [hp2] at hp3
        injection hp3 with hp3
        subst hp3
        refine ⟨c, p, rfl, hpar, by rw [h1, hct], by rw [h2, hct, hcur], ?_⟩
        intro a
        rw [(h3 a).1, (h3 a).2, (hmem a).1, (hmem a).2.2.1]
        exact ⟨rfl, rfl⟩

/-- When `sys_halt` ends in an `iret`, that is the `iret` of the execute it
made for a task without a parent. -/
theorem sys_halt_iret (env : Env) (status : Nat) (s s1 : Kernel)
    (h : sys_halt env status s = .iret s1) :
    ∃ c S2, s.curr_task s.current_terminal = some c ∧ (s.mem c).parent_task = none ∧
      close_all (s.set_pid s.current_terminal (s.mem c).process_id FREE)
        (List.range' PCB_START (PCB_END - PCB_START)) = some S2 ∧
      S2.curr_task s.current_terminal = some c ∧ (S2.mem c).parent_task = none ∧
      sys_execute env (some shell)
        { S2 with curr_task := Function.update S2.curr_task s.current_terminal none }
        = .iret s1 := by
  cases hc : s.curr_task s.current_terminal with
  | none => simp [sys_halt, hc] at h
  | some c =>
    obtain ⟨S2, hclose, hct, hcur, _, _, hmem⟩ := sys_halt_closed s c hc
    have hc2 : S2.curr_task s.current_terminal = some c := by rw [hcur]; exact hc
    cases hpar : (s.mem c).parent_task with
    | none =>
      have hp2 : (S2.mem c).parent_task = none := by rw [(hmem c).1]; exact hpar
      unfold sys_halt at h
      simp only [hc, hclose, hc2, hp2] at h
      rcases sys_execute_cases env (some shell)
          { S2 with curr_task := Function.update S2.curr_task s.current_terminal none }
        with he | he | ⟨s4, he⟩
      · rw [he] at h
        simp only [] at h
        rw [halt_tail_no_task] at h
        · exact absurd h (by simp)
        · show Function.update S2.curr_task s.current_terminal none S2.current_terminal = none
          rw [hct]; simp
      · rw [he] at h
        exact absurd h (by simp)
      · rw [he] at h
        injection h with hs
        subst hs
        exact ⟨c, S2, rfl, hpar, hclose, hc2, hp2, he⟩
    | some p =>
      have hp2 : (S2.mem c).parent_task = some p := by rw [(hmem c).1]; exact hpar
      unfold sys_halt at h
      simp only [hc, hclose, hc2, hp2] at h
      rcases halt_tail_cases env status S2 with ht | ⟨c3, p3, s3, _, _, ht, _⟩
      · rw [ht] at h
        exact absurd h (by simp)
      · rw [ht] at h
        exact absurd h (by simp)

/-- What `sys_open` leaves. -/
theorem sys_open_frame (env : Env) (filename : List Nat) (v : Int) (s s1 : Kernel)
    (h : sys_open env filename s = .ret v s1) :
    s1.current_terminal = s.current_terminal ∧ s1.curr_task = s.curr_task ∧
      ∀ a, (s1.mem a).parent_task = (s.mem a).parent_task ∧
        (s1.mem a).process_id = (s.mem a).process_id := by
  unfold sys_open at h
  cases hlook : env.read_dentry_by_name filename with
  | none =>
    simp only [hlook] at h
    injection h with _ hs
    subst hs
    exact ⟨rfl, rfl, fun _ => ⟨rfl, rfl⟩⟩
  | some temp =>
    cases hc : s.curr_task s.current_terminal with
    | none => simp [hlook, hc] at h
    | some c =>
      cases hf : (List.range' PCB_START (PCB_END - PCB_START)).find?
          (fun fd => ((s.mem c).file_array fd).flags == FREE) with
      | none =>
        simp only [hlook, hc, hf] at h
        injection h with _ hs
        subst hs
        exact ⟨rfl, rfl, fun _ => ⟨rfl, rfl⟩⟩
      | some fd =>
        simp only [hlook, hc, hf] at h
        injection h with _ hs
        subst hs
        refine ⟨rfl, rfl, ?_⟩
        intro a
        by_cases hac : a = c
        · subst hac; simp [Kernel.wr, pcb_t.set_fd]
        · simp [Kernel.wr, pcb_t.set_fd, Function.update_noteq hac]

/-- What `sys_close` leaves. -/
theorem sys_close_frame (fd v : Int) (s s1 : Kernel)
    (h : sys_close fd s = .ret v s1) :
    s1.current_terminal = s.current_terminal ∧ s1.curr_task = s.curr_task ∧
      ∀ a, (s1.mem a).parent_task = (s.mem a).parent_task ∧
        (s1.mem a).process_id = (s.mem a).process_id := by
  unfold sys_close at h
  by_cases hr : fd ≤ STDIN ∨ fd = STDOUT ∨ fd > 7
  · simp only [if_pos hr] at h
    injection h with _ hs
    subst hs
    exact ⟨rfl, rfl, fun _ => ⟨rfl, rfl⟩⟩
  · cases hc : s.curr_task s.current_terminal with
    | none => simp [if_neg hr, hc] at h
    | some c =>
      by_cases hu : ((s.mem c).file_array fd.toNat).flags = FREE
      · simp only [if_neg hr, hc, if_pos hu] at h
        injection h with _ hs
        subst hs
        exact ⟨rfl, rfl, fun _ => ⟨rfl, rfl⟩⟩
      · simp only [if_neg hr, hc, if_neg hu] at h
        injection h with _ hs
        subst hs
        refine ⟨rfl, rfl, ?_⟩
        intro a
        by_cases hac : a = c
        · subst hac; simp [Kernel.wr, pcb_t.set_fd]
        · simp [Kernel.wr, pcb_t.set_fd, Function.update_noteq hac]

/-- What `switch_save` leaves. -/
theorem switch_save_frame (env : Env) (n c : Nat) (s : Kernel) :
    (switch_save env n c s).current_terminal = n ∧
      (switch_save env n c s).curr_task = s.curr_task ∧
      (switch_save env n c s).pid_used = s.pid_used ∧
      ∀ a, ((switch_save env n c s).mem a).parent_task = (s.mem a).parent_task ∧
        ((switch_save env n c s).mem a).process_id = (s.mem a).process_id := by
  refine ⟨rfl, rfl, rfl, ?_⟩
  intro a
  by_cases hac : a = c
  · subst hac; simp [switch_save, Kernel.wr]
  · simp [switch_save, Kernel.wr, Function.update_noteq hac]

/-- What `switch_tail` leaves when it resumes a task. -/
theorem switch_tail_resume (newpage : Nat) (s s1 : Kernel)
    (h : switch_tail newpage s = .resume s1) :
    s1.current_terminal = s.current_terminal ∧ s1.curr_task = s.curr_task ∧
      s1.mem = s.mem ∧ ∃ c, s.curr_task s.current_terminal = some c := by
  unfold switch_tail at h
  cases hc : s.curr_task s.current_terminal with
  | none => simp [hc] at h
  | some c =>
    simp only [hc] at h
    injection h with hs
    subst hs
    exact ⟨rfl, rfl, rfl, c, rfl⟩

theorem switch_tail_no_task (newpage : Nat) (s : Kernel)
    (hc : s.curr_task s.current_terminal = none) : switch_tail newpage s = .fault := by
  simp [switch_tail, hc]

/-- When `terminal_switch` ends in an `iret`, that is the `iret` of the execute
it made after the test of slot 0. -/
theorem terminal_switch_iret (env : Env) (n : Int) (s s1 : Kernel)
    (h : terminal_switch env n s = .iret s1) :
    ∃ c, ¬ (n < 0 ∨ n > 2) ∧ s.curr_task s.current_terminal = some c ∧
      (switch_save env n.toNat c s).pid_used n.toNat 0 = 0 ∧
      sys_execute env (some shell) (switch_fresh env (switch_save env n.toNat c s))
        = .iret s1 := by
  unfold terminal_switch at h
  by_cases hr : n < 0 ∨ n > 2
  · simp [if_pos hr] at h
  · cases hc : s.curr_task s.current_terminal with
    | none => simp [if_neg hr, hc] at h
    | some c =>
      by_cases hg : (switch_save env n.toNat c s).pid_used n.toNat 0 = 0
      · simp only [if_neg hr, hc, if_pos hg] at h
        rcases sys_execute_cases env (some shell) (switch_fresh env (switch_save env n.toNat c s))
          with he | he | ⟨s4, he⟩
        · rw [he] at h
          simp only [] at h
          cases hs : switch_tail n.toNat (switch_fresh env (switch_save env n.toNat c s)) with
          | resume s5 => rw [hs] at h; exact absurd h (by simp)
          | fault => rw [hs] at h; exact absurd h (by simp)
          | ret v s5 => simp [switch_tail] at hs; split at hs <;> simp at hs
          | deleg a b c d e => simp [switch_tail] at hs; split at hs <;> simp at hs
          | iret s5 => simp [switch_tail] at hs; split at hs <;> simp at hs
          | halt_ret v s5 => simp [switch_tail] at hs; split at hs <;> simp at hs
        · rw [he] at h
          exact absurd h (by simp)
        · rw [he] at h
          injection h with hs
          subst hs
          exact ⟨c, hr, rfl, hg, he⟩
      · simp only [if_neg hr, hc, if_neg hg] at h
        simp [switch_tail] at h
        split at h <;> simp at h

/-- When `terminal_switch` resumes a task, no PCB changed its parent or its
process_id, the active tasks are the ones before and the terminal resumed has
one. -/
theorem terminal_switch_resume (env : Env) (n : Int) (s s1 : Kernel)
    (h : terminal_switch env n s = .resume s1) :
    s1.curr_task = s.curr_task ∧ (∃ c, s1.curr_task s1.current_terminal = some c) ∧
      ∀ a, (s1.mem a).parent_task = (s.mem a).parent_task ∧
        (s1.mem a).process_id = (s.mem a).process_id := by
  unfold terminal_switch at h
  by_cases hr : n < 0 ∨ n > 2
  · simp [if_pos hr] at h
  · cases hc : s.curr_task s.current_terminal with
    | none => simp [if_neg hr, hc] at h
    | some c =>
      obtain ⟨f1, f2, f3, f4⟩ := switch_save_frame env n.toNat c s
      by_cases hg : (switch_save env n.toNat c s).pid_used n.toNat 0 = 0
      · simp only [if_neg hr, hc, if_pos hg] at h
        rcases sys_execute_cases env (some shell) (switch_fresh env (switch_save env n.toNat c s))
          with he | he | ⟨s4, he⟩
        · rw [he] at h
          simp only [] at h
          obtain ⟨g1, g2, g3, c5, g4⟩ := switch_tail_resume _ _ _ h
          refine ⟨?_, ⟨c5, ?_⟩, ?_⟩
          · rw [g2]; exact f2
          · rw [g2, g1]; exact g4
          · intro a
            rw [g3]
            exact f4 a
        · rw [he] at h
          exact absurd h (by simp)
        · rw [he] at h
          exact absurd h (by simp)
      · simp only [if_neg hr, hc, if_neg hg] at h
        obtain ⟨g1, g2, g3, c5, g4⟩ := switch_tail_resume _ _ _ h
        refine ⟨?_, ⟨c5, ?_⟩, ?_⟩
        · rw [g2]; exact f2
        · rw [g2, g1]; exact g4
        · intro a
          rw [g3]
          exact f4 a

theorem roots_ok_at_boot (s : Kernel) (h : at_boot s) : roots_ok s := by
  intro t c hc
  rw [h.1 t] at hc
  exact absurd hc (by simp)

/-- The state that `sys_halt` hands to execute for a task without a parent:
the terminal has no active task and, the task having process_id 0, slot 0 is
free. -/
theorem halt_root_state (s S2 : Kernel) (c : Nat) (hr : roots_ok s)
    (hc : s.curr_task s.current_terminal = some c)
    (hclose : close_all (s.set_pid s.current_terminal (s.mem c).process_id FREE)
      (List.range' PCB_START (PCB_END - PCB_START)) = some S2)
    (hpar : (s.mem c).parent_task = none) :
    roots_ok { S2 with curr_task := Function.update S2.curr_task s.current_terminal none } ∧
      S2.current_terminal = s.current_terminal ∧
      S2.pid_used s.current_terminal 0 = FREE := by
  obtain ⟨S, hS, hct, hcur, _, hpu, hmem⟩ := sys_halt_closed s c hc
  rw [hclose] at hS
  injection hS with hS
  subst hS
  have hpid : (s.mem c).process_id = 0 := hr _ c hc 0 c rfl hpar
  refine ⟨?_, hct, ?_⟩
  · intro t q hq
    have hq2 : s.curr_task t = some q := by
      by_cases ht : t = s.current_terminal
      · subst ht
        simp at hq
      · simpa [Function.update_noteq ht, hcur] using hq
    exact chain_ok_frame s _ q (fun a => ⟨(hmem a).1, (hmem a).2.2.1⟩) (hr t q hq2)
  · rw [hpu, hpid]; simp

/-- In every state in which a user program runs, the current terminal has an
active task, and every task without a parent on the path from an active task
has process_id 0. -/
theorem running_inv (env : Env) (s : Kernel) (h : Running env s) :
    (∃ c, s.curr_task s.current_terminal = some c) ∧ roots_ok s := by
  induction h with
  | by_boot cmd s0 s hb he =>
    obtain ⟨_, arguments, d, i, _, _, hi, hs⟩ := sys_execute_iret env cmd s0 s he
    subst hs
    exact ⟨⟨_, exec_state_curr env s0 d arguments i⟩,
      roots_ok_exec_state env s0 d arguments i (roots_ok_at_boot s0 hb) hi (fun _ => hb.2 _ 0)⟩
  | by_execute cmd s s1 _ he ih =>
    obtain ⟨_, arguments, d, i, _, _, hi, hs⟩ := sys_execute_iret env cmd s s1 he
    subst hs
    obtain ⟨⟨c, hc⟩, hr⟩ := ih
    refine ⟨⟨_, exec_state_curr env s d arguments i⟩,
      roots_ok_exec_state env s d arguments i hr hi ?_⟩
    intro hn
    rw [hc] at hn
    exact absurd hn (by simp)
  | by_halt status v s s1 _ he ih =>
    obtain ⟨c, p, hc, hp, h1, h2, h3⟩ := sys_halt_halt_ret env status v s s1 he
    refine ⟨⟨p, by rw [h2, h1]; simp⟩, ?_⟩
    intro t q hq
    rw [h2] at hq
    apply chain_ok_frame s s1 q h3
    by_cases ht : t = s.current_terminal
    · subst ht
      simp only [Function.update_same, Option.some.injEq] at hq
      subst hq
      exact chain_ok_parent s c p (ih.2 _ c hc) hp
    · rw [Function.update_noteq ht] at hq
      exact ih.2 t q hq
  | by_halt_root status s s1 _ he ih =>
    obtain ⟨c, S2, hc, hpar, hclose, _, _, hx⟩ := sys_halt_iret env status s s1 he
    obtain ⟨hr3, hct, hfree⟩ := halt_root_state s S2 c ih.2 hc hclose hpar
    obtain ⟨_, arguments, d, i, _, _, hi, hs⟩ := sys_execute_iret env shell _ s1 hx
    subst hs
    refine ⟨⟨_, exec_state_curr env _ d arguments i⟩,
      roots_ok_exec_state env _ d arguments i hr3 hi ?_⟩
    intro _
    show S2.pid_used S2.current_terminal 0 = FREE
    rw [hct]; exact hfree
  | by_open filename v s s1 _ he ih =>
    obtain ⟨h1, h2, h3⟩ := sys_open_frame env filename v s s1 he
    obtain ⟨⟨c, hc⟩, hr⟩ := ih
    exact ⟨⟨c, by rw [h2, h1]; exact hc⟩, roots_ok_frame s s1 h3 h2 hr⟩
  | by_close fd v s s1 _ he ih =>
    obtain ⟨h1, h2, h3⟩ := sys_close_frame fd v s s1 he
    obtain ⟨⟨c, hc⟩, hr⟩ := ih
    exact ⟨⟨c, by rw [h2, h1]; exact hc⟩, roots_ok_frame s s1 h3 h2 hr⟩
  | by_switch_new n s s1 _ he ih =>
    obtain ⟨c, _, hc, hg, hx⟩ := terminal_switch_iret env n s s1 he
    obtain ⟨f1, f2, f3, f4⟩ := switch_save_frame env n.toNat c s
    have hr3 : roots_ok (switch_fresh env (switch_save env n.toNat c s)) :=
      roots_ok_frame s _ f4 f2 ih.2
    obtain ⟨_, arguments, d, i, _, _, hi, hs⟩ := sys_execute_iret env shell _ s1 hx
    subst hs
    refine ⟨⟨_, exec_state_curr env _ d arguments i⟩,
      roots_ok_exec_state env _ d arguments i hr3 hi ?_⟩
    intro _
    exact hg
  | by_switch_resume n s s1 _ he ih =>
    obtain ⟨h1, h2, h3⟩ := terminal_switch_resume env n s s1 he
    exact ⟨h2, roots_ok_frame s s1 h3 h1 ih.2⟩

/-- At every call of `sys_execute` that the kernel makes, a terminal without
an active task has slot 0 free. -/
theorem execute_call_free_slot (env : Env) (s : Kernel) (h : execute_call env s) :
    s.curr_task s.current_terminal = none → s.pid_used s.current_terminal 0 = FREE := by
  cases h with
  | at_boot _ hb => exact fun _ => hb.2 _ 0
  | by_user _ hrun =>
    intro hn
    obtain ⟨⟨c, hc⟩, _⟩ := running_inv env s hrun
    rw [hc] at hn
    exact absurd hn (by simp)
  | in_halt s0 s2 c c2 hrun hc hclose hc2 hp2 =>
    intro _
    obtain ⟨S, hS, _, hcur, _, _, hmem⟩ := sys_halt_closed s0 c hc
    rw [hclose] at hS
    injection hS with hS
    subst hS
    have hcc : c2 = c := by
      rw [hcur, hc] at hc2
      injection hc2 with hc2
      exact hc2.symm
    subst hcc
    have hpar : (s0.mem c2).parent_task = none := by rw [← (hmem c2).1]; exact hp2
    obtain ⟨_, hct, hfree⟩ := halt_root_state s0 s2 c2 (running_inv env s0 hrun).2 hc hclose hpar
    show s2.pid_used s2.current_terminal 0 = FREE
    rw [hct]; exact hfree
  | in_switch n s0 c hrun hr hc hg =>
    intro _
    exact hg

/-- C14: for every call of `sys_execute` that the kernel makes (at boot, as a
system call of the running program, in `sys_halt` of a task without a parent,
in `terminal_switch`) and that enters user mode, the slot for which the page
mapping is installed, which is `8*terminal + 0` when the terminal has no active
task and `8*terminal + get_next_pid()` otherwise, equals `8*terminal +
process_id` of the PCB that `new_pcb` created; the kernel stack top stored in
`tss.esp0` is the one of that slot; and when a child of the new task later
halts in this terminal, `sys_halt` installs the page mapping and the stack top
of the same slot. -/
theorem execute_slot_consistent (env : Env) (cmd : List Nat) (s s1 : Kernel)
    (hcall : execute_call env s)
    (hexec : sys_execute env (some cmd) s = .iret s1) :
    ∃ a, s1.curr_task s.current_terminal = some a ∧
      s1.page_slot = 8 * s.current_terminal + (s1.mem a).process_id ∧
      (s.curr_task s.current_terminal = none → s1.page_slot = 8 * s.current_terminal + 0) ∧
      (s.curr_task s.current_terminal ≠ none →
        s1.page_slot = 8 * s.current_terminal + (get_next_pid s).toNat) ∧
      s1.tss_esp0 = esp0_of s.current_terminal (s1.mem a).process_id ∧
      (∀ status s2 c, s2.current_terminal = s.current_terminal →
        s2.curr_task s2.current_terminal = some c →
        (s2.mem c).parent_task = some a → (s2.mem a).child_task = some c →
        (s2.mem a).process_id = (s1.mem a).process_id →
        ∃ s3, sys_halt env status s2 = .halt_ret (status % 256) s3 ∧
          s3.page_slot = s1.page_slot ∧ s3.tss_esp0 = s1.tss_esp0) :=
  execute_slot_of_free_slot env cmd s s1 (execute_call_free_slot env s hcall) hexec

/-- C14 for the execute of "testprog arg1 arg2" by the shell of terminal 0,
itself started at boot: the mapping installed changes from slot 0 to slot 1,
the slot of the new PCB. -/
theorem execute_slot_consistent_witness :
    execute_call demo_env shell_running ∧
    sys_execute demo_env (some testprog_command) shell_running = .iret testprog_running ∧
    shell_running.page_slot = 0 ∧
    testprog_running.page_slot = 1 ∧
    ∃ a, testprog_running.curr_task shell_running.current_terminal = some a ∧
      (testprog_running.mem a).process_id = 1 ∧
      testprog_running.page_slot =
        8 * shell_running.current_terminal + (testprog_running.mem a).process_id ∧
      testprog_running.tss_esp0 =
        esp0_of shell_running.current_terminal (testprog_running.mem a).process_id := by
  have hexec0 : sys_execute demo_env (some shell) boot = .iret shell_running := by
    rw [shell_running_eq]
    exact sys_execute_ok demo_env shell boot shell _ { file_type := 2, inode_number := 1 } 0
      (parse_command_plain demo_env shell (by decide) (by decide)) rfl (by decide) rfl
  have hexec : sys_execute demo_env (some testprog_command) shell_running
      = .iret testprog_running := by
    rw [testprog_running_eq]
    exact sys_execute_ok demo_env _ shell_running testprog _
      { file_type := 2, inode_number := 2 } 1
      (parse_command_split demo_env testprog arg1_arg2 (by decide) (by decide)
        (by decide) (by decide)) rfl (by decide) rfl
  have hcall : execute_call demo_env shell_running :=
    execute_call.by_user _
      (Running.by_boot shell boot shell_running ⟨fun _ => rfl, fun _ _ => rfl⟩ hexec0)
  obtain ⟨a, h1, h2, _, h4, h5, _⟩ :=
    execute_slot_consistent demo_env testprog_command shell_running testprog_running
      hcall hexec
  have hct : shell_running.current_terminal = 0 := rfl
  have hnext : get_next_pid shell_running = 1 := rfl
  have hcur : shell_running.curr_task shell_running.current_terminal ≠ none := by
    have : shell_running.curr_task shell_running.current_terminal = some 8380416 := rfl
    rw [this]; simp
  have hslot : testprog_running.page_slot = 1 := by
    rw [h4 hcur, hct, hnext]; rfl
  have hpid : (testprog_running.mem a).process_id = 1 := by
    rw [hslot, hct] at h2
    omega
  exact ⟨hcall, hexec, rfl, hslot, a, h1, hpid, h2, h5⟩

/-- The call of `sys_execute` in `terminal_switch`, for the switch from the
shell of terminal 0 to terminal 1, which has no active task: the mapping
installed changes from slot 0 to slot 8, the slot of the new PCB, which has
process_id 0. -/
theorem execute_slot_after_switch :
    ∃ s1 a,
      execute_call demo_env
        (switch_fresh demo_env (switch_save demo_env 1 8380416 shell_running)) ∧
      sys_execute demo_env (some shell)
        (switch_fresh demo_env (switch_save demo_env 1 8380416 shell_running)) = .iret s1 ∧
      s1.current_terminal = 1 ∧
      s1.curr_task 1 = some a ∧
      (s1.mem a).process_id = 0 ∧
      s1.page_slot = 8 ∧
      s1.tss_esp0 = esp0_of 1 0 := by
  have hexec0 : sys_execute demo_env (some shell) boot = .iret shell_running := by
    rw [shell_running_eq]
    exact sys_execute_ok demo_env shell boot shell _ { file_type := 2, inode_number := 1 } 0
      (parse_command_plain demo_env shell (by decide) (by decide)) rfl (by decide) rfl
  have hrun : Running demo_env shell_running :=
    Running.by_boot shell boot shell_running ⟨fun _ => rfl, fun _ _ => rfl⟩ hexec0
  have hcall : execute_call demo_env
      (switch_fresh demo_env (switch_save demo_env 1 8380416 shell_running)) :=
    execute_call.in_switch 1 shell_running 8380416 hrun (by decide) rfl rfl
  have hexec := sys_execute_ok demo_env shell
    (switch_fresh demo_env (switch_save demo_env 1 8380416 shell_running)) shell _
    { file_type := 2, inode_number := 1 } 0
    (parse_command_plain demo_env shell (by decide) (by decide)) rfl (by decide) rfl
  have hnone : (switch_fresh demo_env (switch_save demo_env 1 8380416 shell_running)).curr_task
      (switch_fresh demo_env (switch_save demo_env 1 8380416 shell_running)).current_terminal
      = none := rfl
  refine ⟨_, _, hcall, hexec, rfl, exec_state_curr _ _ _ _ _, ?_, ?_, ?_⟩
  · simp [exec_state, pcb_image]
  · simp only [exec_state, hnone]
    rfl
  · simp only [exec_state]
    rfl

/-! ## The keyboard driver -/

theorem keyboard_handler_press (kenv : KbEnv) (sc : Nat) (k : Kbd)
    (hst : no_modifier k) (hsc : plain_key kenv sc)
    (hidx : k.kbbuf_index k.current_terminal < kenv.MAXBUFLEN) :
    keyboard_handler kenv sc k =
      { kbd :=
          { k with
            kb_buffer := Function.update k.kb_buffer k.current_terminal
              (Function.update (k.kb_buffer k.current_terminal)
                (k.kbbuf_index k.current_terminal) (kenv.KBkeys 0 sc))
            kbbuf_index := Function.update k.kbbuf_index k.current_terminal
              ((k.kbbuf_index k.current_terminal + 1) % 256) }
        stores := [k.kbbuf_index k.current_terminal]
        calls := [.putc (kenv.KBkeys 0 sc), .update_cursor] } := by
  obtain ⟨h1, h2, h3, h4, h5, h6, h7, h8, h9, h10, h11, h12, h13⟩ := hsc
  unfold no_modifier at hst
  unfold keyboard_handler
  simp only [h1, h2, h3, h4, h5, h6, h7, h8, h9, h10, h11, h12, if_false, if_true]
  unfold handle_key
  simp only [hst]
  simp [put_into_buffer, hidx, h13, hst]

theorem keyboard_handler_enter (kenv : KbEnv) (k : Kbd) (he : enter_key kenv) :
    (keyboard_handler kenv kenv.ENTER k).stores = [k.kbbuf_index k.current_terminal] ∧
    (keyboard_handler kenv kenv.ENTER k).kbd.current_terminal = k.current_terminal ∧
    (keyboard_handler kenv kenv.ENTER k).kbd.kbbuf_index k.current_terminal = 0 ∧
    (keyboard_handler kenv kenv.ENTER k).kbd.kb_buf_read k.current_terminal = 1 ∧
    (keyboard_handler kenv kenv.ENTER k).kbd.out_buffer k.current_terminal =
      fun j => if j < k.kbbuf_index k.current_terminal then k.kb_buffer k.current_terminal j
        else k.out_buffer k.current_terminal j := by
  obtain ⟨h1, h2, h3, h4, h5, h6, h7, h8, h9⟩ := he
  refine ⟨?_, ?_, ?_, ?_, ?_⟩
  · unfold keyboard_handler
    simp only [h1, h2, h3, h4, h5, h6, h7, h8, h9, if_false, if_true]
  · unfold keyboard_handler
    simp [h1, h2, h3, h4, h5, h6, h7, h8, h9, clear_buffer]
  · unfold keyboard_handler
    simp [h1, h2, h3, h4, h5, h6, h7, h8, h9, clear_buffer]
  · unfold keyboard_handler
    simp [h1, h2, h3, h4, h5, h6, h7, h8, h9, clear_buffer]
  · unfold keyboard_handler
    simp only [h1, h2, h3, h4, h5, h6, h7, h8, h9, if_false, if_true, clear_buffer,
      Function.update_same]
    rw [forLoop_update_eq (fun i => Function.update (k.kb_buffer k.current_terminal)
      (k.kbbuf_index k.current_terminal) LINE_FEED i)]
    funext j
    by_cases hj : j < k.kbbuf_index k.current_terminal
    · simp [hj, Function.update_noteq (Nat.ne_of_lt hj)]
    · simp [hj]

theorem kb_run_append (kenv : KbEnv) (l1 l2 : List Nat) :
    ∀ k : Kbd, kb_run kenv (l1 ++ l2) k =
      ((kb_run kenv l2 (kb_run kenv l1 k).1).1,
        (kb_run kenv l1 k).2 ++ (kb_run kenv l2 (kb_run kenv l1 k).1).2) := by
  induction l1 with
  | nil => intro k; simp [kb_run]
  | cons sc rest ih =>
    intro k
    rw [List.cons_append]
    simp only [kb_run]
    rw [ih]
    simp [List.append_assoc]

/-- The handler run on printable keys, with no modifier held and room in the
line buffer: the characters are stored one after the other. -/
theorem kb_run_plain (kenv : KbEnv) (h255 : kenv.MAXBUFLEN ≤ 255) :
    ∀ (keys : List Nat) (k : Kbd), no_modifier k → (∀ sc ∈ keys, plain_key kenv sc) →
      k.kbbuf_index k.current_terminal + keys.length ≤ kenv.MAXBUFLEN →
      (kb_run kenv keys k).1.current_terminal = k.current_terminal ∧
      no_modifier (kb_run kenv keys k).1 ∧
      (kb_run kenv keys k).1.kbbuf_index k.current_terminal
        = k.kbbuf_index k.current_terminal + keys.length ∧
      (∀ j, (kb_run kenv keys k).1.kb_buffer k.current_terminal j =
        if k.kbbuf_index k.current_terminal ≤ j ∧
            j < k.kbbuf_index k.current_terminal + keys.length
        then kenv.KBkeys 0 (keys.getD (j - k.kbbuf_index k.current_terminal) 0)
        else k.kb_buffer k.current_terminal j) ∧
      (kb_run kenv keys k).1.out_buffer = k.out_buffer ∧
      (kb_run kenv keys k).1.kb_buf_read = k.kb_buf_read ∧
      (kb_run kenv keys k).2 = List.range' (k.kbbuf_index k.current_terminal) keys.length := by
  intro keys
  induction keys with
  | nil =>
    intro k hst _ _
    refine ⟨rfl, hst, rfl, ?_, rfl, rfl, rfl⟩
    intro j
    have : ¬ (k.kbbuf_index k.current_terminal ≤ j ∧
        j < k.kbbuf_index k.current_terminal + ([] : List Nat).length) := by
      simp
    rw [if_neg this]
    rfl
  | cons sc rest ih =>
    intro k hst hkeys hlen
    simp only [List.length_cons] at hlen
    have hidx : k.kbbuf_index k.current_terminal < kenv.MAXBUFLEN := by omega
    have hstep := keyboard_handler_press kenv sc k hst (hkeys sc (by simp)) hidx
    have hmod : (k.kbbuf_index k.current_terminal + 1) % 256
        = k.kbbuf_index k.current_terminal + 1 := Nat.mod_eq_of_lt (by omega)
    obtain ⟨k1, hk1⟩ : ∃ k1, k1 = (keyboard_handler kenv sc k).kbd := ⟨_, rfl⟩
    have hct1 : k1.current_terminal = k.current_terminal := by rw [hk1, hstep]
    have hst1 : no_modifier k1 := by rw [hk1, hstep]; exact hst
    have hi1 : k1.kbbuf_index k.current_terminal = k.kbbuf_index k.current_terminal + 1 := by
      rw [hk1, hstep]; simp [hmod]
    have hb1 : k1.kb_buffer k.current_terminal =
        Function.update (k.kb_buffer k.current_terminal)
          (k.kbbuf_index k.current_terminal) (kenv.KBkeys 0 sc) := by
      rw [hk1, hstep]; simp
    have ho1 : k1.out_buffer = k.out_buffer := by rw [hk1, hstep]
    have hr1 : k1.kb_buf_read = k.kb_buf_read := by rw [hk1, hstep]
    have hs1 : (keyboard_handler kenv sc k).stores = [k.kbbuf_index k.current_terminal] := by
      rw [hstep]
    obtain ⟨i1, i2, i3, i4, i5, i6, i7⟩ := ih k1 hst1 (fun x hx => hkeys x (by simp [hx]))
      (by rw [hct1, hi1]; omega)
    rw [hct1] at i1 i3 i4 i7
    rw [hi1] at i3 i4 i7
    simp only [kb_run, ← hk1, hs1]
    refine ⟨i1, i2, ?_, ?_, ?_, ?_, ?_⟩
    · rw [i3]; simp only [List.length_cons]; omega
    · intro j
      rw [i4 j, hb1]
      simp only [List.length_cons]
      by_cases hj : j = k.kbbuf_index k.current_terminal
      · subst hj
        simp
      · rw [Function.update_noteq hj]
        by_cases hj2 : k.kbbuf_index k.current_terminal + 1 ≤ j ∧
            j < k.kbbuf_index k.current_terminal + 1 + rest.length
        · have hj3 : k.kbbuf_index k.current_terminal ≤ j ∧
              j < k.kbbuf_index k.current_terminal + (rest.length + 1) := by omega
          rw [if_pos hj2, if_pos hj3]
          have e : j - k.kbbuf_index k.current_terminal
              = (j - (k.kbbuf_index k.current_terminal + 1)) + 1 := by omega
          rw [e]
          rfl
        · have hj3 : ¬ (k.kbbuf_index k.current_terminal ≤ j ∧
              j < k.kbbuf_index k.current_terminal + (rest.length + 1)) := by omega
          rw [if_neg hj2, if_neg hj3]
    · rw [i5, ho1]
    · rw [i6, hr1]
    · rw [i7]
      simp [List.range'_succ]

/-- A line of printable keys followed by ENTER, typed into an empty line
buffer: the stores, the output buffer and the ready flag afterwards. -/
theorem kb_run_line (kenv : KbEnv) (h255 : kenv.MAXBUFLEN ≤ 255) (he : enter_key kenv)
    (keys : List Nat) (k : Kbd) (hst : no_modifier k)
    (hkeys : ∀ sc ∈ keys, plain_key kenv sc)
    (hempty : k.kbbuf_index k.current_terminal = 0)
    (hlen : keys.length ≤ kenv.MAXBUFLEN) :
    (kb_run kenv (keys ++ [kenv.ENTER]) k).2 = List.range' 0 keys.length ++ [keys.length] ∧
    (kb_run kenv (keys ++ [kenv.ENTER]) k).1.current_terminal = k.current_terminal ∧
    (kb_run kenv (keys ++ [kenv.ENTER]) k).1.kb_buf_read k.current_terminal = 1 ∧
    (kb_run kenv (keys ++ [kenv.ENTER]) k).1.kbbuf_index k.current_terminal = 0 ∧
    (kb_run kenv (keys ++ [kenv.ENTER]) k).1.out_buffer k.current_terminal =
      fun j => if j < keys.length then kenv.KBkeys 0 (keys.getD j 0)
        else k.out_buffer k.current_terminal j := by
  obtain ⟨i1, _, i3, i4, i5, _, i7⟩ := kb_run_plain kenv h255 keys k hst hkeys
    (by rw [hempty]; omega)
  rw [hempty] at i3 i4 i7
  simp only [Nat.zero_add, Nat.sub_zero, Nat.zero_le, true_and] at i3 i4 i7
  obtain ⟨e1, e2, e3, e4, e5⟩ := keyboard_handler_enter kenv (kb_run kenv keys k).1 he
  rw [i1] at e1 e2 e3 e4 e5
  rw [i3] at e1 e5
  rw [kb_run_append]
  simp only [kb_run, List.append_nil]
  refine ⟨?_, e2, e4, e3, ?_⟩
  · rw [i7, e1]
  · rw [e5]
    funext j
    by_cases hj : j < keys.length
    · simp only [if_pos hj]
      rw [i4 j, if_pos hj]
    · simp only [if_neg hj]
      rw [i5]

theorem terminal_read_ready (kenv : KbEnv) (buf : Nat → Nat) (L : Int) (k : Kbd)
    (hL : 0 ≤ L) (hready : k.kb_buf_read k.current_terminal ≠ 0) :
    ∃ k1, terminal_read kenv (some buf) L k =
      some ((if L < (kenv.MAXBUFLEN : Int) then L else (kenv.MAXBUFLEN : Int)),
        some (fun j =>
          if j < (if L < (kenv.MAXBUFLEN : Int) then L else (kenv.MAXBUFLEN : Int)).toNat
          then k.out_buffer k.current_terminal j else buf j), k1) := by
  have hneg : ¬ L < 0 := by omega
  unfold terminal_read
  simp only [if_neg hneg, if_neg hready, memcpy_eq]
  exact ⟨_, rfl⟩

/-- What `terminal_read` copies after a line of printable keys and ENTER: the
characters typed, followed by what the output buffer held before, and no line
feed. -/
theorem typed_line_read (kenv : KbEnv) (h255 : kenv.MAXBUFLEN ≤ 255) (he : enter_key kenv)
    (keys : List Nat) (k : Kbd) (hst : no_modifier k)
    (hkeys : ∀ sc ∈ keys, plain_key kenv sc)
    (hempty : k.kbbuf_index k.current_terminal = 0)
    (hlen : keys.length ≤ kenv.MAXBUFLEN) (buf : Nat → Nat) (L : Int) (hL : 0 ≤ L) :
    ∃ k1, terminal_read kenv (some buf) L (kb_run kenv (keys ++ [kenv.ENTER]) k).1 =
      some ((if L < (kenv.MAXBUFLEN : Int) then L else (kenv.MAXBUFLEN : Int)),
        some (fun j =>
          if j < (if L < (kenv.MAXBUFLEN : Int) then L else (kenv.MAXBUFLEN : Int)).toNat
          then (if j < keys.length then kenv.KBkeys 0 (keys.getD j 0)
            else k.out_buffer k.current_terminal j)
          else buf j), k1) := by
  obtain ⟨_, l2, l3, _, l5⟩ := kb_run_line kenv h255 he keys k hst hkeys hempty hlen
  obtain ⟨k1, hk1⟩ := terminal_read_ready kenv buf L (kb_run kenv (keys ++ [kenv.ENTER]) k).1
    hL (by rw [l2, l3]; decide)
  refine ⟨k1, ?_⟩
  rw [hk1, l2, l5]

theorem demo_plain_a : plain_key demo_kenv 30 := by
  unfold plain_key
  decide

theorem demo_plain_b : plain_key demo_kenv 48 := by
  unfold plain_key
  decide

theorem demo_enter : enter_key demo_kenv := by
  unfold enter_key
  decide

/-- C16 (the code at the failing input): the keys `a`, `b` and ENTER are typed
on terminal 0 into empty buffers, and `terminal_read` is called with a length of
128 on a buffer whose bytes are all 7.  The call returns 128 and the buffer
starts with `a`, `b`, NUL, NUL: the byte after the typed characters is not the
line feed. -/
theorem terminal_read_without_line_feed :
    ∃ b k1, terminal_read demo_kenv (some (fun _ => 7)) 128
        (kb_run demo_kenv ([30, 48] ++ [demo_kenv.ENTER]) kbd_init).1 = some (128, some b, k1) ∧
      (List.range 4).map b = [97, 98, 0, 0] ∧ b 2 ≠ LINE_FEED := by
  obtain ⟨k1, hk1⟩ := typed_line_read demo_kenv (by decide) demo_enter [30, 48] kbd_init rfl
    (by
      intro sc hsc
      simp only [List.mem_cons, List.mem_singleton, List.not_mem_nil, or_false] at hsc
      rcases hsc with h | h
      · rw [h]; exact demo_plain_a
      · rw [h]; exact demo_plain_b)
    rfl (by decide) (fun _ => 7) 128 (by decide)
  refine ⟨_, k1, hk1, ?_, ?_⟩
  · decide
  · decide

/-- The handler run on `MAXBUFLEN` printable keys and ENTER, from an empty line
buffer: the last store, the one of the line feed, is at the index
`MAXBUFLEN`. -/
theorem kb_run_full_line (kenv : KbEnv) (h255 : kenv.MAXBUFLEN ≤ 255) (he : enter_key kenv)
    (sc : Nat) (hsc : plain_key kenv sc) (k : Kbd) (hst : no_modifier k)
    (hempty : k.kbbuf_index k.current_terminal = 0) :
    (kb_run kenv (List.replicate kenv.MAXBUFLEN sc ++ [kenv.ENTER]) k).2
      = List.range' 0 kenv.MAXBUFLEN ++ [kenv.MAXBUFLEN] := by
  have h := (kb_run_line kenv h255 he (List.replicate kenv.MAXBUFLEN sc) k hst
    (fun x hx => by rw [List.eq_of_mem_replicate hx]; exact hsc) hempty (by simp)).1
  simpa using h

/-- C18 (the code at the failing input): with `MAXBUFLEN = 128`, the key `a` is
typed 128 times into the empty line buffer of terminal 0 and then ENTER is
pressed.  The handler stores at the indices 0..127 for the keys and then at the
index 128 for the line feed, which is not below `MAXBUFLEN`. -/
theorem enter_stores_at_maxbuflen :
    (kb_run demo_kenv (List.replicate demo_kenv.MAXBUFLEN 30 ++ [demo_kenv.ENTER]) kbd_init).2
      = List.range' 0 demo_kenv.MAXBUFLEN ++ [demo_kenv.MAXBUFLEN] ∧
    demo_kenv.MAXBUFLEN = 128 ∧
    demo_kenv.MAXBUFLEN ∈
      (kb_run demo_kenv (List.replicate demo_kenv.MAXBUFLEN 30 ++ [demo_kenv.ENTER]) kbd_init).2 ∧
    ¬ (demo_kenv.MAXBUFLEN < demo_kenv.MAXBUFLEN) := by
  have h := kb_run_full_line demo_kenv (by decide) demo_enter 30 demo_plain_a kbd_init rfl rfl
  refine ⟨h, rfl, ?_, Nat.lt_irrefl _⟩
  rw [h]
  simp

theorem update_le (f : Nat → Nat) (a v m : Nat) (hf : ∀ t, f t ≤ m) (hv : v ≤ m) :
    ∀ t, Function.update f a v t ≤ m := by
  intro t
  by_cases h : t = a
  · subst h; simpa using hv
  · simpa [Function.update_noteq h] using hf t

theorem put_into_buffer_bounds (kenv : KbEnv) (keycode : Nat) (calls : List KbCall) (k : Kbd)
    (h255 : kenv.MAXBUFLEN ≤ 255) (hinv : ∀ t, k.kbbuf_index t ≤ kenv.MAXBUFLEN) :
    (∀ t, (put_into_buffer kenv keycode calls k).kbd.kbbuf_index t ≤ kenv.MAXBUFLEN) ∧
    (∀ i ∈ (put_into_buffer kenv keycode calls k).stores, i < kenv.MAXBUFLEN) := by
  unfold put_into_buffer
  by_cases h : k.kbbuf_index k.current_terminal < kenv.MAXBUFLEN ∧ keycode ≠ 0
  · simp only [if_pos h]
    constructor
    · apply update_le _ _ _ _ hinv
      have : (k.kbbuf_index k.current_terminal + 1) % 256
          = k.kbbuf_index k.current_terminal + 1 := Nat.mod_eq_of_lt (by omega)
      rw [this]; omega
    · intro i hi
      simp only [List.mem_singleton] at hi
      rw [hi]; exact h.1
  · simp only [if_neg h]
    exact ⟨hinv, fun i hi => absurd hi (List.not_mem_nil i)⟩

theorem clear_buffer_bounds (kenv : KbEnv) (flag : Bool) (k : Kbd)
    (hinv : ∀ t, k.kbbuf_index t ≤ kenv.MAXBUFLEN) :
    ∀ t, (clear_buffer kenv flag k).kbbuf_index t ≤ kenv.MAXBUFLEN := by
  unfold clear_buffer
  cases flag with
  | true =>
    simp only [if_true]
    exact update_le _ _ _ _ hinv (Nat.zero_le _)
  | false =>
    simpa using hinv

theorem handle_key_bounds (kenv : KbEnv) (sc : Nat) (k : Kbd)
    (h255 : kenv.MAXBUFLEN ≤ 255) (hinv : ∀ t, k.kbbuf_index t ≤ kenv.MAXBUFLEN) :
    (∀ t, (handle_key kenv sc k).kbd.kbbuf_index t ≤ kenv.MAXBUFLEN) ∧
    (∀ i ∈ (handle_key kenv sc k).stores, i < kenv.MAXBUFLEN) := by
  have hnil : ∀ i ∈ ([] : List Nat), i < kenv.MAXBUFLEN :=
    fun i hi => absurd hi (List.not_mem_nil i)
  by_cases c1 : k.keyboard_status.ctrl = true ∧ sc = kenv.L
  · simp only [handle_key, if_pos c1]
    exact ⟨hinv, hnil⟩
  · by_cases c2 : k.keyboard_status.ctrl = true ∧ sc = kenv.C
    · simp only [handle_key, if_neg c1, if_pos c2]
      exact ⟨clear_buffer_bounds kenv true k hinv, hnil⟩
    · by_cases c3 : k.keyboard_status.alt = true ∧ sc = kenv.F1
      · simp only [handle_key, if_neg c1, if_neg c2, if_pos c3]
        exact ⟨hinv, hnil⟩
      · by_cases c4 : k.keyboard_status.alt = true ∧ sc = kenv.F2
        · simp only [handle_key, if_neg c1, if_neg c2, if_neg c3, if_pos c4]
          exact ⟨hinv, hnil⟩
        · by_cases c5 : k.keyboard_status.alt = true ∧ sc = kenv.F3
          · simp only [handle_key, if_neg c1, if_neg c2, if_neg c3, if_neg c4, if_pos c5]
            exact ⟨hinv, hnil⟩
          · by_cases c6 : k.keyboard_status.ctrl = true ∧ k.keyboard_status.shift = true ∧ sc = kenv.TAB
            · simp only [handle_key, if_neg c1, if_neg c2, if_neg c3, if_neg c4, if_neg c5, if_pos c6]
              exact put_into_buffer_bounds kenv _ _ k h255 hinv
            · by_cases c7 : k.keyboard_status.ctrl = true ∧ sc = kenv.TAB
              · simp only [handle_key, if_neg c1, if_neg c2, if_neg c3, if_neg c4, if_neg c5, if_neg c6, if_pos c7]
                exact put_into_buffer_bounds kenv _ _ k h255 hinv
              · by_cases c8 : ¬ k.keyboard_status.shift = true ∧ ¬ k.keyboard_status.capslock = true
                · simp only [handle_key, if_neg c1, if_neg c2, if_neg c3, if_neg c4, if_neg c5, if_neg c6, if_neg c7, if_pos c8]
                  exact put_into_buffer_bounds kenv _ _ k h255 hinv
                · by_cases c9 : k.keyboard_status.shift = true ∧ ¬ k.keyboard_status.capslock = true
                  · simp only [handle_key, if_neg c1, if_neg c2, if_neg c3, if_neg c4, if_neg c5, if_neg c6, if_neg c7, if_neg c8, if_pos c9]
                    exact put_into_buffer_bounds kenv _ _ k h255 hinv
                  · by_cases c10 : ¬ k.keyboard_status.shift = true ∧ k.keyboard_status.capslock = true
                    · simp only [handle_key, if_neg c1, if_neg c2, if_neg c3, if_neg c4, if_neg c5, if_neg c6, if_neg c7, if_neg c8, if_neg c9, if_pos c10]
                      exact put_into_buffer_bounds kenv _ _ k h255 hinv
                    · simp only [handle_key, if_neg c1, if_neg c2, if_neg c3, if_neg c4, if_neg c5, if_neg c6, if_neg c7, if_neg c8, if_neg c9, if_neg c10]
                      exact put_into_buffer_bounds kenv _ _ k h255 hinv

/-- One run of the handler keeps every `kbbuf_index` at most `MAXBUFLEN`; its
stores into the line buffer are at indices at most `MAXBUFLEN`, and below
`MAXBUFLEN` for every scancode but ENTER. -/
theorem keyboard_handler_bounds (kenv : KbEnv) (sc : Nat) (k : Kbd)
    (h255 : kenv.MAXBUFLEN ≤ 255) (hinv : ∀ t, k.kbbuf_index t ≤ kenv.MAXBUFLEN) :
    (∀ t, (keyboard_handler kenv sc k).kbd.kbbuf_index t ≤ kenv.MAXBUFLEN) ∧
    (∀ i ∈ (keyboard_handler kenv sc k).stores, i ≤ kenv.MAXBUFLEN) ∧
    (sc ≠ kenv.ENTER → ∀ i ∈ (keyboard_handler kenv sc k).stores, i < kenv.MAXBUFLEN) := by
  have hnil : ∀ i ∈ ([] : List Nat), i < kenv.MAXBUFLEN :=
    fun i hi => absurd hi (List.not_mem_nil i)
  have hnil2 : ∀ i ∈ ([] : List Nat), i ≤ kenv.MAXBUFLEN :=
    fun i hi => absurd hi (List.not_mem_nil i)
  by_cases c1 : sc = kenv.LCTRL_ON
  · simp only [keyboard_handler, if_pos c1]
    exact ⟨hinv, hnil2, fun _ => hnil⟩
  · by_cases c2 : sc = kenv.LCTRL_OFF
    · simp only [keyboard_handler, if_neg c1, if_pos c2]
      exact ⟨hinv, hnil2, fun _ => hnil⟩
    · by_cases c3 : sc = kenv.LSHIFT_ON
      · simp only [keyboard_handler, if_neg c1, if_neg c2, if_pos c3]
        exact ⟨hinv, hnil2, fun _ => hnil⟩
      · by_cases c4 : sc = kenv.LSHIFT_OFF
        · simp only [keyboard_handler, if_neg c1, if_neg c2, if_neg c3, if_pos c4]
          exact ⟨hinv, hnil2, fun _ => hnil⟩
        · by_cases c5 : sc = kenv.RSHIFT_ON
          · simp only [keyboard_handler, if_neg c1, if_neg c2, if_neg c3, if_neg c4, if_pos c5]
            exact ⟨hinv, hnil2, fun _ => hnil⟩
          · by_cases c6 : sc = kenv.RSHIFT_OFF
            · simp only [keyboard_handler, if_neg c1, if_neg c2, if_neg c3, if_neg c4, if_neg c5, if_pos c6]
              exact ⟨hinv, hnil2, fun _ => hnil⟩
            · by_cases c7 : sc = kenv.LALT_ON
              · simp only [keyboard_handler, if_neg c1, if_neg c2, if_neg c3, if_neg c4, if_neg c5, if_neg c6, if_pos c7]
                exact ⟨hinv, hnil2, fun _ => hnil⟩
              · by_cases c8 : sc = kenv.LALT_OFF
                · simp only [keyboard_handler, if_neg c1, if_neg c2, if_neg c3, if_neg c4, if_neg c5, if_neg c6, if_neg c7, if_pos c8]
                  exact ⟨hinv, hnil2, fun _ => hnil⟩
                · by_cases c9 : sc = kenv.CAPSLOCK
                  · simp only [keyboard_handler, if_neg c1, if_neg c2, if_neg c3, if_neg c4, if_neg c5, if_neg c6, if_neg c7, if_neg c8, if_pos c9]
                    exact ⟨hinv, hnil2, fun _ => hnil⟩
                  · by_cases c10 : sc = kenv.ENTER
                    · simp only [keyboard_handler, if_neg c1, if_neg c2, if_neg c3, if_neg c4, if_neg c5, if_neg c6, if_neg c7, if_neg c8, if_neg c9, if_pos c10]
                      refine ⟨?_, ?_, fun h => absurd c10 h⟩
                      · intro t
                        by_cases ht : t = k.current_terminal
                        · subst ht; simp [clear_buffer]
                        · simpa [clear_buffer, Function.update_noteq ht] using hinv t
                      · intro i hi
                        simp only [List.mem_singleton] at hi
                        rw [hi]; exact hinv _
                    · by_cases c11 : sc = kenv.BACKSPACE
                      · simp only [keyboard_handler, if_neg c1, if_neg c2, if_neg c3, if_neg c4, if_neg c5, if_neg c6, if_neg c7, if_neg c8, if_neg c9, if_neg c10, if_pos c11]
                        by_cases hz : 0 < k.kbbuf_index k.current_terminal
                        · have hpos : k.kbbuf_index k.current_terminal - 1 < kenv.MAXBUFLEN := by
                            have := hinv k.current_terminal
                            omega
                          simp only [if_pos hz]
                          refine ⟨?_, ?_, fun _ => ?_⟩
                          · exact update_le _ _ _ _ hinv (Nat.le_of_lt hpos)
                          · intro i hi
                            simp only [List.mem_singleton] at hi
                            rw [hi]; exact Nat.le_of_lt hpos
                          · intro i hi
                            simp only [List.mem_singleton] at hi
                            rw [hi]; exact hpos
                        · simp only [if_neg hz]
                          exact ⟨hinv, hnil2, fun _ => hnil⟩
                      · by_cases c12 : sc &&& kenv.KB_PRESS_MASK = 0
                        · simp only [keyboard_handler, if_neg c1, if_neg c2, if_neg c3, if_neg c4, if_neg c5, if_neg c6, if_neg c7, if_neg c8, if_neg c9, if_neg c10, if_neg c11, if_pos c12]
                          obtain ⟨a, b⟩ := handle_key_bounds kenv sc k h255 hinv
                          exact ⟨a, fun i hi => Nat.le_of_lt (b i hi), fun _ => b⟩
                        · simp only [keyboard_handler, if_neg c1, if_neg c2, if_neg c3, if_neg c4, if_neg c5, if_neg c6, if_neg c7, if_neg c8, if_neg c9, if_neg c10, if_neg c11, if_neg c12]
                          exact ⟨hinv, hnil2, fun _ => hnil⟩

/-- Every sequence of scancodes, from a state in which every `kbbuf_index` is at
most `MAXBUFLEN`: the indices stay at most `MAXBUFLEN`, every store into the
line buffer is at an index at most `MAXBUFLEN`, and below `MAXBUFLEN` when the
sequence holds no ENTER. -/
theorem kb_run_bounds (kenv : KbEnv) (h255 : kenv.MAXBUFLEN ≤ 255) :
    ∀ (l : List Nat) (k : Kbd), (∀ t, k.kbbuf_index t ≤ kenv.MAXBUFLEN) →
      (∀ t, (kb_run kenv l k).1.kbbuf_index t ≤ kenv.MAXBUFLEN) ∧
      (∀ i ∈ (kb_run kenv l k).2, i ≤ kenv.MAXBUFLEN) ∧
      (kenv.ENTER ∉ l → ∀ i ∈ (kb_run kenv l k).2, i < kenv.MAXBUFLEN) := by
  intro l
  induction l with
  | nil =>
    intro k hinv
    exact ⟨hinv, fun i hi => absurd hi (List.not_mem_nil i),
      fun _ i hi => absurd hi (List.not_mem_nil i)⟩
  | cons sc rest ih =>
    intro k hinv
    obtain ⟨a1, a2, a3⟩ := keyboard_handler_bounds kenv sc k h255 hinv
    obtain ⟨b1, b2, b3⟩ := ih (keyboard_handler kenv sc k).kbd a1
    simp only [kb_run]
    refine ⟨b1, ?_, ?_⟩
    · intro i hi
      rcases List.mem_append.1 hi with h | h
      · exact a2 i h
      · exact b2 i h
    · intro hne i hi
      have h1 : sc ≠ kenv.ENTER := fun e => hne (by rw [e]; simp)
      have h2 : kenv.ENTER ∉ rest := fun e => hne (by simp [e])
      rcases List.mem_append.1 hi with h | h
      · exact a3 h1 i h
      · exact b3 h2 i h

end Ece391
